import Mathlib

/-!
# sqlite-operator: the SQLiteDB reconciler

A shallow embedding of `api/v1/sqlitedb_types.go` and
`internal/controller/sqlitedb_controller.go`.

* Go structs become Lean structures with the same field names; an unset
  string is `""`, an unset pointer is `none`, `int32` values are `Int`.
* Go maps with string keys are association lists written in literal order.
* `resource.Quantity` is a type parameter `Q` and `resource.MustParse` a
  parameter `MustParse : String → Option Q`, where `none` is the panic of an
  unparseable quantity.
* The cluster client is a record of state-passing functions; every call made
  through it is appended to a trace, so that theorems can speak about which
  calls a pass issues.
* `controllerutil.CreateOrUpdate` and `controllerutil.SetControllerReference`
  are controller-runtime library calls, not code of the repository; they are
  embedded following the library, with owner references compared as the
  library compares them (group, kind and name).
-/

set_option autoImplicit false
set_option linter.dupNamespace false

namespace SQLiteOperator

/-! ## api/v1/sqlitedb_types.go -/

/-- StorageSpec defines the storage configuration for SQLiteDB. -/
structure StorageSpec where
  Size : String := ""
  StorageClass : String := ""
deriving DecidableEq, Repr

/-- SQLiteDBSpec defines the desired state of SQLiteDB. -/
structure SQLiteDBSpec where
  DatabaseName : String := ""
  Storage : StorageSpec := {}
  StorageSize : String := ""
  InitSQL : String := ""
  Replicas : Option Int := none
  BackupEnabled : Bool := false
  BackupSchedule : String := ""
deriving DecidableEq, Repr

/-- The `metav1.Condition` record (not populated by the reconciler). -/
structure Condition where
  Type_ : String := ""
  Status : String := ""
  Reason : String := ""
  Message : String := ""
deriving DecidableEq, Repr

/-- SQLiteDBStatus defines the observed state of SQLiteDB. -/
structure SQLiteDBStatus where
  Phase : String := ""
  Ready : Bool := false
  DatabaseSize : String := ""
  LastBackup : Option Nat := none
  PodName : String := ""
  Conditions : List Condition := []
deriving DecidableEq, Repr

/-! ## The parts of the Kubernetes object model the controller touches -/

/-- The `metav1.OwnerReference` record; `APIVersion` is kept as group and version. -/
structure OwnerReference where
  Group : String := ""
  Version : String := ""
  Kind : String := ""
  Name : String := ""
  UID : String := ""
  Controller : Option Bool := none
  BlockOwnerDeletion : Option Bool := none
deriving DecidableEq, Repr

/-- The `metav1.ObjectMeta` record. -/
structure ObjectMeta where
  Name : String := ""
  Namespace : String := ""
  UID : String := ""
  Labels : List (String × String) := []
  OwnerReferences : List OwnerReference := []
deriving DecidableEq, Repr

/-- The `client.ObjectKey` (`types.NamespacedName`) record. -/
structure ObjectKey where
  Namespace : String := ""
  Name : String := ""
deriving DecidableEq, Repr

/-- SQLiteDB is the Schema for the sqlitedbs API. -/
structure SQLiteDB where
  ObjectMeta : ObjectMeta := {}
  Spec : SQLiteDBSpec := {}
  Status : SQLiteDBStatus := {}
deriving DecidableEq, Repr

/-- The `corev1.PersistentVolumeClaimSpec` record. -/
structure PersistentVolumeClaimSpec (Q : Type) where
  AccessModes : List String := []
  Requests : List (String × Q) := []
  StorageClassName : Option String := none
  VolumeName : String := ""
deriving DecidableEq, Repr

/-- The `corev1.PersistentVolumeClaim` object. -/
structure PersistentVolumeClaim (Q : Type) where
  ObjectMeta : ObjectMeta := {}
  Spec : PersistentVolumeClaimSpec Q := {}
  StatusPhase : String := ""
deriving DecidableEq, Repr

/-- The `corev1.ConfigMap` object. -/
structure ConfigMap where
  ObjectMeta : ObjectMeta := {}
  Data : List (String × String) := []
  BinaryData : List (String × String) := []
deriving DecidableEq, Repr

/-- The `corev1.VolumeMount` record. -/
structure VolumeMount where
  Name : String := ""
  MountPath : String := ""
  ReadOnly : Bool := false
deriving DecidableEq, Repr

/-- The `corev1.ContainerPort` record. -/
structure ContainerPort where
  ContainerPort : Int := 0
  Protocol : String := ""
deriving DecidableEq, Repr

/-- The `corev1.Container` record. -/
structure Container where
  Name : String := ""
  Image : String := ""
  Command : List String := []
  VolumeMounts : List VolumeMount := []
  Ports : List ContainerPort := []
deriving DecidableEq, Repr

/-- The `corev1.PersistentVolumeClaimVolumeSource` record. -/
structure PersistentVolumeClaimVolumeSource where
  ClaimName : String := ""
  ReadOnly : Bool := false
deriving DecidableEq, Repr

/-- The `corev1.ConfigMapVolumeSource` record (its `LocalObjectReference.Name`). -/
structure ConfigMapVolumeSource where
  Name : String := ""
deriving DecidableEq, Repr

/-- The `corev1.VolumeSource` record: at most one of the pointers is set. -/
structure VolumeSource where
  PersistentVolumeClaim : Option PersistentVolumeClaimVolumeSource := none
  ConfigMap : Option ConfigMapVolumeSource := none
deriving DecidableEq, Repr

/-- The `corev1.Volume` record. -/
structure Volume where
  Name : String := ""
  VolumeSource : VolumeSource := {}
deriving DecidableEq, Repr

/-- The `corev1.PodSpec` record. -/
structure PodSpec where
  Containers : List Container := []
  Volumes : List Volume := []
deriving DecidableEq, Repr

/-- The `corev1.PodTemplateSpec` record (`ObjectMeta.Labels` and `Spec`). -/
structure PodTemplateSpec where
  Labels : List (String × String) := []
  Spec : PodSpec := {}
deriving DecidableEq, Repr

/-- The `metav1.LabelSelector` record. -/
structure LabelSelector where
  MatchLabels : List (String × String) := []
deriving DecidableEq, Repr

/-- The `appsv1.DeploymentSpec` record. -/
structure DeploymentSpec where
  Replicas : Option Int := none
  Selector : Option LabelSelector := none
  Template : PodTemplateSpec := {}
deriving DecidableEq, Repr

/-- The `appsv1.DeploymentStatus` record. -/
structure DeploymentStatus where
  Replicas : Int := 0
  ReadyReplicas : Int := 0
deriving DecidableEq, Repr

/-- The `appsv1.Deployment` object. -/
structure Deployment where
  ObjectMeta : ObjectMeta := {}
  Spec : DeploymentSpec := {}
  Status : DeploymentStatus := {}
deriving DecidableEq, Repr

/-- The `corev1.ServicePort` record. -/
structure ServicePort where
  Port : Int := 0
  TargetPort : Int := 0
  Protocol : String := ""
deriving DecidableEq, Repr

/-- The `corev1.ServiceSpec` record. -/
structure ServiceSpec where
  Selector : List (String × String) := []
  Ports : List ServicePort := []
  Type_ : String := ""
  ClusterIP : String := ""
deriving DecidableEq, Repr

/-- The `corev1.Service` object. -/
structure Service where
  ObjectMeta : ObjectMeta := {}
  Spec : ServiceSpec := {}
deriving DecidableEq, Repr

/-! ## Errors and outcomes -/

/-- The `metav1.StatusReason` of an API error, plus the controller-runtime
`AlreadyOwnedError` and the plain `fmt.Errorf` errors of the helpers. -/
inductive Reason where
  | NotFound
  | AlreadyExists
  | Conflict
  | Timeout
  | InternalError
  | AlreadyOwned
  | Invalid
deriving DecidableEq, Repr

/-- A Go `error` value. -/
structure Error where
  reason : Reason
  message : String := ""
deriving DecidableEq, Repr

/-- The predicate `errors.IsNotFound`. -/
def IsNotFound (e : Error) : Bool :=
  decide (e.reason = Reason.NotFound)

/-- How a Go call ends: it returns a value with a nil error, returns a
non-nil error, or panics. -/
inductive Outcome (α : Type) where
  | ok : α → Outcome α
  | err : Error → Outcome α
  | panicked : String → Outcome α
deriving DecidableEq, Repr

/-- The `ctrl.Result` record; the controller only ever returns the empty one. -/
structure Result where
  Requeue : Bool := false
  RequeueAfter : Nat := 0
deriving DecidableEq, Repr

/-! ## controllerutil: owner references -/

/-- The key of an object, `client.ObjectKeyFromObject`. -/
def ObjectKeyFromObject (m : ObjectMeta) : ObjectKey :=
  { Namespace := m.Namespace, Name := m.Name }

/-- Two owner references refer to the same object when group, kind and name
agree (`referSameObject`); the UID is not compared. -/
def referSameObject (a b : OwnerReference) : Bool :=
  a.Group == b.Group && a.Kind == b.Kind && a.Name == b.Name

/-- The first owner reference marked as controller, `metav1.GetControllerOf`. -/
def GetControllerOf (m : ObjectMeta) : Option OwnerReference :=
  m.OwnerReferences.find? (fun r => r.Controller == some true)

/-- Replace the first reference to the same object by `ref`, or append `ref`
when there is none (`upsertOwnerRef` with `indexOwnerRef` unfolded). -/
def upsertOwnerRef (ref : OwnerReference) : List OwnerReference → List OwnerReference
  | [] => [ref]
  | r :: rs => if referSameObject r ref then ref :: rs else r :: upsertOwnerRef ref rs

/-- A namespaced owner may only own objects of its own namespace (`validateOwner`). -/
def validateOwner (owner object : ObjectMeta) : Option Error :=
  if owner.Namespace != "" then
    if object.Namespace == "" then
      some { reason := Reason.Invalid,
             message := "cluster-scoped resource must not have a namespace-scoped owner" }
    else if owner.Namespace != object.Namespace then
      some { reason := Reason.Invalid,
             message := "cross-namespace owner references are disallowed" }
    else none
  else none

/-- The controller reference that `SetControllerReference` builds for a SQLiteDB
owner; the group is the one of the kubebuilder RBAC markers. -/
def controllerRef (owner : SQLiteDB) : OwnerReference :=
  { Group := "database.example.com", Version := "v1", Kind := "SQLiteDB",
    Name := owner.ObjectMeta.Name, UID := owner.ObjectMeta.UID,
    Controller := some true, BlockOwnerDeletion := some true }

/-- The library call `controllerutil.SetControllerReference(owner, controlled, scheme)`,
acting on the metadata of the controlled object. -/
def SetControllerReference (owner : SQLiteDB) (controlled : ObjectMeta) : Except Error ObjectMeta :=
  match validateOwner owner.ObjectMeta controlled with
  | some e => .error e
  | none =>
    match GetControllerOf controlled with
    | some existing =>
      if !referSameObject existing (controllerRef owner) then
        .error { reason := Reason.AlreadyOwned,
                 message := "Object is already owned by another controller" }
      else
        .ok { controlled with
              OwnerReferences := upsertOwnerRef (controllerRef owner) controlled.OwnerReferences }
    | none =>
      .ok { controlled with
            OwnerReferences := upsertOwnerRef (controllerRef owner) controlled.OwnerReferences }

/-! ## The cluster client and the trace of its calls -/

/-- The object kinds the controller reads or writes. -/
inductive Kind where
  | SQLiteDB
  | PersistentVolumeClaim
  | ConfigMap
  | Deployment
  | Service
deriving DecidableEq, Repr

/-- The client calls the controller makes. -/
inductive Verb where
  | Get
  | Create
  | Update
  | StatusUpdate
deriving DecidableEq, Repr

/-- An object of any of the kinds, as sent to the cluster store. -/
inductive Object (Q : Type) where
  | sqliteDB : SQLiteDB → Object Q
  | pvc : PersistentVolumeClaim Q → Object Q
  | configMap : ConfigMap → Object Q
  | deployment : Deployment → Object Q
  | service : Service → Object Q
deriving DecidableEq, Repr

/-- One client call: the step of `Reconcile` that made it (1 fetch, 2 storage
claim, 3 bootstrap config, 4 workload, 5 endpoint, 6 status), the verb, kind
and key, the object sent (writes) or returned (successful reads), and the
error returned, if any. -/
structure Event (Q : Type) where
  step : Nat
  verb : Verb
  kind : Kind
  key : ObjectKey
  obj : Option (Object Q) := none
  err : Option Error := none
deriving DecidableEq, Repr

/-- The typed client calls for one dependent kind, over a client state `σ`. -/
structure KindClient (σ α : Type) where
  Get : ObjectKey → σ → Except Error α × σ
  Create : α → σ → Option Error × σ
  Update : α → σ → Option Error × σ

/-- The embedded `client.Client` of the reconciler. -/
structure Client (σ Q : Type) where
  GetSQLiteDB : ObjectKey → σ → Except Error SQLiteDB × σ
  StatusUpdate : SQLiteDB → σ → Option Error × σ
  PersistentVolumeClaims : KindClient σ (PersistentVolumeClaim Q)
  ConfigMaps : KindClient σ ConfigMap
  Deployments : KindClient σ Deployment
  Services : KindClient σ Service

/-- What a call of a controller function leaves behind: how it ended, the
client state, and the client calls it made, in order. -/
structure Run (σ Q α : Type) where
  result : Outcome α
  state : σ
  trace : List (Event Q)

/-- Sequencing: `if err := first; err != nil { return err }; next`. -/
def Run.andThen {σ Q α β : Type} (r : Run σ Q α) (k : α → σ → Run σ Q β) : Run σ Q β :=
  match r.result with
  | .ok a => let r2 := k a r.state; ⟨r2.result, r2.state, r.trace ++ r2.trace⟩
  | .err e => ⟨.err e, r.state, r.trace⟩
  | .panicked m => ⟨.panicked m, r.state, r.trace⟩

/-- How the typed objects of one kind are seen generically. -/
structure ObjectInfo (Q α : Type) where
  kind : Kind
  metaOf : α → ObjectMeta
  wrap : α → Object Q

/-- The `controllerutil.OperationResult` values. -/
inductive OperationResult where
  | None
  | Created
  | Updated
deriving DecidableEq, Repr

/-- The wrapper `mutate` of controllerutil: run the mutate function and refuse
a change of the object key. -/
def mutate {Q α : Type} (info : ObjectInfo Q α) (f : α → Outcome α) (key : ObjectKey) (obj : α) :
    Outcome α :=
  match f obj with
  | .ok obj2 =>
    if key != ObjectKeyFromObject (info.metaOf obj2) then
      .err { reason := Reason.Invalid,
             message := "MutateFn cannot mutate object name and/or object namespace" }
    else .ok obj2
  | .err e => .err e
  | .panicked m => .panicked m

/-- The library call `controllerutil.CreateOrUpdate(ctx, c, obj, f)`: read the
object; when absent, mutate and create; when present, mutate and update only
if the mutated object differs from the one read. -/
def CreateOrUpdate {σ Q α : Type} [DecidableEq α] (step : Nat) (info : ObjectInfo Q α)
    (c : KindClient σ α) (obj : α) (f : α → Outcome α) (s : σ) : Run σ Q OperationResult :=
  let key := ObjectKeyFromObject (info.metaOf obj)
  match c.Get key s with
  | (.error e, s1) =>
    let get : Event Q := { step := step, verb := Verb.Get, kind := info.kind, key := key, err := some e }
    if !IsNotFound e then ⟨.err e, s1, [get]⟩
    else
      match mutate info f key obj with
      | .err e2 => ⟨.err e2, s1, [get]⟩
      | .panicked m => ⟨.panicked m, s1, [get]⟩
      | .ok obj2 =>
        match c.Create obj2 s1 with
        | (some e3, s2) =>
          ⟨.err e3, s2, [get, { step := step, verb := Verb.Create, kind := info.kind,
                                key := ObjectKeyFromObject (info.metaOf obj2),
                                obj := some (info.wrap obj2), err := some e3 }]⟩
        | (none, s2) =>
          ⟨.ok OperationResult.Created, s2,
            [get, { step := step, verb := Verb.Create, kind := info.kind,
                    key := ObjectKeyFromObject (info.metaOf obj2),
                    obj := some (info.wrap obj2) }]⟩
  | (.ok existing, s1) =>
    let get : Event Q :=
      { step := step, verb := Verb.Get, kind := info.kind, key := key,
        obj := some (info.wrap existing) }
    match mutate info f key existing with
    | .err e2 => ⟨.err e2, s1, [get]⟩
    | .panicked m => ⟨.panicked m, s1, [get]⟩
    | .ok obj2 =>
      if existing = obj2 then ⟨.ok OperationResult.None, s1, [get]⟩
      else
        match c.Update obj2 s1 with
        | (some e3, s2) =>
          ⟨.err e3, s2, [get, { step := step, verb := Verb.Update, kind := info.kind,
                                key := ObjectKeyFromObject (info.metaOf obj2),
                                obj := some (info.wrap obj2), err := some e3 }]⟩
        | (none, s2) =>
          ⟨.ok OperationResult.Updated, s2,
            [get, { step := step, verb := Verb.Update, kind := info.kind,
                    key := ObjectKeyFromObject (info.metaOf obj2),
                    obj := some (info.wrap obj2) }]⟩

/-! ## internal/controller/sqlitedb_controller.go -/

section Controller

variable {σ Q : Type} [DecidableEq Q]

/-- How the four dependent kinds are seen by `CreateOrUpdate`. -/
def pvcInfo : ObjectInfo Q (PersistentVolumeClaim Q) :=
  { kind := Kind.PersistentVolumeClaim, metaOf := fun o => o.ObjectMeta, wrap := Object.pvc }

/-- See `pvcInfo`. -/
def configMapInfo : ObjectInfo Q ConfigMap :=
  { kind := Kind.ConfigMap, metaOf := fun o => o.ObjectMeta, wrap := Object.configMap }

/-- See `pvcInfo`. -/
def deploymentInfo : ObjectInfo Q Deployment :=
  { kind := Kind.Deployment, metaOf := fun o => o.ObjectMeta, wrap := Object.deployment }

/-- See `pvcInfo`. -/
def serviceInfo : ObjectInfo Q Service :=
  { kind := Kind.Service, metaOf := fun o => o.ObjectMeta, wrap := Object.service }

/-- The local variable `storageSize` of the mutate function of `reconcilePVC`:
`"1Gi"`, overwritten by `Spec.StorageSize` when that is not empty. -/
def reconcilePVC.storageSize (sqliteDB : SQLiteDB) : String :=
  if sqliteDB.Spec.StorageSize != "" then sqliteDB.Spec.StorageSize else "1Gi"

/-- The object literal `pvc` that `reconcilePVC` starts from. -/
def reconcilePVC.pvc (sqliteDB : SQLiteDB) : PersistentVolumeClaim Q :=
  { ObjectMeta := { Name := sqliteDB.ObjectMeta.Name ++ "-storage",
                    Namespace := sqliteDB.ObjectMeta.Namespace } }

/-- The mutate function passed to `CreateOrUpdate` by `reconcilePVC`. -/
def reconcilePVC.mutateFn (MustParse : String → Option Q) (sqliteDB : SQLiteDB)
    (pvc : PersistentVolumeClaim Q) : Outcome (PersistentVolumeClaim Q) :=
  match MustParse (reconcilePVC.storageSize sqliteDB) with
  | none => .panicked "cannot parse quantity"
  | some quantity =>
    let pvc : PersistentVolumeClaim Q :=
      { pvc with Spec := { AccessModes := ["ReadWriteOnce"],
                           Requests := [("storage", quantity)] } }
    match SetControllerReference sqliteDB pvc.ObjectMeta with
    | .error e => .err e
    | .ok m => .ok { pvc with ObjectMeta := m }

/-- The Go function `reconcilePVC`. -/
def reconcilePVC (MustParse : String → Option Q) (c : Client σ Q) (sqliteDB : SQLiteDB) (s : σ) :
    Run σ Q Unit :=
  (CreateOrUpdate 2 pvcInfo c.PersistentVolumeClaims (reconcilePVC.pvc sqliteDB)
      (reconcilePVC.mutateFn MustParse sqliteDB) s).andThen
    (fun _ s1 => ⟨.ok (), s1, []⟩)

/-- The object literal `cm` that `reconcileConfigMap` starts from. -/
def reconcileConfigMap.cm (sqliteDB : SQLiteDB) : ConfigMap :=
  { ObjectMeta := { Name := sqliteDB.ObjectMeta.Name ++ "-init",
                    Namespace := sqliteDB.ObjectMeta.Namespace } }

/-- The mutate function passed to `CreateOrUpdate` by `reconcileConfigMap`. -/
def reconcileConfigMap.mutateFn (sqliteDB : SQLiteDB) (cm : ConfigMap) : Outcome ConfigMap :=
  let cm : ConfigMap := { cm with Data := [("init.sql", sqliteDB.Spec.InitSQL)] }
  match SetControllerReference sqliteDB cm.ObjectMeta with
  | .error e => .err e
  | .ok m => .ok { cm with ObjectMeta := m }

/-- The Go function `reconcileConfigMap`. -/
def reconcileConfigMap (c : Client σ Q) (sqliteDB : SQLiteDB) (s : σ) : Run σ Q Unit :=
  if sqliteDB.Spec.InitSQL == "" then ⟨.ok (), s, []⟩
  else
    (CreateOrUpdate 3 configMapInfo c.ConfigMaps (reconcileConfigMap.cm sqliteDB)
        (reconcileConfigMap.mutateFn sqliteDB) s).andThen
      (fun _ s1 => ⟨.ok (), s1, []⟩)

/-- The shell string that `reconcileDeployment` builds with `fmt.Sprintf`. -/
def reconcileDeployment.command (databaseName : String) : String :=
  "sqlite3 /data/" ++ databaseName ++ ".db < /init/init.sql || true; sqlite3 /data/"
    ++ databaseName ++ ".db '.timeout 30000' '.backup /data/" ++ databaseName ++ ".db'"

/-- The object literal `deployment` that `reconcileDeployment` starts from. -/
def reconcileDeployment.deployment (sqliteDB : SQLiteDB) : Deployment :=
  { ObjectMeta := { Name := sqliteDB.ObjectMeta.Name,
                    Namespace := sqliteDB.ObjectMeta.Namespace } }

/-- The `appsv1.DeploymentSpec` literal assigned in the mutate function of
`reconcileDeployment`, before the `InitSQL` branch. -/
def reconcileDeployment.baseSpec (sqliteDB : SQLiteDB) : DeploymentSpec :=
  let replicas : Int :=
    match sqliteDB.Spec.Replicas with
    | some n => n
    | none => 1
  { Replicas := some replicas,
    Selector := some { MatchLabels := [("app", sqliteDB.ObjectMeta.Name)] },
    Template :=
      { Labels := [("app", sqliteDB.ObjectMeta.Name)],
        Spec :=
          { Containers :=
              [{ Name := "sqlite",
                 Image := "keinos/sqlite3:latest",
                 Command := ["sh", "-c", reconcileDeployment.command sqliteDB.Spec.DatabaseName],
                 VolumeMounts := [{ Name := "storage", MountPath := "/data" }],
                 Ports := [{ ContainerPort := 8080, Protocol := "TCP" }] }],
            Volumes :=
              [{ Name := "storage",
                 VolumeSource :=
                   { PersistentVolumeClaim :=
                       some { ClaimName := sqliteDB.ObjectMeta.Name ++ "-storage" } } }] } } }

/-- The assignment `Containers[0].VolumeMounts = append(Containers[0].VolumeMounts, m)`;
an empty container list is the index-out-of-range panic. -/
def appendMount (m : VolumeMount) : List Container → Option (List Container)
  | [] => none
  | c :: cs => some ({ c with VolumeMounts := c.VolumeMounts ++ [m] } :: cs)

/-- The deployment spec after the `InitSQL` branch of the mutate function. -/
def reconcileDeployment.spec (sqliteDB : SQLiteDB) : Outcome DeploymentSpec :=
  let spec := reconcileDeployment.baseSpec sqliteDB
  if sqliteDB.Spec.InitSQL != "" then
    let volumes := spec.Template.Spec.Volumes ++
      [{ Name := "init-sql",
         VolumeSource := { ConfigMap := some { Name := sqliteDB.ObjectMeta.Name ++ "-init" } } }]
    match appendMount { Name := "init-sql", MountPath := "/init" } spec.Template.Spec.Containers with
    | none => .panicked "index out of range"
    | some containers =>
      .ok { spec with
            Template := { spec.Template with
                          Spec := { Containers := containers, Volumes := volumes } } }
  else .ok spec

/-- The mutate function passed to `CreateOrUpdate` by `reconcileDeployment`. -/
def reconcileDeployment.mutateFn (sqliteDB : SQLiteDB) (deployment : Deployment) :
    Outcome Deployment :=
  match reconcileDeployment.spec sqliteDB with
  | .panicked m => .panicked m
  | .err e => .err e
  | .ok spec =>
    let deployment : Deployment := { deployment with Spec := spec }
    match SetControllerReference sqliteDB deployment.ObjectMeta with
    | .error e => .err e
    | .ok m => .ok { deployment with ObjectMeta := m }

/-- The Go function `reconcileDeployment`. -/
def reconcileDeployment (c : Client σ Q) (sqliteDB : SQLiteDB) (s : σ) : Run σ Q Unit :=
  (CreateOrUpdate 4 deploymentInfo c.Deployments (reconcileDeployment.deployment sqliteDB)
      (reconcileDeployment.mutateFn sqliteDB) s).andThen
    (fun _ s1 => ⟨.ok (), s1, []⟩)

/-- The object literal `service` that `reconcileService` starts from. -/
def reconcileService.service (sqliteDB : SQLiteDB) : Service :=
  { ObjectMeta := { Name := sqliteDB.ObjectMeta.Name ++ "-service",
                    Namespace := sqliteDB.ObjectMeta.Namespace } }

/-- The mutate function passed to `CreateOrUpdate` by `reconcileService`. -/
def reconcileService.mutateFn (sqliteDB : SQLiteDB) (service : Service) : Outcome Service :=
  let service : Service :=
    { service with
      Spec := { Selector := [("app", sqliteDB.ObjectMeta.Name)],
                Ports := [{ Port := 8080, TargetPort := 8080, Protocol := "TCP" }],
                Type_ := "ClusterIP" } }
  match SetControllerReference sqliteDB service.ObjectMeta with
  | .error e => .err e
  | .ok m => .ok { service with ObjectMeta := m }

/-- The Go function `reconcileService`. -/
def reconcileService (c : Client σ Q) (sqliteDB : SQLiteDB) (s : σ) : Run σ Q Unit :=
  (CreateOrUpdate 5 serviceInfo c.Services (reconcileService.service sqliteDB)
      (reconcileService.mutateFn sqliteDB) s).andThen
    (fun _ s1 => ⟨.ok (), s1, []⟩)

/-- The assignments to `sqliteDB.Status` in `updateStatus`, from the result of
reading the deployment. -/
def updateStatus.status (got : Except Error Deployment) (status : SQLiteDBStatus) :
    SQLiteDBStatus :=
  match got with
  | .error _ => { status with Phase := "Creating", Ready := false }
  | .ok deployment =>
    if deployment.Status.ReadyReplicas > 0 then
      { status with Phase := "Ready", Ready := true }
    else
      { status with Phase := "Pending", Ready := false }

/-- The Go function `updateStatus`. -/
def updateStatus (c : Client σ Q) (sqliteDB : SQLiteDB) (s : σ) : Run σ Q Unit :=
  let key : ObjectKey :=
    { Namespace := sqliteDB.ObjectMeta.Namespace, Name := sqliteDB.ObjectMeta.Name }
  match c.Deployments.Get key s with
  | (got, s1) =>
    let get : Event Q :=
      { step := 6, verb := Verb.Get, kind := Kind.Deployment, key := key,
        obj := match got with
               | .error _ => none
               | .ok deployment => some (Object.deployment deployment),
        err := match got with
               | .error e => some e
               | .ok _ => none }
    let sqliteDB : SQLiteDB := { sqliteDB with Status := updateStatus.status got sqliteDB.Status }
    match c.StatusUpdate sqliteDB s1 with
    | (err, s2) =>
      let put : Event Q :=
        { step := 6, verb := Verb.StatusUpdate, kind := Kind.SQLiteDB,
          key := ObjectKeyFromObject sqliteDB.ObjectMeta,
          obj := some (Object.sqliteDB sqliteDB), err := err }
      ⟨match err with
       | some e => .err e
       | none => .ok (), s2, [get, put]⟩

/-- The Go function `Reconcile`. The returned `ctrl.Result` is empty on every
path, so an error outcome stands for `(ctrl.Result{}, err)`. -/
def Reconcile (MustParse : String → Option Q) (c : Client σ Q) (req : ObjectKey) (s : σ) :
    Run σ Q Result :=
  match c.GetSQLiteDB req s with
  | (.error err, s1) =>
    let get : Event Q :=
      { step := 1, verb := Verb.Get, kind := Kind.SQLiteDB, key := req, err := some err }
    if IsNotFound err then ⟨.ok {}, s1, [get]⟩
    else ⟨.err err, s1, [get]⟩
  | (.ok sqliteDB, s1) =>
    let get : Event Q :=
      { step := 1, verb := Verb.Get, kind := Kind.SQLiteDB, key := req,
        obj := some (Object.sqliteDB sqliteDB) }
    (Run.mk (.ok ()) s1 [get]).andThen fun _ s1 =>
    (reconcilePVC MustParse c sqliteDB s1).andThen fun _ s2 =>
    (reconcileConfigMap c sqliteDB s2).andThen fun _ s3 =>
    (reconcileDeployment c sqliteDB s3).andThen fun _ s4 =>
    (reconcileService c sqliteDB s4).andThen fun _ s5 =>
    (updateStatus c sqliteDB s5).andThen fun _ s6 =>
    ⟨.ok {}, s6, []⟩

/-- The part of `Reconcile` that follows the endpoint step. -/
def Reconcile.afterService (c : Client σ Q) (sqliteDB : SQLiteDB) (s5 : σ) : Run σ Q Result :=
  (updateStatus c sqliteDB s5).andThen fun _ s6 =>
  ⟨.ok {}, s6, []⟩

/-- The part of `Reconcile` that follows the workload step. -/
def Reconcile.afterDeployment (c : Client σ Q) (sqliteDB : SQLiteDB) (s4 : σ) : Run σ Q Result :=
  (reconcileService c sqliteDB s4).andThen fun _ s5 =>
  Reconcile.afterService c sqliteDB s5

/-- The part of `Reconcile` that follows the bootstrap step. -/
def Reconcile.afterConfigMap (c : Client σ Q) (sqliteDB : SQLiteDB) (s3 : σ) : Run σ Q Result :=
  (reconcileDeployment c sqliteDB s3).andThen fun _ s4 =>
  Reconcile.afterDeployment c sqliteDB s4

/-- The part of `Reconcile` that follows the storage step. -/
def Reconcile.afterPVC (c : Client σ Q) (sqliteDB : SQLiteDB) (s2 : σ) : Run σ Q Result :=
  (reconcileConfigMap c sqliteDB s2).andThen fun _ s3 =>
  Reconcile.afterConfigMap c sqliteDB s3

/-- The part of `Reconcile` that follows the fetch of the instance. -/
def Reconcile.afterFetch (MustParse : String → Option Q) (c : Client σ Q) (sqliteDB : SQLiteDB)
    (s1 : σ) : Run σ Q Result :=
  (reconcilePVC MustParse c sqliteDB s1).andThen fun _ s2 =>
  Reconcile.afterPVC c sqliteDB s2

end Controller

/-! ## The cluster store as a read-your-writes map

The store keeps, per kind, the list of stored objects; an object is found by
its key (namespace and name). A read returns what the last write under that
key stored. -/

section Store

variable {Q : Type} [DecidableEq Q]

/-- The objects held by the cluster store, per kind. -/
structure Store (Q : Type) where
  sqlitedbs : List SQLiteDB := []
  pvcs : List (PersistentVolumeClaim Q) := []
  configMaps : List ConfigMap := []
  deployments : List Deployment := []
  services : List Service := []

/-- Whether an object with metadata `m` is stored under `key`. -/
def hasKey (key : ObjectKey) (m : ObjectMeta) : Bool :=
  decide (ObjectKeyFromObject m = key)

/-- The stored object under `key`, if any. -/
def lookup {α : Type} (metaOf : α → ObjectMeta) (key : ObjectKey) (l : List α) : Option α :=
  l.find? (fun o => hasKey key (metaOf o))

/-- Overwrite what is stored under the key of `o` by `o`. -/
def overwrite {α : Type} (metaOf : α → ObjectMeta) (o : α) (l : List α) : List α :=
  l.map (fun x => if hasKey (ObjectKeyFromObject (metaOf o)) (metaOf x) then o else x)

/-- The read of the store: the stored object, or a NotFound error. -/
def listGet {α : Type} (metaOf : α → ObjectMeta) (key : ObjectKey) (l : List α) : Except Error α :=
  match lookup metaOf key l with
  | some o => .ok o
  | none => .error { reason := Reason.NotFound, message := "not found" }

/-- The create of the store: refuses an existing key, else adds the object. -/
def listCreate {α : Type} (metaOf : α → ObjectMeta) (o : α) (l : List α) : Option Error × List α :=
  match lookup metaOf (ObjectKeyFromObject (metaOf o)) l with
  | some _ => (some { reason := Reason.AlreadyExists, message := "already exists" }, l)
  | none => (none, l ++ [o])

/-- The update of the store: refuses an absent key, else overwrites the object. -/
def listUpdate {α : Type} (metaOf : α → ObjectMeta) (o : α) (l : List α) : Option Error × List α :=
  match lookup metaOf (ObjectKeyFromObject (metaOf o)) l with
  | some _ => (none, overwrite metaOf o l)
  | none => (some { reason := Reason.NotFound, message := "not found" }, l)

/-- The status update of the store: refuses an absent instance, else overwrites
the status of the stored instance and nothing else. -/
def listStatusUpdate (o : SQLiteDB) (l : List SQLiteDB) : Option Error × List SQLiteDB :=
  match lookup (fun x : SQLiteDB => x.ObjectMeta) (ObjectKeyFromObject o.ObjectMeta) l with
  | some _ =>
    (none, l.map (fun x =>
      if hasKey (ObjectKeyFromObject o.ObjectMeta) x.ObjectMeta then { x with Status := o.Status }
      else x))
  | none => (some { reason := Reason.NotFound, message := "not found" }, l)

/-- The client calls of one kind, acting on the component of the store that
`view` reads and `put` writes. -/
def storeKind {α : Type} (metaOf : α → ObjectMeta) (view : Store Q → List α)
    (put : List α → Store Q → Store Q) : KindClient (Store Q) α :=
  { Get := fun key s => (listGet metaOf key (view s), s),
    Create := fun o s => ((listCreate metaOf o (view s)).1, put (listCreate metaOf o (view s)).2 s),
    Update := fun o s => ((listUpdate metaOf o (view s)).1, put (listUpdate metaOf o (view s)).2 s) }

/-- The client backed by the store. -/
def storeClient : Client (Store Q) Q :=
  { GetSQLiteDB := fun key s => (listGet (fun x : SQLiteDB => x.ObjectMeta) key s.sqlitedbs, s),
    StatusUpdate := fun o s =>
      ((listStatusUpdate o s.sqlitedbs).1,
       { s with sqlitedbs := (listStatusUpdate o s.sqlitedbs).2 }),
    PersistentVolumeClaims :=
      storeKind (fun o => o.ObjectMeta) (fun s => s.pvcs) (fun l s => { s with pvcs := l }),
    ConfigMaps :=
      storeKind (fun o => o.ObjectMeta) (fun s => s.configMaps)
        (fun l s => { s with configMaps := l }),
    Deployments :=
      storeKind (fun o => o.ObjectMeta) (fun s => s.deployments)
        (fun l s => { s with deployments := l }),
    Services :=
      storeKind (fun o => o.ObjectMeta) (fun s => s.services)
        (fun l s => { s with services := l }) }

/-- Whether an event is a create or an update. -/
def Event.isWrite (ev : Event Q) : Bool :=
  decide (ev.verb = Verb.Create) || decide (ev.verb = Verb.Update)

/-- Whether an event is a status update. -/
def Event.isStatusUpdate (ev : Event Q) : Bool :=
  decide (ev.verb = Verb.StatusUpdate)

/-- A quantity parser for examples: any non-empty text is a quantity, kept as text. -/
def exampleParse (text : String) : Option String :=
  if text == "" then none else some text

/-- An instance `prod/db` with the given spec, for examples. -/
def exampleDB (spec : SQLiteDBSpec) : SQLiteDB :=
  { ObjectMeta := { Name := "db", Namespace := "prod", UID := "u1" }, Spec := spec }

/-- The key of `exampleDB`. -/
def exampleKey : ObjectKey :=
  { Namespace := "prod", Name := "db" }

/-- A store that holds the instance `exampleDB spec` and nothing else. -/
def exampleStore (spec : SQLiteDBSpec) : Store String :=
  { sqlitedbs := [exampleDB spec] }

/-- A timeout error, for examples. -/
def exampleTimeout : Error :=
  { reason := Reason.Timeout, message := "request timed out" }

/-- A client over the store whose reads of the workload time out once the
endpoint exists, for examples. -/
def flakyClient : Client (Store String) String :=
  { (storeClient : Client (Store String) String) with
    Deployments :=
      { (storeClient : Client (Store String) String).Deployments with
        Get := fun key s =>
          if s.services.isEmpty then
            (storeClient : Client (Store String) String).Deployments.Get key s
          else (.error exampleTimeout, s) } }

/-- A client over the store whose creation of the endpoint times out, for examples. -/
def faultyClient : Client (Store String) String :=
  { (storeClient : Client (Store String) String) with
    Services :=
      { (storeClient : Client (Store String) String).Services with
        Create := fun _ s => (some exampleTimeout, s) } }

/-- The failed calls whose error the controller does not return: a read that
fails with NotFound (the instance is gone, or the dependent is to be created),
and any failed read of the workload in the status step. -/
def Event.absorbed (ev : Event Q) : Bool :=
  decide (ev.verb = Verb.Get) &&
    (decide (ev.step = 6) ||
      match ev.err with
      | some e => IsNotFound e
      | none => false)

/-- A run in which every failed call that is not absorbed is the last call and
its error is the result of the run. -/
def Run.Propagates {σ α : Type} (r : Run σ Q α) : Prop :=
  ∀ (i : Nat) (ev : Event Q) (e : Error),
    r.trace[i]? = some ev → ev.err = some e → ev.absorbed = false →
      i + 1 = r.trace.length ∧ r.result = .err e

/-- The second run replays the first one from the store `start`: it ends the
same way, leaves `start` as it is, makes no create and no update, and makes
one status update if the first run succeeded and none otherwise. -/
def Replays (first second : Run (Store Q) Q Result) (start : Store Q) : Prop :=
  second.result = first.result ∧ second.state = start ∧
  (∀ ev ∈ second.trace, ev.isWrite = false) ∧
  (second.trace.filter Event.isStatusUpdate).length = if first.result = .ok {} then 1 else 0

end Store

/-! ## Theorems -/

section Builders

variable {σ Q : Type}

/-- `SetControllerReference` succeeds on the object literals the controller
starts from: same namespace as the owner, no owner references yet. -/
theorem SetControllerReference_fresh (owner : SQLiteDB) (name : String) :
    SetControllerReference owner { Name := name, Namespace := owner.ObjectMeta.Namespace } =
      .ok { Name := name, Namespace := owner.ObjectMeta.Namespace,
            OwnerReferences := [controllerRef owner] } := by
  by_cases h : owner.ObjectMeta.Namespace = "" <;>
    simp [SetControllerReference, validateOwner, GetControllerOf, upsertOwnerRef, h]

/-- C1 (the code at the failing input): for the instance whose spec is
`{storage.size: "5Gi"}` the mutate function of `reconcilePVC` requests the
capacity parsed from `"1Gi"`: the field `Storage.Size` is never read. The
two other cases of the claim, `{storageSize: "2Gi"}` and `{}`, give `"2Gi"`
and `"1Gi"`; for every instance the size is the same whatever `Storage` holds. -/
theorem reconcilePVC_ignores_storage_size :
    reconcilePVC.storageSize (exampleDB { Storage := { Size := "5Gi" } }) = "1Gi" ∧
    (∃ out, reconcilePVC.mutateFn exampleParse (exampleDB { Storage := { Size := "5Gi" } })
              (reconcilePVC.pvc (exampleDB { Storage := { Size := "5Gi" } })) = .ok out ∧
            out.Spec.Requests = [("storage", "1Gi")]) ∧
    reconcilePVC.storageSize (exampleDB { StorageSize := "2Gi" }) = "2Gi" ∧
    reconcilePVC.storageSize (exampleDB {}) = "1Gi" ∧
    (∀ (sqliteDB : SQLiteDB) (storage : StorageSpec),
      reconcilePVC.storageSize
          { sqliteDB with Spec := { sqliteDB.Spec with Storage := storage } } =
        reconcilePVC.storageSize sqliteDB) := by
  exact ⟨by decide, ⟨_, rfl, by decide⟩, by decide, by decide, fun _ _ => rfl⟩

/-- The database name occurs verbatim in the shell string of the workload. -/
theorem command_embeds_name (databaseName : String) :
    databaseName.data <:+: (reconcileDeployment.command databaseName).data := by
  refine ⟨"sqlite3 /data/".data,
    (".db < /init/init.sql || true; sqlite3 /data/" ++ databaseName
      ++ ".db '.timeout 30000' '.backup /data/" ++ databaseName ++ ".db'").data, ?_⟩
  simp [reconcileDeployment.command, String.data_append]

/-- The desired workload spec is always produced, with the base spec's single
container extended by the bootstrap mount when `InitSQL` is set. -/
theorem reconcileDeployment_spec_eq (sqliteDB : SQLiteDB) :
    reconcileDeployment.spec sqliteDB = .ok
      (if sqliteDB.Spec.InitSQL = "" then reconcileDeployment.baseSpec sqliteDB
       else
        { reconcileDeployment.baseSpec sqliteDB with
          Template :=
            { Labels := [("app", sqliteDB.ObjectMeta.Name)],
              Spec :=
                { Containers :=
                    [{ Name := "sqlite",
                       Image := "keinos/sqlite3:latest",
                       Command := ["sh", "-c",
                                   reconcileDeployment.command sqliteDB.Spec.DatabaseName],
                       VolumeMounts := [{ Name := "storage", MountPath := "/data" },
                                        { Name := "init-sql", MountPath := "/init" }],
                       Ports := [{ ContainerPort := 8080, Protocol := "TCP" }] }],
                  Volumes :=
                    [{ Name := "storage",
                       VolumeSource :=
                         { PersistentVolumeClaim :=
                             some { ClaimName := sqliteDB.ObjectMeta.Name ++ "-storage" } } },
                     { Name := "init-sql",
                       VolumeSource :=
                         { ConfigMap :=
                             some { Name := sqliteDB.ObjectMeta.Name ++ "-init" } } }] } } }) := by
  by_cases h : sqliteDB.Spec.InitSQL = ""
  · simp [reconcileDeployment.spec, h]
  · simp [reconcileDeployment.spec, h, appendMount, reconcileDeployment.baseSpec]

/-- The mutate function of `reconcileDeployment` fails only with the error of
`SetControllerReference`; otherwise it returns the live object with the desired
spec and the metadata carrying the controller reference. -/
theorem reconcileDeployment_mutateFn_eq (sqliteDB : SQLiteDB) (deployment : Deployment) :
    reconcileDeployment.mutateFn sqliteDB deployment =
      match reconcileDeployment.spec sqliteDB, SetControllerReference sqliteDB deployment.ObjectMeta with
      | .ok spec, .ok m => .ok { deployment with Spec := spec, ObjectMeta := m }
      | .ok _, .error e => .err e
      | .err e, _ => .err e
      | .panicked msg, _ => .panicked msg := by
  simp only [reconcileDeployment.mutateFn]
  cases reconcileDeployment.spec sqliteDB with
  | ok spec => cases SetControllerReference sqliteDB deployment.ObjectMeta <;> rfl
  | err e => rfl
  | panicked m => rfl

/-- C3 (counterexample): for the database name `x'; rm -rf /data; '` and a
store without a workload, `reconcileDeployment` returns success and creates a
workload whose shell string contains the name unescaped. -/
theorem reconcileDeployment_accepts_metacharacters :
    (reconcileDeployment (storeClient : Client (Store String) String)
        (exampleDB { DatabaseName := "x'; rm -rf /data; '" }) {}).result = .ok () ∧
    (reconcileDeployment (storeClient : Client (Store String) String)
        (exampleDB { DatabaseName := "x'; rm -rf /data; '" }) {}).state.deployments.map
        (fun d => d.Spec.Template.Spec.Containers.map (fun c => c.Command)) =
      [[["sh", "-c",
         "sqlite3 /data/x'; rm -rf /data; '.db < /init/init.sql || true; sqlite3 /data/x'; rm -rf /data; '.db '.timeout 30000' '.backup /data/x'; rm -rf /data; '.db'"]]] := by
  exact ⟨by decide, by decide⟩

/-- C3 (amended): `reconcileDeployment` applies no validation to the database
name. Its mutate function fails only with the error of
`SetControllerReference`, which does not depend on the database name, and
otherwise produces a workload whose command is `sh -c` followed by a shell
string that contains the database name verbatim. -/
theorem reconcileDeployment_no_validation (sqliteDB : SQLiteDB) (deployment : Deployment) :
    (∀ e, SetControllerReference sqliteDB deployment.ObjectMeta = .error e →
      reconcileDeployment.mutateFn sqliteDB deployment = .err e) ∧
    (∀ m, SetControllerReference sqliteDB deployment.ObjectMeta = .ok m →
      ∃ out, reconcileDeployment.mutateFn sqliteDB deployment = .ok out ∧
        out.Spec.Template.Spec.Containers.map (fun c => c.Command) =
          [["sh", "-c", reconcileDeployment.command sqliteDB.Spec.DatabaseName]]) ∧
    (∀ name : String,
      SetControllerReference { sqliteDB with Spec := { sqliteDB.Spec with DatabaseName := name } }
          deployment.ObjectMeta = SetControllerReference sqliteDB deployment.ObjectMeta) ∧
    sqliteDB.Spec.DatabaseName.data <:+:
      (reconcileDeployment.command sqliteDB.Spec.DatabaseName).data := by
  refine ⟨?_, ?_, ?_, command_embeds_name _⟩
  · intro e h
    rw [reconcileDeployment_mutateFn_eq, reconcileDeployment_spec_eq, h]
  · intro m h
    rw [reconcileDeployment_mutateFn_eq, reconcileDeployment_spec_eq, h]
    refine ⟨_, rfl, ?_⟩
    by_cases hi : sqliteDB.Spec.InitSQL = "" <;> simp [hi, reconcileDeployment.baseSpec]
  · intro name
    rfl

/-- C8 (counterexample): with a non-empty `initSQL` the bootstrap mount at
`/init` of the desired workload is not marked read-only. -/
theorem reconcileDeployment_init_mount_not_readonly :
    (match reconcileDeployment.spec (exampleDB { InitSQL := "CREATE TABLE t(x);" }) with
     | .ok spec =>
       spec.Template.Spec.Containers.map
         (fun c => c.VolumeMounts.map (fun m => (m.Name, m.MountPath, m.ReadOnly)))
     | _ => []) =
      [[("storage", "/data", false), ("init-sql", "/init", false)]] := by
  decide


end Builders

section Passes

variable {σ Q : Type}

/-- C6: when the fetch of the instance fails, `Reconcile` makes no further
client call (so no create, update or status update) and hands back the client
state exactly as the fetch left it; it returns success with the empty result
when the error is NotFound and returns the error itself otherwise. Over the
store as a map, where the fetch fails exactly when no instance is stored under
the key, the pass returns success after that one read and the store is the
same as before. -/
theorem Reconcile_fetch_failure [DecidableEq Q] (MustParse : String → Option Q) (c : Client σ Q)
    (req : ObjectKey) (s : σ) (e : Error) (h : (c.GetSQLiteDB req s).1 = .error e) :
    (Reconcile MustParse c req s).trace =
      [{ step := 1, verb := Verb.Get, kind := Kind.SQLiteDB, key := req, err := some e }] ∧
    (Reconcile MustParse c req s).state = (c.GetSQLiteDB req s).2 ∧
    (IsNotFound e = true → (Reconcile MustParse c req s).result = .ok {}) ∧
    (IsNotFound e = false → (Reconcile MustParse c req s).result = .err e) ∧
    (∀ t : Store Q, lookup (fun x : SQLiteDB => x.ObjectMeta) req t.sqlitedbs = none →
      (Reconcile MustParse storeClient req t).state = t ∧
      (Reconcile MustParse storeClient req t).result = .ok {} ∧
      (Reconcile MustParse storeClient req t).trace.length = 1) := by
  have key :
      (Reconcile MustParse c req s).trace =
        [{ step := 1, verb := Verb.Get, kind := Kind.SQLiteDB, key := req, err := some e }] ∧
      (Reconcile MustParse c req s).state = (c.GetSQLiteDB req s).2 ∧
      (IsNotFound e = true → (Reconcile MustParse c req s).result = .ok {}) ∧
      (IsNotFound e = false → (Reconcile MustParse c req s).result = .err e) := by
    unfold Reconcile
    rcases hg : c.GetSQLiteDB req s with ⟨got, s1⟩
    rw [hg] at h
    simp only at h
    subst h
    by_cases hn : IsNotFound e = true <;> simp [hn]
  refine ⟨key.1, key.2.1, key.2.2.1, key.2.2.2, ?_⟩
  intro t ht
  simp [Reconcile, storeClient, listGet, ht, IsNotFound]

/-- C6 (witness): on the empty store the fetch of `prod/db` fails with
NotFound, and `Reconcile` returns success after that single read, leaving the
store empty. -/
theorem Reconcile_fetch_failure_witness :
    (Reconcile exampleParse (storeClient : Client (Store String) String) exampleKey {}).trace =
      [{ step := 1, verb := Verb.Get, kind := Kind.SQLiteDB, key := exampleKey,
         err := some { reason := Reason.NotFound, message := "not found" } }] ∧
    (Reconcile exampleParse (storeClient : Client (Store String) String) exampleKey {}).state.sqlitedbs
      = [] ∧
    (Reconcile exampleParse (storeClient : Client (Store String) String) exampleKey {}).result
      = .ok {} :=
  have h := Reconcile_fetch_failure exampleParse (storeClient : Client (Store String) String)
    exampleKey {} { reason := Reason.NotFound, message := "not found" } rfl
  ⟨h.1, by rw [h.2.1]; rfl, h.2.2.1 rfl⟩

/-- A run that made no call propagates every failure. -/
theorem Propagates_nil {α : Type} (res : Outcome α) (s : σ) :
    (Run.mk res s ([] : List (Event Q))).Propagates := by
  intro i ev e h
  simp at h

/-- A run of one call propagates its failure when the result is that error,
or when the call is absorbed or did not fail. -/
theorem Propagates_single {α : Type} (res : Outcome α) (s : σ) (ev : Event Q)
    (h : ∀ e, ev.err = some e → ev.absorbed = false → res = .err e) :
    (Run.mk res s [ev]).Propagates := by
  intro i ev2 e hi he ha
  cases i with
  | zero =>
    simp at hi
    subst hi
    exact ⟨rfl, h e he ha⟩
  | succ n => simp at hi

/-- A run of two calls propagates failures when the first call is absorbed or
did not fail and the second one decides the result. -/
theorem Propagates_pair {α : Type} (res : Outcome α) (s : σ) (ev1 ev2 : Event Q)
    (h1 : ∀ e, ev1.err = some e → ev1.absorbed = true)
    (h2 : ∀ e, ev2.err = some e → ev2.absorbed = false → res = .err e) :
    (Run.mk res s [ev1, ev2]).Propagates := by
  intro i ev e hi he ha
  cases i with
  | zero =>
    simp at hi
    subst hi
    rw [h1 e he] at ha
    exact absurd ha (by decide)
  | succ n =>
    cases n with
    | zero =>
      simp at hi
      subst hi
      exact ⟨rfl, h2 e he ha⟩
    | succ m => simp at hi

/-- Sequencing keeps the propagation of failures. -/
theorem Propagates_andThen {α β : Type} (r : Run σ Q α) (k : α → σ → Run σ Q β)
    (hr : r.Propagates) (hk : ∀ a s, (k a s).Propagates) : (r.andThen k).Propagates := by
  intro i ev e hi he ha
  unfold Run.andThen at hi ⊢
  cases hres : r.result with
  | ok a =>
    simp only [hres] at hi ⊢
    by_cases hlt : i < r.trace.length
    · rw [List.getElem?_append_left hlt] at hi
      have := (hr i ev e hi he ha).2
      rw [hres] at this
      exact absurd this (by simp)
    · rw [List.getElem?_append_right (by omega)] at hi
      have := hk a r.state (i - r.trace.length) ev e hi he ha
      refine ⟨?_, this.2⟩
      rw [List.length_append]
      omega
  | err e2 =>
    simp only [hres] at hi ⊢
    have := hr i ev e hi he ha
    rw [hres] at this
    exact ⟨this.1, by simpa using this.2⟩
  | panicked m =>
    simp only [hres] at hi ⊢
    have := (hr i ev e hi he ha).2
    rw [hres] at this
    exact absurd this (by simp)

/-- The library call `CreateOrUpdate` propagates every failure of a client call
except a read that fails with NotFound. -/
theorem Propagates_CreateOrUpdate {α : Type} [DecidableEq α] (step : Nat) (info : ObjectInfo Q α)
    (c : KindClient σ α) (obj : α) (f : α → Outcome α) (s : σ) :
    (CreateOrUpdate step info c obj f s).Propagates := by
  simp only [CreateOrUpdate]
  rcases hg : c.Get (ObjectKeyFromObject (info.metaOf obj)) s with ⟨got, s1⟩
  cases got with
  | error e =>
    simp only
    by_cases hn : IsNotFound e = true
    · simp only [hn, Bool.not_true, Bool.false_eq_true, if_false]
      cases hm : mutate info f (ObjectKeyFromObject (info.metaOf obj)) obj with
      | err e2 =>
        simp only
        exact Propagates_single _ _ _ (by intro e3 h3 ha; simp [Event.absorbed, hn] at ha)
      | panicked m =>
        simp only
        exact Propagates_single _ _ _ (by intro e3 h3 ha; simp [Event.absorbed, hn] at ha)
      | ok obj2 =>
        simp only
        rcases hc : c.Create obj2 s1 with ⟨res, s2⟩
        cases res with
        | some e3 =>
          simp only
          exact Propagates_pair _ _ _ _ (by intro e4 h4; simp [Event.absorbed, hn])
            (by intro e4 h4 _; simp at h4; rw [h4])
        | none =>
          simp only
          exact Propagates_pair _ _ _ _ (by intro e4 h4; simp [Event.absorbed, hn])
            (by intro e4 h4 _; simp at h4)
    · simp only [hn, Bool.not_false, if_true]
      exact Propagates_single _ _ _ (by intro e3 h3 _; simp at h3; rw [h3])
  | ok existing =>
    simp only
    cases hm : mutate info f (ObjectKeyFromObject (info.metaOf obj)) existing with
    | err e2 =>
      simp only
      exact Propagates_single _ _ _ (by intro e3 h3 _; simp at h3)
    | panicked m =>
      simp only
      exact Propagates_single _ _ _ (by intro e3 h3 _; simp at h3)
    | ok obj2 =>
      simp only
      by_cases heq : existing = obj2
      · simp only [heq, if_true]
        exact Propagates_single _ _ _ (by intro e3 h3 _; simp at h3)
      · simp only [heq, if_false]
        rcases hc : c.Update obj2 s1 with ⟨res, s2⟩
        cases res with
        | some e3 =>
          simp only
          exact Propagates_pair _ _ _ _ (by intro e4 h4; simp at h4)
            (by intro e4 h4 _; simp at h4; rw [h4])
        | none =>
          simp only
          exact Propagates_pair _ _ _ _ (by intro e4 h4; simp at h4)
            (by intro e4 h4 _; simp at h4)

/-- The status step propagates the failure of its status update; the failure of
its read of the workload is absorbed. -/
theorem Propagates_updateStatus (c : Client σ Q) (sqliteDB : SQLiteDB) (s : σ) :
    (updateStatus c sqliteDB s).Propagates := by
  simp only [updateStatus]
  apply Propagates_pair
  · intro e _
    simp [Event.absorbed]
  · intro e he _
    simp only at he
    rw [he]

/-- Every step of `Reconcile` after the fetch propagates failures. -/
theorem Propagates_steps [DecidableEq Q] (MustParse : String → Option Q) (c : Client σ Q)
    (sqliteDB : SQLiteDB) (s : σ) :
    (reconcilePVC MustParse c sqliteDB s).Propagates ∧
    (reconcileConfigMap c sqliteDB s).Propagates ∧
    (reconcileDeployment c sqliteDB s).Propagates ∧
    (reconcileService c sqliteDB s).Propagates := by
  refine ⟨?_, ?_, ?_, ?_⟩
  · exact Propagates_andThen _ _ (Propagates_CreateOrUpdate _ _ _ _ _ _)
      (fun _ _ => Propagates_nil _ _)
  · unfold reconcileConfigMap
    split
    · exact Propagates_nil _ _
    · exact Propagates_andThen _ _ (Propagates_CreateOrUpdate _ _ _ _ _ _)
        (fun _ _ => Propagates_nil _ _)
  · exact Propagates_andThen _ _ (Propagates_CreateOrUpdate _ _ _ _ _ _)
      (fun _ _ => Propagates_nil _ _)
  · exact Propagates_andThen _ _ (Propagates_CreateOrUpdate _ _ _ _ _ _)
      (fun _ _ => Propagates_nil _ _)

/-- C5 (counterexample): with a client whose read of the workload times out in
the status step, that failed call (the eighth of the pass) is followed by the
status update and `Reconcile` returns success, not the timeout. -/
theorem Reconcile_absorbs_workload_read_failure :
    ((Reconcile exampleParse flakyClient exampleKey (exampleStore {})).trace[7]?).map
        (fun ev => (ev.step, ev.verb, ev.kind, ev.err)) =
      some (6, Verb.Get, Kind.Deployment, some exampleTimeout) ∧
    ((Reconcile exampleParse flakyClient exampleKey (exampleStore {})).trace[8]?).map
        (fun ev => (ev.step, ev.verb, ev.kind, ev.err)) =
      some (6, Verb.StatusUpdate, Kind.SQLiteDB, none) ∧
    (Reconcile exampleParse flakyClient exampleKey (exampleStore {})).result = .ok {} := by
  exact ⟨by decide, by decide, by decide⟩

/-- C5 (amended): in every pass, a client call that fails with an error `e` is
the last call of the pass and `Reconcile` returns exactly `e`, unless the call
is absorbed: a read that fails with NotFound (the instance is gone, or the
dependent is then created) or a failed read of the workload in the status step
(the phase becomes `Creating` and the status update is still sent). -/
theorem Reconcile_propagates_failures [DecidableEq Q] (MustParse : String → Option Q)
    (c : Client σ Q) (req : ObjectKey) (s : σ) (i : Nat) (ev : Event Q) (e : Error)
    (hi : (Reconcile MustParse c req s).trace[i]? = some ev) (he : ev.err = some e)
    (ha : ev.absorbed = false) :
    i + 1 = (Reconcile MustParse c req s).trace.length ∧
    (Reconcile MustParse c req s).result = .err e := by
  have key : (Reconcile MustParse c req s).Propagates := by
    unfold Reconcile
    rcases hg : c.GetSQLiteDB req s with ⟨got, s1⟩
    cases got with
    | error err =>
      simp only
      by_cases hn : IsNotFound err = true
      · simp only [hn, if_true]
        exact Propagates_single _ _ _ (by intro e3 h3 ha3; simp [Event.absorbed, hn] at ha3)
      · simp only [hn, if_false]
        exact Propagates_single _ _ _ (by intro e3 h3 _; simp at h3; rw [h3])
    | ok sqliteDB =>
      simp only
      refine Propagates_andThen _ _ (Propagates_single _ _ _ (by intro e3 h3 _; simp at h3)) ?_
      intro _ s1
      refine Propagates_andThen _ _ (Propagates_steps MustParse c sqliteDB s1).1 ?_
      intro _ s2
      refine Propagates_andThen _ _ (Propagates_steps MustParse c sqliteDB s2).2.1 ?_
      intro _ s3
      refine Propagates_andThen _ _ (Propagates_steps MustParse c sqliteDB s3).2.2.1 ?_
      intro _ s4
      refine Propagates_andThen _ _ (Propagates_steps MustParse c sqliteDB s4).2.2.2 ?_
      intro _ s5
      refine Propagates_andThen _ _ (Propagates_updateStatus c sqliteDB s5) ?_
      intro _ s6
      exact Propagates_nil _ _
  exact key i ev e hi he ha

/-- C5 (witness): with a client whose creation of the endpoint times out, that
call is the seventh and last call of the pass and `Reconcile` returns the
timeout. -/
theorem Reconcile_propagates_failures_witness :
    6 + 1 = (Reconcile exampleParse faultyClient exampleKey (exampleStore {})).trace.length ∧
    (Reconcile exampleParse faultyClient exampleKey (exampleStore {})).result =
      .err exampleTimeout :=
  Reconcile_propagates_failures exampleParse faultyClient exampleKey (exampleStore {}) 6 _
    exampleTimeout rfl rfl rfl

/-- The wrapper `mutate` returns what the mutate function returns, and only
when the key is unchanged. -/
theorem mutate_ok {α : Type} (info : ObjectInfo Q α) (f : α → Outcome α) (key : ObjectKey)
    (obj obj2 : α) (h : mutate info f key obj = .ok obj2) :
    f obj = .ok obj2 ∧ ObjectKeyFromObject (info.metaOf obj2) = key := by
  unfold mutate at h
  cases hf : f obj with
  | ok o =>
    rw [hf] at h
    by_cases hk : key = ObjectKeyFromObject (info.metaOf o)
    · simp [hk] at h
      subst h
      exact ⟨rfl, hk.symm⟩
    · simp [hk] at h
  | err e => rw [hf] at h; simp at h
  | panicked m => rw [hf] at h; simp at h

/-- The calls of `CreateOrUpdate`: a read of the key of the object, followed by
at most one write; every call is on that key, every write sends an object that
the mutate function returned, and after success the last call carries the
object that is now in place, again one the mutate function returned. -/
theorem CreateOrUpdate_shape {α : Type} [DecidableEq α] (step : Nat) (info : ObjectInfo Q α)
    (c : KindClient σ α) (obj : α) (f : α → Outcome α) (s : σ) :
    (∃ get rest, (CreateOrUpdate step info c obj f s).trace = get :: rest ∧
      get.verb = Verb.Get) ∧
    (∀ ev ∈ (CreateOrUpdate step info c obj f s).trace,
      ev.step = step ∧ ev.kind = info.kind ∧ ev.key = ObjectKeyFromObject (info.metaOf obj)) ∧
    (∀ ev ∈ (CreateOrUpdate step info c obj f s).trace, ev.isWrite = true →
      ∃ o0 o, f o0 = .ok o ∧ ev.obj = some (info.wrap o) ∧
        ObjectKeyFromObject (info.metaOf o) = ObjectKeyFromObject (info.metaOf obj)) ∧
    (∀ x, (CreateOrUpdate step info c obj f s).result = .ok x →
      ∃ last o0 o, (CreateOrUpdate step info c obj f s).trace.getLast? = some last ∧
        last.err = none ∧ f o0 = .ok o ∧ last.obj = some (info.wrap o) ∧
        ObjectKeyFromObject (info.metaOf o) = ObjectKeyFromObject (info.metaOf obj)) := by
  simp only [CreateOrUpdate]
  rcases hg : c.Get (ObjectKeyFromObject (info.metaOf obj)) s with ⟨got, s1⟩
  cases got with
  | error e =>
    simp only
    by_cases hn : IsNotFound e = true
    · simp only [hn, Bool.not_true, Bool.false_eq_true, if_false]
      cases hm : mutate info f (ObjectKeyFromObject (info.metaOf obj)) obj with
      | err e2 => simp [Event.isWrite]
      | panicked m => simp [Event.isWrite]
      | ok obj2 =>
        have hk := mutate_ok info f _ obj obj2 hm
        simp only
        rcases hc : c.Create obj2 s1 with ⟨res, s2⟩
        cases res with
        | some e3 =>
          simp only [hk.2]
          simp [Event.isWrite]
          exact ⟨obj, obj2, hk.1, rfl, hk.2⟩
        | none =>
          simp only [hk.2]
          simp [Event.isWrite]
          exact ⟨obj, obj2, hk.1, rfl, hk.2⟩
    · simp only [hn, Bool.not_false, if_true]
      simp [Event.isWrite]
  | ok existing =>
    simp only
    cases hm : mutate info f (ObjectKeyFromObject (info.metaOf obj)) existing with
    | err e2 => simp [Event.isWrite]
    | panicked m => simp [Event.isWrite]
    | ok obj2 =>
      have hk := mutate_ok info f _ existing obj2 hm
      by_cases heq : existing = obj2
      · simp only [heq, if_true]
        simp [Event.isWrite]
        exact ⟨existing, obj2, hk.1, rfl, hk.2⟩
      · simp only [heq, if_false]
        rcases hc : c.Update obj2 s1 with ⟨res, s2⟩
        cases res with
        | some e3 =>
          simp only [hk.2]
          simp [Event.isWrite]
          exact ⟨existing, obj2, hk.1, rfl, hk.2⟩
        | none =>
          simp only [hk.2]
          simp [Event.isWrite]
          exact ⟨existing, obj2, hk.1, rfl, hk.2⟩

/-- Ending a step with `return err` keeps the calls and the state of the
library call, and succeeds exactly when the library call did. -/
theorem andThen_done {α : Type} (r : Run σ Q α) :
    (r.andThen (fun _ s1 => ⟨.ok (), s1, []⟩)).trace = r.trace ∧
    (r.andThen (fun _ s1 => ⟨.ok (), s1, []⟩)).state = r.state ∧
    ((r.andThen (fun _ s1 => ⟨.ok (), s1, []⟩)).result = .ok () ↔ ∃ x, r.result = .ok x) := by
  unfold Run.andThen
  cases hres : r.result <;> simp

/-- What the mutate function of `reconcileConfigMap` returns has the one-entry
data map from `init.sql` to the `InitSQL` text. -/
theorem reconcileConfigMap_mutateFn_data (sqliteDB : SQLiteDB) (cm out : ConfigMap)
    (h : reconcileConfigMap.mutateFn sqliteDB cm = .ok out) :
    out.Data = [("init.sql", sqliteDB.Spec.InitSQL)] := by
  unfold reconcileConfigMap.mutateFn at h
  simp only at h
  cases hs : SetControllerReference sqliteDB cm.ObjectMeta with
  | error e => rw [hs] at h; simp at h
  | ok m =>
    rw [hs] at h
    simp only [Outcome.ok.injEq] at h
    rw [← h]

/-- An ensure step, `CreateOrUpdate` followed by `return err`: all its calls
carry its step number, and after success its last call succeeded and carries
an object returned by the mutate function under the key of the object literal. -/
theorem ensure_step_facts {α : Type} [DecidableEq α] (step : Nat) (info : ObjectInfo Q α)
    (c : KindClient σ α) (obj : α) (f : α → Outcome α) (s : σ) :
    (∀ ev ∈ ((CreateOrUpdate step info c obj f s).andThen
        (fun _ s1 => (⟨.ok (), s1, []⟩ : Run σ Q Unit))).trace, ev.step = step) ∧
    (((CreateOrUpdate step info c obj f s).andThen
        (fun _ s1 => (⟨.ok (), s1, []⟩ : Run σ Q Unit))).result = .ok () →
      ∃ last o0 o,
        ((CreateOrUpdate step info c obj f s).andThen
          (fun _ s1 => (⟨.ok (), s1, []⟩ : Run σ Q Unit))).trace.getLast? = some last ∧
        last.err = none ∧ f o0 = .ok o ∧ last.obj = some (info.wrap o) ∧
        ObjectKeyFromObject (info.metaOf o) = ObjectKeyFromObject (info.metaOf obj)) := by
  have hsh := CreateOrUpdate_shape step info c obj f s
  have hd := andThen_done (CreateOrUpdate step info c obj f s)
  rw [hd.1]
  refine ⟨fun ev hev => (hsh.2.1 ev hev).1, ?_⟩
  intro hok
  obtain ⟨x, hx⟩ := hd.2.2.mp hok
  exact hsh.2.2.2 x hx

/-- The calls of a sequence are those of the first run followed, after
success, by those of the continuation. -/
theorem andThen_trace {α β : Type} (r : Run σ Q α) (k : α → σ → Run σ Q β) :
    (∀ a, r.result = .ok a → (r.andThen k).trace = r.trace ++ (k a r.state).trace) ∧
    ((∀ a, r.result ≠ .ok a) → (r.andThen k).trace = r.trace) := by
  unfold Run.andThen
  cases hres : r.result <;> simp

/-- An event with step number `n` lies behind every leading part of the trace
that has no event with that step number. -/
theorem index_behind (n : Nat) (front back : List (Event Q)) (i : Nat) (ev : Event Q)
    (hfront : ∀ x ∈ front, x.step ≠ n) (hi : (front ++ back)[i]? = some ev) (hn : ev.step = n) :
    front.length ≤ i := by
  by_contra hlt
  rw [List.getElem?_append_left (by omega)] at hi
  exact hfront ev (List.getElem?_mem hi) hn

/-- An event of a sequence whose step number does not occur in the first run
belongs to the continuation: the first run succeeded and the event lies behind
its calls. -/
theorem andThen_later {α β : Type} (r : Run σ Q α) (k : α → σ → Run σ Q β) (i : Nat)
    (ev : Event Q) (hi : (r.andThen k).trace[i]? = some ev)
    (hr : ∀ x ∈ r.trace, x.step ≠ ev.step) :
    ∃ a, r.result = .ok a ∧ r.trace.length ≤ i ∧
      (k a r.state).trace[i - r.trace.length]? = some ev ∧
      (r.andThen k).trace = r.trace ++ (k a r.state).trace := by
  cases hres : r.result with
  | ok a =>
    have ht := (andThen_trace r k).1 a hres
    rw [ht] at hi
    have hle := index_behind ev.step r.trace _ i ev hr hi rfl
    rw [List.getElem?_append_right hle] at hi
    exact ⟨a, rfl, hle, hi, ht⟩
  | err e =>
    have ht := (andThen_trace r k).2 (by intro a h; rw [hres] at h; simp at h)
    rw [ht] at hi
    exact absurd rfl (hr ev (List.getElem?_mem hi))
  | panicked m =>
    have ht := (andThen_trace r k).2 (by intro a h; rw [hres] at h; simp at h)
    rw [ht] at hi
    exact absurd rfl (hr ev (List.getElem?_mem hi))

/-- The last element of a list sits at the last index, also when other lists
stand before and behind it. -/
theorem getLast_in_append {α : Type} (pre l post : List α) (x : α)
    (h : l.getLast? = some x) :
    (pre ++ (l ++ post))[pre.length + (l.length - 1)]? = some x ∧ 1 ≤ l.length := by
  have hne : l ≠ [] := by
    intro hnil
    rw [hnil] at h
    simp at h
  have hpos : 1 ≤ l.length := by
    cases l with
    | nil => exact absurd rfl hne
    | cons a t => simp
  refine ⟨?_, hpos⟩
  rw [List.getElem?_append_right (by omega)]
  rw [List.getElem?_append_left (by omega)]
  rw [List.getLast?_eq_getElem?] at h
  rw [← h]
  congr 1
  omega

/-- The names in the desired workload are the names that the storage step and
the bootstrap step give their objects, every container mount names a declared
volume, and a call of the workload step is preceded in the pass by successful
calls of the storage step and, for a non-empty `initSQL`, of the bootstrap
step that carry the objects under these names. -/
theorem names_and_order [DecidableEq Q] (MustParse : String → Option Q)
    (c : Client σ Q) (req : ObjectKey) (s s1 : σ) (sqliteDB : SQLiteDB)
    (hfetch : c.GetSQLiteDB req s = (.ok sqliteDB, s1)) :
    ∃ spec, reconcileDeployment.spec sqliteDB = .ok spec ∧
      (∀ v ∈ spec.Template.Spec.Volumes, ∀ src, v.VolumeSource.PersistentVolumeClaim = some src →
        src.ClaimName = (reconcilePVC.pvc sqliteDB : PersistentVolumeClaim Q).ObjectMeta.Name) ∧
      (∀ v ∈ spec.Template.Spec.Volumes, ∀ src, v.VolumeSource.ConfigMap = some src →
        src.Name = (reconcileConfigMap.cm sqliteDB).ObjectMeta.Name ∧
        sqliteDB.Spec.InitSQL ≠ "") ∧
      ((reconcilePVC.pvc sqliteDB : PersistentVolumeClaim Q).ObjectMeta.Namespace =
          (reconcileDeployment.deployment sqliteDB).ObjectMeta.Namespace ∧
        (reconcileConfigMap.cm sqliteDB).ObjectMeta.Namespace =
          (reconcileDeployment.deployment sqliteDB).ObjectMeta.Namespace) ∧
      (∀ container ∈ spec.Template.Spec.Containers, ∀ m ∈ container.VolumeMounts,
        ∃ v ∈ spec.Template.Spec.Volumes, v.Name = m.Name) ∧
      (∀ (i : Nat) (ev : Event Q),
        (Reconcile MustParse c req s).trace[i]? = some ev → ev.step = 4 →
          (∃ j ev2 pvc, j < i ∧ (Reconcile MustParse c req s).trace[j]? = some ev2 ∧
            ev2.step = 2 ∧ ev2.err = none ∧ ev2.obj = some (Object.pvc pvc) ∧
            pvc.ObjectMeta.Name = (reconcilePVC.pvc sqliteDB : PersistentVolumeClaim Q).ObjectMeta.Name ∧
            pvc.ObjectMeta.Namespace = sqliteDB.ObjectMeta.Namespace) ∧
          (sqliteDB.Spec.InitSQL ≠ "" →
            ∃ j ev3 cm, j < i ∧ (Reconcile MustParse c req s).trace[j]? = some ev3 ∧
              ev3.step = 3 ∧ ev3.err = none ∧ ev3.obj = some (Object.configMap cm) ∧
              cm.ObjectMeta.Name = (reconcileConfigMap.cm sqliteDB).ObjectMeta.Name ∧
              cm.ObjectMeta.Namespace = sqliteDB.ObjectMeta.Namespace)) := by
  refine ⟨_, reconcileDeployment_spec_eq _, ?_, ?_, ⟨rfl, rfl⟩, ?_, ?_⟩
  · intro v hv src hsrc
    by_cases hi : sqliteDB.Spec.InitSQL = ""
    · simp [hi, reconcileDeployment.baseSpec] at hv
      subst hv
      simp at hsrc
      subst hsrc
      rfl
    · simp [hi] at hv
      rcases hv with hv | hv
      · subst hv
        simp at hsrc
        subst hsrc
        rfl
      · subst hv
        simp at hsrc
  · intro v hv src hsrc
    by_cases hi : sqliteDB.Spec.InitSQL = ""
    · simp [hi, reconcileDeployment.baseSpec] at hv
      subst hv
      simp at hsrc
    · simp [hi] at hv
      rcases hv with hv | hv
      · subst hv
        simp at hsrc
      · subst hv
        simp at hsrc
        subst hsrc
        exact ⟨rfl, hi⟩
  · intro container hc m hm
    by_cases hi : sqliteDB.Spec.InitSQL = ""
    · simp [hi, reconcileDeployment.baseSpec] at hc ⊢
      subst hc
      simp at hm
      subst hm
      rfl
    · simp [hi] at hc ⊢
      subst hc
      simp at hm
      rcases hm with hm | hm
      · subst hm; simp
      · subst hm; simp
  · intro i ev hi h4
    have f2 : (∀ x ∈ (reconcilePVC MustParse c sqliteDB s1).trace, x.step = 2) ∧
        ((reconcilePVC MustParse c sqliteDB s1).result = .ok () →
          ∃ last o0 o, (reconcilePVC MustParse c sqliteDB s1).trace.getLast? = some last ∧
            last.err = none ∧ reconcilePVC.mutateFn MustParse sqliteDB o0 = .ok o ∧
            last.obj = some (Object.pvc o) ∧
            ObjectKeyFromObject o.ObjectMeta =
              ObjectKeyFromObject (reconcilePVC.pvc sqliteDB : PersistentVolumeClaim Q).ObjectMeta) :=
      ensure_step_facts 2 pvcInfo c.PersistentVolumeClaims (reconcilePVC.pvc sqliteDB)
        (reconcilePVC.mutateFn MustParse sqliteDB) s1
    unfold Reconcile at hi ⊢
    rw [hfetch] at hi ⊢
    simp only at hi ⊢
    obtain ⟨u1, -, hl1, hi1, ht1⟩ := andThen_later _ _ i ev hi
      (by intro x hx; simp at hx; subst hx; simp [h4])
    simp only [List.length_singleton] at hl1 hi1 ht1
    obtain ⟨u2, hr2, hl2, hi2, ht2⟩ := andThen_later _ _ _ ev hi1
      (by intro x hx; rw [f2.1 x hx, h4]; decide)
    have f3 : (∀ x ∈ (reconcileConfigMap c sqliteDB
          (reconcilePVC MustParse c sqliteDB s1).state).trace, x.step = 3) ∧
        (sqliteDB.Spec.InitSQL ≠ "" →
          (reconcileConfigMap c sqliteDB (reconcilePVC MustParse c sqliteDB s1).state).result
              = .ok () →
          ∃ last o0 o, (reconcileConfigMap c sqliteDB
              (reconcilePVC MustParse c sqliteDB s1).state).trace.getLast? = some last ∧
            last.err = none ∧ reconcileConfigMap.mutateFn sqliteDB o0 = .ok o ∧
            last.obj = some (Object.configMap o) ∧
            ObjectKeyFromObject o.ObjectMeta =
              ObjectKeyFromObject (reconcileConfigMap.cm sqliteDB).ObjectMeta) := by
      by_cases hinit : sqliteDB.Spec.InitSQL = ""
      · simp [reconcileConfigMap, hinit]
      · have hrun : reconcileConfigMap c sqliteDB (reconcilePVC MustParse c sqliteDB s1).state =
            (CreateOrUpdate 3 configMapInfo c.ConfigMaps (reconcileConfigMap.cm sqliteDB)
              (reconcileConfigMap.mutateFn sqliteDB)
              (reconcilePVC MustParse c sqliteDB s1).state).andThen
                (fun _ s1 => ⟨.ok (), s1, []⟩) := by
          simp [reconcileConfigMap, hinit]
        rw [hrun]
        have f := ensure_step_facts 3 (configMapInfo : ObjectInfo Q ConfigMap) c.ConfigMaps
          (reconcileConfigMap.cm sqliteDB) (reconcileConfigMap.mutateFn sqliteDB)
          (reconcilePVC MustParse c sqliteDB s1).state
        exact ⟨f.1, fun _ => f.2⟩
    obtain ⟨u3, hr3, hl3, -, ht3⟩ := andThen_later _ _ _ ev hi2
      (by intro x hx; rw [f3.1 x hx, h4]; decide)
    rw [ht1, ht2, ht3]
    constructor
    · obtain ⟨last, o0, o, hlast, herr, -, hobj, hkey⟩ := f2.2 hr2
      refine ⟨_, last, o, ?_, (getLast_in_append _ _ _ last hlast).1,
        f2.1 last (List.mem_of_getLast?_eq_some hlast), herr, hobj,
        congrArg ObjectKey.Name hkey, congrArg ObjectKey.Namespace hkey⟩
      have := (getLast_in_append [] _ [] last hlast).2
      simp only [List.length_singleton]
      omega
    · intro hinit
      obtain ⟨last, o0, o, hlast, herr, -, hobj, hkey⟩ := f3.2 hinit hr3
      rw [← List.append_assoc _ (reconcilePVC MustParse c sqliteDB s1).trace]
      refine ⟨_, last, o, ?_, (getLast_in_append _ _ _ last hlast).1,
        f3.1 last (List.mem_of_getLast?_eq_some hlast), herr, hobj,
        congrArg ObjectKey.Name hkey, congrArg ObjectKey.Namespace hkey⟩
      have := (getLast_in_append [] _ [] last hlast).2
      simp only [List.length_append, List.length_singleton]
      omega


end Passes

section Idempotence

variable {Q : Type}

/-- A reference refers to the same object as itself. -/
theorem referSameObject_self (r : OwnerReference) : referSameObject r r = true := by
  simp [referSameObject]

/-- Upserting a reference twice is upserting it once. -/
theorem upsertOwnerRef_idem (ref : OwnerReference) (refs : List OwnerReference) :
    upsertOwnerRef ref (upsertOwnerRef ref refs) = upsertOwnerRef ref refs := by
  induction refs with
  | nil => simp [upsertOwnerRef, referSameObject_self]
  | cons r rs ih =>
    by_cases h : referSameObject r ref = true
    · simp [upsertOwnerRef, h, referSameObject_self]
    · simp [upsertOwnerRef, h, ih]

/-- After the upsert of a controller reference, the first controller reference
refers to the same object, if that was so before or there was none. -/
theorem find_controller_upsert (ref : OwnerReference) (hc : ref.Controller = some true)
    (refs : List OwnerReference)
    (h : ∀ existing, refs.find? (fun r => r.Controller == some true) = some existing →
      referSameObject existing ref = true) :
    ∃ existing, (upsertOwnerRef ref refs).find? (fun r => r.Controller == some true)
        = some existing ∧ referSameObject existing ref = true := by
  induction refs with
  | nil =>
    refine ⟨ref, ?_, referSameObject_self ref⟩
    simp [upsertOwnerRef, hc]
  | cons r rs ih =>
    by_cases hs : referSameObject r ref = true
    · refine ⟨ref, ?_, referSameObject_self ref⟩
      simp [upsertOwnerRef, hs, hc]
    · by_cases hr : r.Controller = some true
      · have := h r (by simp [hr])
        exact absurd this hs
      · have hb : (r.Controller == some true) = false := by simp [hr]
        have ih2 := ih (by
          intro existing he
          apply h
          simp [List.find?, hb, he])
        obtain ⟨existing, he, hsame⟩ := ih2
        refine ⟨existing, ?_, hsame⟩
        simp [upsertOwnerRef, hs, List.find?, hb, he]

/-- Setting the controller reference again on the metadata it produced
returns that metadata. -/
theorem SetControllerReference_idem (owner : SQLiteDB) (m m2 : ObjectMeta)
    (h : SetControllerReference owner m = .ok m2) :
    SetControllerReference owner m2 = .ok m2 := by
  unfold SetControllerReference at h
  cases hv : validateOwner owner.ObjectMeta m with
  | some e => rw [hv] at h; simp at h
  | none =>
    rw [hv] at h
    simp only at h
    have hm2 :
        m2 = { m with
               OwnerReferences := upsertOwnerRef (controllerRef owner) m.OwnerReferences } ∧
        (∀ existing, m.OwnerReferences.find? (fun r => r.Controller == some true) = some existing →
          referSameObject existing (controllerRef owner) = true) := by
      cases hg : GetControllerOf m with
      | none =>
        rw [hg] at h
        simp only [Except.ok.injEq] at h
        refine ⟨h.symm, ?_⟩
        intro existing he
        unfold GetControllerOf at hg
        rw [hg] at he
        simp at he
      | some ex =>
        rw [hg] at h
        simp only at h
        by_cases hs : referSameObject ex (controllerRef owner) = true
        · simp [hs] at h
          refine ⟨h.symm, ?_⟩
          intro existing he
          unfold GetControllerOf at hg
          rw [hg] at he
          simp at he
          rw [← he]
          exact hs
        · simp [hs] at h
    obtain ⟨hm2eq, hctl⟩ := hm2
    obtain ⟨existing, hfind, hsame⟩ := find_controller_upsert (controllerRef owner) rfl
      m.OwnerReferences hctl
    have hv2 : validateOwner owner.ObjectMeta m2 = none := by
      rw [hm2eq]
      exact hv
    unfold SetControllerReference
    rw [hv2]
    simp only
    have hg2 : GetControllerOf m2 = some existing := by
      rw [hm2eq]
      exact hfind
    rw [hg2]
    simp only [hsame, Bool.not_true, Bool.false_eq_true, if_false]
    rw [hm2eq]
    simp [upsertOwnerRef_idem]

/-- The mutate function of `reconcilePVC` returns its own result unchanged. -/
theorem reconcilePVC_mutateFn_idem (MustParse : String → Option Q) (sqliteDB : SQLiteDB)
    (x y : PersistentVolumeClaim Q) (h : reconcilePVC.mutateFn MustParse sqliteDB x = .ok y) :
    reconcilePVC.mutateFn MustParse sqliteDB y = .ok y := by
  unfold reconcilePVC.mutateFn at h ⊢
  cases hp : MustParse (reconcilePVC.storageSize sqliteDB) with
  | none => rw [hp] at h; simp at h
  | some q =>
    rw [hp] at h
    simp only at h ⊢
    cases hs : SetControllerReference sqliteDB x.ObjectMeta with
    | error e => rw [hs] at h; simp at h
    | ok m =>
      rw [hs] at h
      simp only [Outcome.ok.injEq] at h
      subst h
      simp only
      rw [SetControllerReference_idem sqliteDB _ _ hs]

/-- The mutate function of `reconcileConfigMap` returns its own result unchanged. -/
theorem reconcileConfigMap_mutateFn_idem (sqliteDB : SQLiteDB) (x y : ConfigMap)
    (h : reconcileConfigMap.mutateFn sqliteDB x = .ok y) :
    reconcileConfigMap.mutateFn sqliteDB y = .ok y := by
  unfold reconcileConfigMap.mutateFn at h ⊢
  simp only at h ⊢
  cases hs : SetControllerReference sqliteDB x.ObjectMeta with
  | error e => rw [hs] at h; simp at h
  | ok m =>
    rw [hs] at h
    simp only [Outcome.ok.injEq] at h
    subst h
    simp only
    rw [SetControllerReference_idem sqliteDB _ _ hs]

/-- The mutate function of `reconcileDeployment` returns its own result unchanged. -/
theorem reconcileDeployment_mutateFn_idem (sqliteDB : SQLiteDB) (x y : Deployment)
    (h : reconcileDeployment.mutateFn sqliteDB x = .ok y) :
    reconcileDeployment.mutateFn sqliteDB y = .ok y := by
  rw [reconcileDeployment_mutateFn_eq, reconcileDeployment_spec_eq] at h ⊢
  cases hs : SetControllerReference sqliteDB x.ObjectMeta with
  | error e => rw [hs] at h; simp at h
  | ok m =>
    rw [hs] at h
    simp only [Outcome.ok.injEq] at h
    subst h
    simp only
    rw [SetControllerReference_idem sqliteDB _ _ hs]

/-- The mutate function of `reconcileService` returns its own result unchanged. -/
theorem reconcileService_mutateFn_idem (sqliteDB : SQLiteDB) (x y : Service)
    (h : reconcileService.mutateFn sqliteDB x = .ok y) :
    reconcileService.mutateFn sqliteDB y = .ok y := by
  unfold reconcileService.mutateFn at h ⊢
  simp only at h ⊢
  cases hs : SetControllerReference sqliteDB x.ObjectMeta with
  | error e => rw [hs] at h; simp at h
  | ok m =>
    rw [hs] at h
    simp only [Outcome.ok.injEq] at h
    subst h
    simp only
    rw [SetControllerReference_idem sqliteDB _ _ hs]

/-- An object added under a key that was absent is found under that key. -/
theorem lookup_append_new {α : Type} (metaOf : α → ObjectMeta) (key : ObjectKey) (l : List α)
    (o : α) (hnone : lookup metaOf key l = none) (hk : ObjectKeyFromObject (metaOf o) = key) :
    lookup metaOf key (l ++ [o]) = some o := by
  unfold lookup at hnone ⊢
  rw [List.find?_append, hnone]
  simp [hasKey, hk]

/-- An object written over a present key is found under that key. -/
theorem lookup_overwrite {α : Type} (metaOf : α → ObjectMeta) (l : List α) (o x : α)
    (hsome : lookup metaOf (ObjectKeyFromObject (metaOf o)) l = some x) :
    lookup metaOf (ObjectKeyFromObject (metaOf o)) (overwrite metaOf o l) = some o := by
  unfold lookup overwrite at *
  induction l with
  | nil => simp at hsome
  | cons a t ih =>
    by_cases ha : hasKey (ObjectKeyFromObject (metaOf o)) (metaOf a) = true
    · have ho : hasKey (ObjectKeyFromObject (metaOf o)) (metaOf o) = true := by simp [hasKey]
      simp only [List.map, ha, if_true, List.find?, ho]
    · have hb : hasKey (ObjectKeyFromObject (metaOf o)) (metaOf a) = false := by simpa using ha
      simp only [List.find?, hb] at hsome
      simp only [List.map, hb, List.find?]
      simp only [Bool.false_eq_true, if_false, hb]
      exact ih hsome

/-- The wrapper `mutate` returns an object that the mutate function leaves as
it is and that sits under the key. -/
theorem mutate_fixed {α : Type} (info : ObjectInfo Q α) (f : α → Outcome α) (key : ObjectKey)
    (o : α) (hf : f o = .ok o) (hk : ObjectKeyFromObject (info.metaOf o) = key) :
    mutate info f key o = .ok o := by
  unfold mutate
  rw [hf]
  simp [hk]

/-- An ensure step over the store settles: it changes only its own component
of the store, and run again on any store whose component is the one it left,
it ends the same way, leaves that store as it is and only reads. -/
theorem ensure_settles {α : Type} [DecidableEq α] (step : Nat) (info : ObjectInfo Q α)
    (view : Store Q → List α) (put : List α → Store Q → Store Q)
    (hpv : ∀ s, put (view s) s = s)
    (obj : α) (f : α → Outcome α) (hf : ∀ x y, f x = .ok y → f y = .ok y) (s : Store Q) :
    ∃ l, ((CreateOrUpdate step info (storeKind info.metaOf view put) obj f s).andThen
            (fun _ s1 => (⟨.ok (), s1, []⟩ : Run (Store Q) Q Unit))).state = put l s ∧
      ∀ s2, view s2 = l →
        ((CreateOrUpdate step info (storeKind info.metaOf view put) obj f s2).andThen
            (fun _ s1 => (⟨.ok (), s1, []⟩ : Run (Store Q) Q Unit))).result =
          ((CreateOrUpdate step info (storeKind info.metaOf view put) obj f s).andThen
            (fun _ s1 => (⟨.ok (), s1, []⟩ : Run (Store Q) Q Unit))).result ∧
        ((CreateOrUpdate step info (storeKind info.metaOf view put) obj f s2).andThen
            (fun _ s1 => (⟨.ok (), s1, []⟩ : Run (Store Q) Q Unit))).state = s2 ∧
        ∀ ev ∈ ((CreateOrUpdate step info (storeKind info.metaOf view put) obj f s2).andThen
            (fun _ s1 => (⟨.ok (), s1, []⟩ : Run (Store Q) Q Unit))).trace,
          ev.verb = Verb.Get := by
  have hnf : IsNotFound { reason := Reason.NotFound, message := "not found" } = true := rfl
  cases hl : lookup info.metaOf (ObjectKeyFromObject (info.metaOf obj)) (view s) with
  | none =>
    cases hm : mutate info f (ObjectKeyFromObject (info.metaOf obj)) obj with
    | err e2 =>
      refine ⟨view s, ?_, ?_⟩
      · simp [CreateOrUpdate, storeKind, listGet, hl, hnf, hm, Run.andThen, hpv]
      · intro s2 h2
        simp [CreateOrUpdate, storeKind, listGet, h2, hl, hnf, hm, Run.andThen]
    | panicked m =>
      refine ⟨view s, ?_, ?_⟩
      · simp [CreateOrUpdate, storeKind, listGet, hl, hnf, hm, Run.andThen, hpv]
      · intro s2 h2
        simp [CreateOrUpdate, storeKind, listGet, h2, hl, hnf, hm, Run.andThen]
    | ok obj2 =>
      have hk := mutate_ok info f _ obj obj2 hm
      have hl2 : lookup info.metaOf (ObjectKeyFromObject (info.metaOf obj2)) (view s) = none := by
        rw [hk.2]; exact hl
      refine ⟨view s ++ [obj2], ?_, ?_⟩
      · simp [CreateOrUpdate, storeKind, listGet, listCreate, hl, hl2, hnf, hm, Run.andThen]
      · intro s2 h2
        have hl3 := lookup_append_new info.metaOf _ (view s) obj2 hl hk.2
        have hm3 := mutate_fixed info f (ObjectKeyFromObject (info.metaOf obj)) obj2
          (hf _ _ hk.1) hk.2
        simp [CreateOrUpdate, storeKind, listGet, listCreate, h2, hl, hl2, hl3, hm3, hnf, hm,
          Run.andThen]
  | some existing =>
    cases hm : mutate info f (ObjectKeyFromObject (info.metaOf obj)) existing with
    | err e2 =>
      refine ⟨view s, ?_, ?_⟩
      · simp [CreateOrUpdate, storeKind, listGet, hl, hm, Run.andThen, hpv]
      · intro s2 h2
        simp [CreateOrUpdate, storeKind, listGet, h2, hl, hm, Run.andThen]
    | panicked m =>
      refine ⟨view s, ?_, ?_⟩
      · simp [CreateOrUpdate, storeKind, listGet, hl, hm, Run.andThen, hpv]
      · intro s2 h2
        simp [CreateOrUpdate, storeKind, listGet, h2, hl, hm, Run.andThen]
    | ok obj2 =>
      have hk := mutate_ok info f _ existing obj2 hm
      by_cases heq : existing = obj2
      · subst heq
        refine ⟨view s, ?_, ?_⟩
        · simp [CreateOrUpdate, storeKind, listGet, hl, hm, Run.andThen, hpv]
        · intro s2 h2
          simp [CreateOrUpdate, storeKind, listGet, h2, hl, hm, Run.andThen]
      · have hl2 : lookup info.metaOf (ObjectKeyFromObject (info.metaOf obj2)) (view s)
            = some existing := by
          rw [hk.2]; exact hl
        refine ⟨overwrite info.metaOf obj2 (view s), ?_, ?_⟩
        · simp [CreateOrUpdate, storeKind, listGet, listUpdate, hl, hl2, hm, heq, Run.andThen]
        · intro s2 h2
          have hl3 := lookup_overwrite info.metaOf (view s) obj2 existing hl2
          rw [hk.2] at hl3
          have hm3 := mutate_fixed info f (ObjectKeyFromObject (info.metaOf obj)) obj2
            (hf _ _ hk.1) hk.2
          simp [CreateOrUpdate, storeKind, listGet, listUpdate, h2, hl, hl2, hl3, hm3, hm, heq,
            Run.andThen]

/-- The storage step reads only the metadata and the spec of the instance. -/
theorem reconcilePVC_ignores_status [DecidableEq Q] (MustParse : String → Option Q)
    (c : Client (Store Q) Q) (db db1 : SQLiteDB)
    (hm : db1.ObjectMeta = db.ObjectMeta) (hs : db1.Spec = db.Spec) :
    reconcilePVC MustParse c db1 = reconcilePVC MustParse c db := by
  cases db with
  | mk m sp st =>
    cases db1 with
    | mk m1 sp1 st1 =>
      simp only at hm hs
      subst hm
      subst hs
      rfl

/-- The other ensure steps read only the metadata and the spec of the instance. -/
theorem steps_ignore_status (c : Client (Store Q) Q) (db db1 : SQLiteDB)
    (hm : db1.ObjectMeta = db.ObjectMeta) (hs : db1.Spec = db.Spec) :
    reconcileConfigMap c db1 = reconcileConfigMap c db ∧
    reconcileDeployment c db1 = reconcileDeployment c db ∧
    reconcileService c db1 = reconcileService c db := by
  cases db with
  | mk m sp st =>
    cases db1 with
    | mk m1 sp1 st1 =>
      simp only at hm hs
      subst hm
      subst hs
      exact ⟨rfl, rfl, rfl⟩

/-- The storage step over the store settles. -/
theorem reconcilePVC_settles [DecidableEq Q] (MustParse : String → Option Q) (db : SQLiteDB)
    (s : Store Q) :
    ∃ l, (reconcilePVC MustParse storeClient db s).state = { s with pvcs := l } ∧
      ∀ s2 : Store Q, s2.pvcs = l →
        (reconcilePVC MustParse storeClient db s2).result =
          (reconcilePVC MustParse storeClient db s).result ∧
        (reconcilePVC MustParse storeClient db s2).state = s2 ∧
        ∀ ev ∈ (reconcilePVC MustParse storeClient db s2).trace, ev.verb = Verb.Get :=
  ensure_settles 2 pvcInfo (fun s => s.pvcs) (fun l s => { s with pvcs := l }) (fun _ => rfl)
    (reconcilePVC.pvc db) (reconcilePVC.mutateFn MustParse db)
    (reconcilePVC_mutateFn_idem MustParse db) s

/-- The workload step over the store settles. -/
theorem reconcileDeployment_settles (db : SQLiteDB) (s : Store Q) :
    ∃ l, (reconcileDeployment storeClient db s).state = { s with deployments := l } ∧
      ∀ s2 : Store Q, s2.deployments = l →
        (reconcileDeployment storeClient db s2).result =
          (reconcileDeployment storeClient db s).result ∧
        (reconcileDeployment storeClient db s2).state = s2 ∧
        ∀ ev ∈ (reconcileDeployment storeClient db s2).trace, ev.verb = Verb.Get :=
  ensure_settles 4 deploymentInfo (fun s => s.deployments) (fun l s => { s with deployments := l })
    (fun _ => rfl) (reconcileDeployment.deployment db) (reconcileDeployment.mutateFn db)
    (reconcileDeployment_mutateFn_idem db) s

/-- The endpoint step over the store settles. -/
theorem reconcileService_settles (db : SQLiteDB) (s : Store Q) :
    ∃ l, (reconcileService storeClient db s).state = { s with services := l } ∧
      ∀ s2 : Store Q, s2.services = l →
        (reconcileService storeClient db s2).result =
          (reconcileService storeClient db s).result ∧
        (reconcileService storeClient db s2).state = s2 ∧
        ∀ ev ∈ (reconcileService storeClient db s2).trace, ev.verb = Verb.Get :=
  ensure_settles 5 serviceInfo (fun s => s.services) (fun l s => { s with services := l })
    (fun _ => rfl) (reconcileService.service db) (reconcileService.mutateFn db)
    (reconcileService_mutateFn_idem db) s

/-- The bootstrap step over the store settles. -/
theorem reconcileConfigMap_settles (db : SQLiteDB) (s : Store Q) :
    ∃ l, (reconcileConfigMap storeClient db s).state = { s with configMaps := l } ∧
      ∀ s2 : Store Q, s2.configMaps = l →
        (reconcileConfigMap storeClient db s2).result =
          (reconcileConfigMap storeClient db s).result ∧
        (reconcileConfigMap storeClient db s2).state = s2 ∧
        ∀ ev ∈ (reconcileConfigMap storeClient db s2).trace, ev.verb = Verb.Get := by
  by_cases hinit : db.Spec.InitSQL = ""
  · refine ⟨s.configMaps, ?_, ?_⟩
    · simp [reconcileConfigMap, hinit]
    · intro s2 _
      simp [reconcileConfigMap, hinit]
  · have h := ensure_settles 3 (configMapInfo : ObjectInfo Q ConfigMap) (fun s => s.configMaps)
      (fun l s => { s with configMaps := l }) (fun _ => rfl) (reconcileConfigMap.cm db)
      (reconcileConfigMap.mutateFn db) (reconcileConfigMap_mutateFn_idem db) s
    have hrun : ∀ t : Store Q, reconcileConfigMap storeClient db t =
        (CreateOrUpdate 3 (configMapInfo : ObjectInfo Q ConfigMap)
          (storeKind (configMapInfo : ObjectInfo Q ConfigMap).metaOf (fun s => s.configMaps)
            (fun l s => { s with configMaps := l }))
          (reconcileConfigMap.cm db) (reconcileConfigMap.mutateFn db) t).andThen
            (fun _ s1 => ⟨.ok (), s1, []⟩) := by
      intro t
      simp only [reconcileConfigMap, hinit, beq_iff_eq, if_false]
      rfl
    simp only [hrun]
    exact h

/-- What is found under a key has that key. -/
theorem lookup_key {α : Type} (metaOf : α → ObjectMeta) (key : ObjectKey) (l : List α) (x : α)
    (h : lookup metaOf key l = some x) : ObjectKeyFromObject (metaOf x) = key := by
  unfold lookup at h
  have := List.find?_some h
  simpa [hasKey] using this

/-- After the status of the instances under a key is overwritten, the instance
found under that key is the one found before with the new status. -/
theorem lookup_status (key : ObjectKey) (st : SQLiteDBStatus) (l : List SQLiteDB) (db : SQLiteDB)
    (h : lookup (fun x : SQLiteDB => x.ObjectMeta) key l = some db) :
    lookup (fun x : SQLiteDB => x.ObjectMeta) key
        (l.map (fun x => if hasKey key x.ObjectMeta then { x with Status := st } else x)) =
      some { db with Status := st } := by
  unfold lookup at *
  induction l with
  | nil => simp at h
  | cons a t ih =>
    by_cases ha : hasKey key a.ObjectMeta = true
    · simp only [List.find?, ha] at h
      simp only [Option.some.injEq] at h
      subst h
      simp only [List.map, ha, if_true, List.find?]
    · have hb : hasKey key a.ObjectMeta = false := by simpa using ha
      simp only [List.find?, hb] at h
      simp only [List.map, hb, List.find?, Bool.false_eq_true, if_false]
      exact ih h

/-- Overwriting the status twice with the same status is overwriting it once. -/
theorem map_status_idem (key : ObjectKey) (st : SQLiteDBStatus) (l : List SQLiteDB) :
    (l.map (fun x => if hasKey key x.ObjectMeta then { x with Status := st } else x)).map
        (fun x => if hasKey key x.ObjectMeta then { x with Status := st } else x) =
      l.map (fun x => if hasKey key x.ObjectMeta then { x with Status := st } else x) := by
  rw [List.map_map]
  apply List.map_congr_left
  intro a _
  by_cases ha : hasKey key a.ObjectMeta = true
  · simp [ha]
  · simp [ha]

/-- The derived status depends on the previous one only through the fields
it does not set, so deriving it twice is deriving it once. -/
theorem status_idem (got : Except Error Deployment) (st : SQLiteDBStatus) :
    updateStatus.status got (updateStatus.status got st) = updateStatus.status got st := by
  cases got with
  | error e => rfl
  | ok d =>
    by_cases h : d.Status.ReadyReplicas > 0
    · simp [updateStatus.status, h]
    · simp [updateStatus.status, h]

/-- The status step over the store, for an instance that is stored: it
succeeds, overwrites the status of the stored instance with the derived one
and makes one read and one status update. -/
theorem updateStatus_store (db x : SQLiteDB) (s : Store Q)
    (hfound : lookup (fun x : SQLiteDB => x.ObjectMeta) (ObjectKeyFromObject db.ObjectMeta)
      s.sqlitedbs = some x) :
    (updateStatus storeClient db s).result = .ok () ∧
    (updateStatus storeClient db s).state =
      { s with
        sqlitedbs := s.sqlitedbs.map (fun y =>
          if hasKey (ObjectKeyFromObject db.ObjectMeta) y.ObjectMeta then
            { y with
              Status := updateStatus.status
                (listGet (fun o : Deployment => o.ObjectMeta)
                  (ObjectKeyFromObject db.ObjectMeta) s.deployments) db.Status }
          else y) } ∧
    (∀ ev ∈ (updateStatus storeClient db s).trace, ev.isWrite = false) ∧
    ((updateStatus storeClient db s).trace.filter Event.isStatusUpdate).length = 1 := by
  have hf2 := hfound
  simp only [ObjectKeyFromObject] at hf2
  simp [updateStatus, storeClient, storeKind, listStatusUpdate, hf2, Event.isWrite,
    Event.isStatusUpdate, ObjectKeyFromObject]

/-- The function `Reconcile` is the fetch followed by the remaining steps. -/
theorem Reconcile_eq [DecidableEq Q] {σ : Type} (MustParse : String → Option Q) (c : Client σ Q)
    (req : ObjectKey) (s : σ) :
    Reconcile MustParse c req s =
      match c.GetSQLiteDB req s with
      | (.error err, s1) =>
        if IsNotFound err then
          ⟨.ok {}, s1,
            [{ step := 1, verb := Verb.Get, kind := Kind.SQLiteDB, key := req, err := some err }]⟩
        else
          ⟨.err err, s1,
            [{ step := 1, verb := Verb.Get, kind := Kind.SQLiteDB, key := req, err := some err }]⟩
      | (.ok sqliteDB, s1) =>
        (Run.mk (.ok ()) s1
          [{ step := 1, verb := Verb.Get, kind := Kind.SQLiteDB, key := req,
             obj := some (Object.sqliteDB sqliteDB) }]).andThen
          fun _ s1 => Reconcile.afterFetch MustParse c sqliteDB s1 := by
  rfl

/-- Reads are neither writes nor status updates. -/
theorem gets_quiet (t : List (Event Q)) (h : ∀ ev ∈ t, ev.verb = Verb.Get) :
    (∀ ev ∈ t, ev.isWrite = false) ∧ t.filter Event.isStatusUpdate = [] := by
  constructor
  · intro ev hev
    simp [Event.isWrite, h ev hev]
  · rw [List.filter_eq_nil_iff]
    intro ev hev
    simp [Event.isStatusUpdate, h ev hev]

/-- One step of the replay: when the second run of an ensure step ends as the
first did, leaves the store as it is and only reads, and the rest of the pass
replays after a success, then the step followed by the rest replays. -/
theorem replay_step (first second : Run (Store Q) Q Unit)
    (k k2 : Unit → Store Q → Run (Store Q) Q Result) (start : Store Q)
    (hres : second.result = first.result) (hst : second.state = start)
    (hget : ∀ ev ∈ second.trace, ev.verb = Verb.Get)
    (hk : first.result = .ok () → Replays (k () first.state) (k2 () start) start) :
    Replays (first.andThen k) (second.andThen k2) start := by
  obtain ⟨hq1, hq2⟩ := gets_quiet second.trace hget
  unfold Replays Run.andThen
  rw [hres]
  cases hf : first.result with
  | ok u =>
    obtain ⟨h1, h2, h3, h4⟩ := hk hf
    simp only [hst]
    refine ⟨h1, h2, ?_, ?_⟩
    · intro ev hev
      rcases List.mem_append.mp hev with h | h
      · exact hq1 ev h
      · exact h3 ev h
    · rw [List.filter_append, hq2]
      simpa using h4
  | err e =>
    simp only
    exact ⟨trivial, hst, hq1, by rw [hq2]; simp⟩
  | panicked m =>
    simp only
    exact ⟨trivial, hst, hq1, by rw [hq2]; simp⟩

/-- The status step replays: after it, the stored instance is the one given
with the derived status, and a second run for that instance, from any store
with the same instances and workloads, changes nothing. -/
theorem afterService_replays (db : SQLiteDB) (s : Store Q)
    (hfound : lookup (fun x : SQLiteDB => x.ObjectMeta) (ObjectKeyFromObject db.ObjectMeta)
      s.sqlitedbs = some db) :
    ∃ L db1, (Reconcile.afterService storeClient db s).state = { s with sqlitedbs := L } ∧
      lookup (fun x : SQLiteDB => x.ObjectMeta) (ObjectKeyFromObject db.ObjectMeta) L = some db1 ∧
      db1.ObjectMeta = db.ObjectMeta ∧ db1.Spec = db.Spec ∧
      ∀ s2 : Store Q, s2.sqlitedbs = L → s2.deployments = s.deployments →
        Replays (Reconcile.afterService storeClient db s)
          (Reconcile.afterService storeClient db1 s2) s2 := by
  obtain ⟨h1, h2, h3, h4⟩ := updateStatus_store db db s hfound
  generalize hst : updateStatus.status
    (listGet (fun o : Deployment => o.ObjectMeta) (ObjectKeyFromObject db.ObjectMeta)
      s.deployments) db.Status = st at h2
  have hidem : updateStatus.status
      (listGet (fun o : Deployment => o.ObjectMeta) (ObjectKeyFromObject db.ObjectMeta)
        s.deployments) st = st := by
    rw [← hst, status_idem]
  refine ⟨_, { db with Status := st }, ?_, lookup_status _ st _ _ hfound, rfl, rfl, ?_⟩
  · simp only [Reconcile.afterService, Run.andThen, h1, h2]
  · intro s2 hs2 hd2
    have hfound2 : lookup (fun x : SQLiteDB => x.ObjectMeta)
        (ObjectKeyFromObject ({ db with Status := st } : SQLiteDB).ObjectMeta)
        s2.sqlitedbs = some { db with Status := st } := by
      rw [hs2]
      exact lookup_status _ st _ _ hfound
    obtain ⟨g1, g2, g3, g4⟩ := updateStatus_store { db with Status := st } _ s2 hfound2
    rw [← hd2] at hidem
    simp only [hidem] at g2
    rw [hs2, map_status_idem] at g2
    rw [← hs2] at g2
    unfold Replays
    simp only [Reconcile.afterService, Run.andThen, h1, g1, g2, List.append_nil]
    refine ⟨trivial, trivial, g3, ?_⟩
    simpa using g4

/-- The endpoint step followed by the status step replays. -/
theorem afterDeployment_replays (db : SQLiteDB) (s : Store Q)
    (hfound : lookup (fun x : SQLiteDB => x.ObjectMeta) (ObjectKeyFromObject db.ObjectMeta)
      s.sqlitedbs = some db) :
    ∃ S L db1,
      (Reconcile.afterDeployment storeClient db s).state = { s with services := S, sqlitedbs := L } ∧
      lookup (fun x : SQLiteDB => x.ObjectMeta) (ObjectKeyFromObject db.ObjectMeta) L = some db1 ∧
      db1.ObjectMeta = db.ObjectMeta ∧ db1.Spec = db.Spec ∧
      ∀ s2 : Store Q, s2.sqlitedbs = L → s2.services = S → s2.deployments = s.deployments →
        Replays (Reconcile.afterDeployment storeClient db s)
          (Reconcile.afterDeployment storeClient db1 s2) s2 := by
  obtain ⟨l, hl, rep⟩ := reconcileService_settles db s
  cases hr : (reconcileService storeClient db s).result with
  | ok u =>
    obtain ⟨L, db1, hst, hlk, hm, hs, hrep⟩ :=
      afterService_replays db { s with services := l } hfound
    refine ⟨l, L, db1, ?_, hlk, hm, hs, ?_⟩
    · simp only [Reconcile.afterDeployment, Run.andThen, hr, hl, hst]
    · intro s2 h1 h2 h3
      obtain ⟨r1, r2, r3⟩ := rep s2 h2
      unfold Reconcile.afterDeployment
      rw [(steps_ignore_status storeClient db db1 hm hs).2.2]
      refine replay_step _ _ _ _ s2 r1 r2 r3 ?_
      intro _
      show Replays (Reconcile.afterService storeClient db (reconcileService storeClient db s).state)
        (Reconcile.afterService storeClient db1 s2) s2
      rw [hl]
      exact hrep s2 h1 h3
  | err e =>
    refine ⟨l, s.sqlitedbs, db, ?_, hfound, rfl, rfl, ?_⟩
    · simp only [Reconcile.afterDeployment, Run.andThen, hr, hl]
    · intro s2 h1 h2 h3
      obtain ⟨r1, r2, r3⟩ := rep s2 h2
      unfold Reconcile.afterDeployment
      exact replay_step _ _ _ _ s2 r1 r2 r3 (by intro h; rw [hr] at h; cases h)
  | panicked m =>
    refine ⟨l, s.sqlitedbs, db, ?_, hfound, rfl, rfl, ?_⟩
    · simp only [Reconcile.afterDeployment, Run.andThen, hr, hl]
    · intro s2 h1 h2 h3
      obtain ⟨r1, r2, r3⟩ := rep s2 h2
      unfold Reconcile.afterDeployment
      exact replay_step _ _ _ _ s2 r1 r2 r3 (by intro h; rw [hr] at h; cases h)

/-- The workload step followed by the later steps replays. -/
theorem afterConfigMap_replays (db : SQLiteDB) (s : Store Q)
    (hfound : lookup (fun x : SQLiteDB => x.ObjectMeta) (ObjectKeyFromObject db.ObjectMeta)
      s.sqlitedbs = some db) :
    ∃ D S L db1,
      (Reconcile.afterConfigMap storeClient db s).state =
        { s with deployments := D, services := S, sqlitedbs := L } ∧
      lookup (fun x : SQLiteDB => x.ObjectMeta) (ObjectKeyFromObject db.ObjectMeta) L = some db1 ∧
      db1.ObjectMeta = db.ObjectMeta ∧ db1.Spec = db.Spec ∧
      ∀ s2 : Store Q, s2.sqlitedbs = L → s2.services = S → s2.deployments = D →
        Replays (Reconcile.afterConfigMap storeClient db s)
          (Reconcile.afterConfigMap storeClient db1 s2) s2 := by
  obtain ⟨l, hl, rep⟩ := reconcileDeployment_settles db s
  cases hr : (reconcileDeployment storeClient db s).result with
  | ok u =>
    obtain ⟨S, L, db1, hst, hlk, hm, hs, hrep⟩ :=
      afterDeployment_replays db { s with deployments := l } hfound
    refine ⟨l, S, L, db1, ?_, hlk, hm, hs, ?_⟩
    · simp only [Reconcile.afterConfigMap, Run.andThen, hr, hl, hst]
    · intro s2 h1 h2 h3
      obtain ⟨r1, r2, r3⟩ := rep s2 h3
      unfold Reconcile.afterConfigMap
      rw [(steps_ignore_status storeClient db db1 hm hs).2.1]
      refine replay_step _ _ _ _ s2 r1 r2 r3 ?_
      intro _
      show Replays
        (Reconcile.afterDeployment storeClient db (reconcileDeployment storeClient db s).state)
        (Reconcile.afterDeployment storeClient db1 s2) s2
      rw [hl]
      exact hrep s2 h1 h2 h3
  | err e =>
    refine ⟨l, s.services, s.sqlitedbs, db, ?_, hfound, rfl, rfl, ?_⟩
    · simp only [Reconcile.afterConfigMap, Run.andThen, hr, hl]
    · intro s2 h1 h2 h3
      obtain ⟨r1, r2, r3⟩ := rep s2 h3
      unfold Reconcile.afterConfigMap
      exact replay_step _ _ _ _ s2 r1 r2 r3 (by intro h; rw [hr] at h; cases h)
  | panicked m =>
    refine ⟨l, s.services, s.sqlitedbs, db, ?_, hfound, rfl, rfl, ?_⟩
    · simp only [Reconcile.afterConfigMap, Run.andThen, hr, hl]
    · intro s2 h1 h2 h3
      obtain ⟨r1, r2, r3⟩ := rep s2 h3
      unfold Reconcile.afterConfigMap
      exact replay_step _ _ _ _ s2 r1 r2 r3 (by intro h; rw [hr] at h; cases h)

/-- The bootstrap step followed by the later steps replays. -/
theorem afterPVC_replays (db : SQLiteDB) (s : Store Q)
    (hfound : lookup (fun x : SQLiteDB => x.ObjectMeta) (ObjectKeyFromObject db.ObjectMeta)
      s.sqlitedbs = some db) :
    ∃ C D S L db1,
      (Reconcile.afterPVC storeClient db s).state =
        { s with configMaps := C, deployments := D, services := S, sqlitedbs := L } ∧
      lookup (fun x : SQLiteDB => x.ObjectMeta) (ObjectKeyFromObject db.ObjectMeta) L = some db1 ∧
      db1.ObjectMeta = db.ObjectMeta ∧ db1.Spec = db.Spec ∧
      ∀ s2 : Store Q, s2.sqlitedbs = L → s2.services = S → s2.deployments = D →
        s2.configMaps = C →
        Replays (Reconcile.afterPVC storeClient db s)
          (Reconcile.afterPVC storeClient db1 s2) s2 := by
  obtain ⟨l, hl, rep⟩ := reconcileConfigMap_settles db s
  cases hr : (reconcileConfigMap storeClient db s).result with
  | ok u =>
    obtain ⟨D, S, L, db1, hst, hlk, hm, hs, hrep⟩ :=
      afterConfigMap_replays db { s with configMaps := l } hfound
    refine ⟨l, D, S, L, db1, ?_, hlk, hm, hs, ?_⟩
    · simp only [Reconcile.afterPVC, Run.andThen, hr, hl, hst]
    · intro s2 h1 h2 h3 h4
      obtain ⟨r1, r2, r3⟩ := rep s2 h4
      unfold Reconcile.afterPVC
      rw [(steps_ignore_status storeClient db db1 hm hs).1]
      refine replay_step _ _ _ _ s2 r1 r2 r3 ?_
      intro _
      show Replays
        (Reconcile.afterConfigMap storeClient db (reconcileConfigMap storeClient db s).state)
        (Reconcile.afterConfigMap storeClient db1 s2) s2
      rw [hl]
      exact hrep s2 h1 h2 h3
  | err e =>
    refine ⟨l, s.deployments, s.services, s.sqlitedbs, db, ?_, hfound, rfl, rfl, ?_⟩
    · simp only [Reconcile.afterPVC, Run.andThen, hr, hl]
    · intro s2 h1 h2 h3 h4
      obtain ⟨r1, r2, r3⟩ := rep s2 h4
      unfold Reconcile.afterPVC
      exact replay_step _ _ _ _ s2 r1 r2 r3 (by intro h; rw [hr] at h; cases h)
  | panicked m =>
    refine ⟨l, s.deployments, s.services, s.sqlitedbs, db, ?_, hfound, rfl, rfl, ?_⟩
    · simp only [Reconcile.afterPVC, Run.andThen, hr, hl]
    · intro s2 h1 h2 h3 h4
      obtain ⟨r1, r2, r3⟩ := rep s2 h4
      unfold Reconcile.afterPVC
      exact replay_step _ _ _ _ s2 r1 r2 r3 (by intro h; rw [hr] at h; cases h)

/-- The storage step followed by the later steps replays: run again from the
store that the first run left, for the instance stored there, all the steps
after the fetch end the same way and change nothing. -/
theorem afterFetch_replays [DecidableEq Q] (MustParse : String → Option Q) (db : SQLiteDB)
    (s : Store Q)
    (hfound : lookup (fun x : SQLiteDB => x.ObjectMeta) (ObjectKeyFromObject db.ObjectMeta)
      s.sqlitedbs = some db) :
    ∃ db1,
      lookup (fun x : SQLiteDB => x.ObjectMeta) (ObjectKeyFromObject db.ObjectMeta)
        (Reconcile.afterFetch MustParse storeClient db s).state.sqlitedbs = some db1 ∧
      Replays (Reconcile.afterFetch MustParse storeClient db s)
        (Reconcile.afterFetch MustParse storeClient db1
          (Reconcile.afterFetch MustParse storeClient db s).state)
        (Reconcile.afterFetch MustParse storeClient db s).state := by
  obtain ⟨l, hl, rep⟩ := reconcilePVC_settles MustParse db s
  cases hr : (reconcilePVC MustParse storeClient db s).result with
  | ok u =>
    obtain ⟨C, D, S, L, db1, hst, hlk, hm, hs, hrep⟩ :=
      afterPVC_replays db { s with pvcs := l } hfound
    have hfinal : (Reconcile.afterFetch MustParse storeClient db s).state =
        { s with pvcs := l, configMaps := C, deployments := D, services := S, sqlitedbs := L } := by
      simp only [Reconcile.afterFetch, Run.andThen, hr, hl, hst]
    refine ⟨db1, by rw [hfinal]; exact hlk, ?_⟩
    obtain ⟨r1, r2, r3⟩ := rep (Reconcile.afterFetch MustParse storeClient db s).state
      (by rw [hfinal])
    generalize hfin : (Reconcile.afterFetch MustParse storeClient db s).state = final at *
    unfold Reconcile.afterFetch
    rw [reconcilePVC_ignores_status MustParse storeClient db db1 hm hs]
    refine replay_step _ _ _ _ final r1 r2 r3 ?_
    intro _
    show Replays
      (Reconcile.afterPVC storeClient db (reconcilePVC MustParse storeClient db s).state)
      (Reconcile.afterPVC storeClient db1 final) final
    rw [hl]
    exact hrep final (by rw [hfinal]) (by rw [hfinal]) (by rw [hfinal]) (by rw [hfinal])
  | err e =>
    have hfinal : (Reconcile.afterFetch MustParse storeClient db s).state = { s with pvcs := l } := by
      simp only [Reconcile.afterFetch, Run.andThen, hr, hl]
    refine ⟨db, by rw [hfinal]; exact hfound, ?_⟩
    obtain ⟨r1, r2, r3⟩ := rep (Reconcile.afterFetch MustParse storeClient db s).state
      (by rw [hfinal])
    generalize hfin : (Reconcile.afterFetch MustParse storeClient db s).state = final at *
    unfold Reconcile.afterFetch
    exact replay_step _ _ _ _ final r1 r2 r3 (by intro h; rw [hr] at h; cases h)
  | panicked m =>
    have hfinal : (Reconcile.afterFetch MustParse storeClient db s).state = { s with pvcs := l } := by
      simp only [Reconcile.afterFetch, Run.andThen, hr, hl]
    refine ⟨db, by rw [hfinal]; exact hfound, ?_⟩
    obtain ⟨r1, r2, r3⟩ := rep (Reconcile.afterFetch MustParse storeClient db s).state
      (by rw [hfinal])
    generalize hfin : (Reconcile.afterFetch MustParse storeClient db s).state = final at *
    unfold Reconcile.afterFetch
    exact replay_step _ _ _ _ final r1 r2 r3 (by intro h; rw [hr] at h; cases h)

/-- C4 (counterexample): for the instance `prod/db` in an otherwise empty
store, the second of two passes in succession issues a status update. -/
theorem Reconcile_second_pass_status_update :
    ((Reconcile exampleParse (storeClient : Client (Store String) String) exampleKey
        (Reconcile exampleParse (storeClient : Client (Store String) String) exampleKey
          (exampleStore {})).state).trace.filter
      (fun ev => ev.isWrite || ev.isStatusUpdate)).map (fun ev => (ev.step, ev.verb, ev.kind)) =
      [(6, Verb.StatusUpdate, Kind.SQLiteDB)] := by
  decide

/-- C4 (amended): over the store as a read-your-writes map, for every instance
key and every store, the second of two passes in succession issues no create
and no update, ends as the first pass ended and leaves the store exactly as the
first pass left it; it issues exactly one status update when the instance
exists and the first pass succeeded, and none otherwise. -/
theorem Reconcile_second_pass_quiet [DecidableEq Q] (MustParse : String → Option Q)
    (req : ObjectKey) (s : Store Q) :
    (∀ ev ∈ (Reconcile MustParse storeClient req
        (Reconcile MustParse storeClient req s).state).trace, ev.isWrite = false) ∧
    (Reconcile MustParse storeClient req (Reconcile MustParse storeClient req s).state).state =
      (Reconcile MustParse storeClient req s).state ∧
    (Reconcile MustParse storeClient req (Reconcile MustParse storeClient req s).state).result =
      (Reconcile MustParse storeClient req s).result ∧
    ((Reconcile MustParse storeClient req
        (Reconcile MustParse storeClient req s).state).trace.filter Event.isStatusUpdate).length =
      if (lookup (fun x : SQLiteDB => x.ObjectMeta) req s.sqlitedbs).isSome = true ∧
          (Reconcile MustParse storeClient req s).result = .ok {} then 1 else 0 := by
  cases hlk : lookup (fun x : SQLiteDB => x.ObjectMeta) req s.sqlitedbs with
  | none =>
    have h1 : Reconcile MustParse storeClient req s =
        ⟨.ok {}, s, [{ step := 1, verb := Verb.Get, kind := Kind.SQLiteDB, key := req,
                       err := some { reason := Reason.NotFound, message := "not found" } }]⟩ := by
      rw [Reconcile_eq]
      simp [storeClient, listGet, hlk, IsNotFound]
    rw [h1]
    simp only
    rw [h1]
    simp [Event.isWrite, Event.isStatusUpdate]
  | some db =>
    have hkey := lookup_key _ _ _ _ hlk
    have hfound : lookup (fun x : SQLiteDB => x.ObjectMeta) (ObjectKeyFromObject db.ObjectMeta)
        s.sqlitedbs = some db := by
      rw [hkey]; exact hlk
    obtain ⟨db1, hlk1, hrep⟩ := afterFetch_replays MustParse db s hfound
    rw [hkey] at hlk1
    have h1 : Reconcile MustParse storeClient req s =
        ⟨(Reconcile.afterFetch MustParse storeClient db s).result,
         (Reconcile.afterFetch MustParse storeClient db s).state,
         { step := 1, verb := Verb.Get, kind := Kind.SQLiteDB, key := req,
           obj := some (Object.sqliteDB db) } ::
           (Reconcile.afterFetch MustParse storeClient db s).trace⟩ := by
      rw [Reconcile_eq]
      simp [storeClient, listGet, hlk, Run.andThen]
    rw [h1]
    simp only
    generalize (Reconcile.afterFetch MustParse storeClient db s).state = final at *
    have h2 : Reconcile MustParse storeClient req final =
        ⟨(Reconcile.afterFetch MustParse storeClient db1 final).result,
         (Reconcile.afterFetch MustParse storeClient db1 final).state,
         { step := 1, verb := Verb.Get, kind := Kind.SQLiteDB, key := req,
           obj := some (Object.sqliteDB db1) } ::
           (Reconcile.afterFetch MustParse storeClient db1 final).trace⟩ := by
      rw [Reconcile_eq]
      simp [storeClient, listGet, hlk1, Run.andThen]
    rw [h2]
    obtain ⟨g1, g2, g3, g4⟩ := hrep
    simp only [g1, g2]
    refine ⟨?_, trivial, trivial, ?_⟩
    · intro ev hev
      rcases List.mem_cons.mp hev with h | h
      · subst h
        rfl
      · exact g3 ev h
    · simp only [List.filter, Event.isStatusUpdate] at g4 ⊢
      simpa using g4

end Idempotence

section Outcomes

variable {σ Q : Type}

/-- The metadata that `SetControllerReference` returns is the given one with
the controller reference upserted; every other field is kept. -/
theorem SetControllerReference_meta (owner : SQLiteDB) (m m2 : ObjectMeta)
    (h : SetControllerReference owner m = .ok m2) :
    m2 = { m with
           OwnerReferences := upsertOwnerRef (controllerRef owner) m.OwnerReferences } := by
  unfold SetControllerReference at h
  cases hv : validateOwner owner.ObjectMeta m with
  | some e => rw [hv] at h; simp at h
  | none =>
    rw [hv] at h
    simp only at h
    cases hg : GetControllerOf m with
    | none =>
      rw [hg] at h
      simp only [Except.ok.injEq] at h
      exact h.symm
    | some ex =>
      rw [hg] at h
      simp only at h
      by_cases hs : referSameObject ex (controllerRef owner) = true
      · simp [hs] at h
        exact h.symm
      · simp [hs] at h

/-- The library call `CreateOrUpdate` after a read that fails with NotFound:
the mutated object literal is created, and the outcome is the one of the
create call. -/
theorem CreateOrUpdate_notFound {α : Type} [DecidableEq α] (step : Nat) (info : ObjectInfo Q α)
    (c : KindClient σ α) (obj o : α) (f : α → Outcome α) (s s1 : σ) (e : Error)
    (hget : c.Get (ObjectKeyFromObject (info.metaOf obj)) s = (.error e, s1))
    (hnf : IsNotFound e = true)
    (hm : mutate info f (ObjectKeyFromObject (info.metaOf obj)) obj = .ok o) :
    (CreateOrUpdate step info c obj f s).trace =
      [{ step := step, verb := Verb.Get, kind := info.kind,
         key := ObjectKeyFromObject (info.metaOf obj), err := some e },
       { step := step, verb := Verb.Create, kind := info.kind,
         key := ObjectKeyFromObject (info.metaOf o), obj := some (info.wrap o),
         err := (c.Create o s1).1 }] ∧
    (CreateOrUpdate step info c obj f s).state = (c.Create o s1).2 ∧
    ((c.Create o s1).1 = none →
      (CreateOrUpdate step info c obj f s).result = .ok OperationResult.Created) ∧
    (∀ e3, (c.Create o s1).1 = some e3 →
      (CreateOrUpdate step info c obj f s).result = .err e3) := by
  simp only [CreateOrUpdate, hget, hnf, hm]
  rcases hc : c.Create o s1 with ⟨res, s2⟩
  cases res with
  | some e3 => simp
  | none => simp

/-- The outcome of an ensure step over the store, from what the wrapper
`mutate` returns on the stored object, or on the object literal when nothing
is stored under the key: after a successful mutation the step succeeds and the
mutated object is stored under the key; after a failed one the step fails the
same way and the store is as before. -/
theorem ensure_store {α : Type} [DecidableEq α] (step : Nat) (info : ObjectInfo Q α)
    (view : Store Q → List α) (put : List α → Store Q → Store Q)
    (hvp : ∀ l s, view (put l s) = l)
    (obj : α) (f : α → Outcome α) (s : Store Q) :
    (∀ o, mutate info f (ObjectKeyFromObject (info.metaOf obj))
        ((lookup info.metaOf (ObjectKeyFromObject (info.metaOf obj)) (view s)).getD obj) = .ok o →
      ((CreateOrUpdate step info (storeKind info.metaOf view put) obj f s).andThen
          (fun _ s1 => (⟨.ok (), s1, []⟩ : Run (Store Q) Q Unit))).result = .ok () ∧
      lookup info.metaOf (ObjectKeyFromObject (info.metaOf obj))
        (view ((CreateOrUpdate step info (storeKind info.metaOf view put) obj f s).andThen
          (fun _ s1 => (⟨.ok (), s1, []⟩ : Run (Store Q) Q Unit))).state) = some o) ∧
    (∀ e, mutate info f (ObjectKeyFromObject (info.metaOf obj))
        ((lookup info.metaOf (ObjectKeyFromObject (info.metaOf obj)) (view s)).getD obj) = .err e →
      ((CreateOrUpdate step info (storeKind info.metaOf view put) obj f s).andThen
          (fun _ s1 => (⟨.ok (), s1, []⟩ : Run (Store Q) Q Unit))).result = .err e ∧
      ((CreateOrUpdate step info (storeKind info.metaOf view put) obj f s).andThen
          (fun _ s1 => (⟨.ok (), s1, []⟩ : Run (Store Q) Q Unit))).state = s) ∧
    (∀ m, mutate info f (ObjectKeyFromObject (info.metaOf obj))
        ((lookup info.metaOf (ObjectKeyFromObject (info.metaOf obj)) (view s)).getD obj)
          = .panicked m →
      ((CreateOrUpdate step info (storeKind info.metaOf view put) obj f s).andThen
          (fun _ s1 => (⟨.ok (), s1, []⟩ : Run (Store Q) Q Unit))).result = .panicked m ∧
      ((CreateOrUpdate step info (storeKind info.metaOf view put) obj f s).andThen
          (fun _ s1 => (⟨.ok (), s1, []⟩ : Run (Store Q) Q Unit))).state = s) := by
  have hnf : IsNotFound { reason := Reason.NotFound, message := "not found" } = true := rfl
  cases hl : lookup info.metaOf (ObjectKeyFromObject (info.metaOf obj)) (view s) with
  | none =>
    simp only [Option.getD_none]
    refine ⟨?_, ?_, ?_⟩
    · intro o hm
      have hk := mutate_ok info f _ obj o hm
      have hl2 : lookup info.metaOf (ObjectKeyFromObject (info.metaOf o)) (view s) = none := by
        rw [hk.2]; exact hl
      have hl3 := lookup_append_new info.metaOf _ (view s) o hl hk.2
      simp [CreateOrUpdate, storeKind, listGet, listCreate, hl, hl2, hl3, hnf, hm, Run.andThen,
        hvp]
    · intro e hm
      simp [CreateOrUpdate, storeKind, listGet, hl, hnf, hm, Run.andThen]
    · intro m hm
      simp [CreateOrUpdate, storeKind, listGet, hl, hnf, hm, Run.andThen]
  | some existing =>
    simp only [Option.getD_some]
    refine ⟨?_, ?_, ?_⟩
    · intro o hm
      have hk := mutate_ok info f _ existing o hm
      by_cases heq : existing = o
      · subst heq
        simp [CreateOrUpdate, storeKind, listGet, hl, hm, Run.andThen]
      · have hl2 : lookup info.metaOf (ObjectKeyFromObject (info.metaOf o)) (view s)
            = some existing := by
          rw [hk.2]; exact hl
        have hl3 := lookup_overwrite info.metaOf (view s) o existing hl2
        rw [hk.2] at hl3
        simp [CreateOrUpdate, storeKind, listGet, listUpdate, hl, hl2, hl3, hm, heq, Run.andThen,
          hvp]
    · intro e hm
      simp [CreateOrUpdate, storeKind, listGet, hl, hm, Run.andThen]
    · intro m hm
      simp [CreateOrUpdate, storeKind, listGet, hl, hm, Run.andThen]

/-- The wrapper `mutate` around the mutate function of `reconcileDeployment`,
on an object under the key of the workload: it fails exactly with the error of
`SetControllerReference` and otherwise returns the object with the desired
spec and the metadata carrying the controller reference. -/
theorem reconcileDeployment_mutate (db : SQLiteDB) (start : Deployment) (spec : DeploymentSpec)
    (hspec : reconcileDeployment.spec db = .ok spec)
    (hk : ObjectKeyFromObject start.ObjectMeta =
      ObjectKeyFromObject (reconcileDeployment.deployment db).ObjectMeta) :
    (∀ m, SetControllerReference db start.ObjectMeta = .ok m →
      mutate (deploymentInfo : ObjectInfo Q Deployment) (reconcileDeployment.mutateFn db)
          (ObjectKeyFromObject (reconcileDeployment.deployment db).ObjectMeta) start =
        .ok { start with Spec := spec, ObjectMeta := m }) ∧
    (∀ e, SetControllerReference db start.ObjectMeta = .error e →
      mutate (deploymentInfo : ObjectInfo Q Deployment) (reconcileDeployment.mutateFn db)
          (ObjectKeyFromObject (reconcileDeployment.deployment db).ObjectMeta) start = .err e) := by
  constructor
  · intro m hm
    have hmeta := SetControllerReference_meta db _ _ hm
    unfold mutate
    rw [reconcileDeployment_mutateFn_eq, hspec, hm]
    simp only [deploymentInfo]
    rw [← hk, hmeta]
    simp [ObjectKeyFromObject]
  · intro e he
    unfold mutate
    rw [reconcileDeployment_mutateFn_eq, hspec, he]

/-- The wrapper `mutate` around the mutate function of `reconcileConfigMap`, on
an object under the key of the bootstrap config: it fails exactly with the
error of `SetControllerReference` and otherwise returns the object with the
one-entry data map and the metadata carrying the controller reference. -/
theorem reconcileConfigMap_mutate (db : SQLiteDB) (start : ConfigMap)
    (hk : ObjectKeyFromObject start.ObjectMeta =
      ObjectKeyFromObject (reconcileConfigMap.cm db).ObjectMeta) :
    (∀ m, SetControllerReference db start.ObjectMeta = .ok m →
      mutate (configMapInfo : ObjectInfo Q ConfigMap) (reconcileConfigMap.mutateFn db)
          (ObjectKeyFromObject (reconcileConfigMap.cm db).ObjectMeta) start =
        .ok { start with Data := [("init.sql", db.Spec.InitSQL)], ObjectMeta := m }) ∧
    (∀ e, SetControllerReference db start.ObjectMeta = .error e →
      mutate (configMapInfo : ObjectInfo Q ConfigMap) (reconcileConfigMap.mutateFn db)
          (ObjectKeyFromObject (reconcileConfigMap.cm db).ObjectMeta) start = .err e) := by
  constructor
  · intro m hm
    have hmeta := SetControllerReference_meta db _ _ hm
    unfold mutate
    simp only [reconcileConfigMap.mutateFn, hm, configMapInfo]
    rw [← hk, hmeta]
    simp [ObjectKeyFromObject]
  · intro e he
    unfold mutate
    simp only [reconcileConfigMap.mutateFn, he]

/-- What the mutate function of `reconcileDeployment` returns carries the
desired spec. -/
theorem reconcileDeployment_mutateFn_spec (db : SQLiteDB) (x y : Deployment)
    (spec : DeploymentSpec) (hspec : reconcileDeployment.spec db = .ok spec)
    (h : reconcileDeployment.mutateFn db x = .ok y) : y.Spec = spec := by
  rw [reconcileDeployment_mutateFn_eq, hspec] at h
  cases hs : SetControllerReference db x.ObjectMeta with
  | error e => simp [hs] at h
  | ok m => simp [hs] at h; rw [← h]

/-- The workload step over any client: every write sends a workload with the
desired spec under the name of the instance; after success the last call
carries that workload; and after a read that fails with NotFound the step
creates the workload built from the object literal, with the outcome of the
create call. -/
theorem reconcileDeployment_step (c : Client σ Q) (db : SQLiteDB) (s : σ) (spec : DeploymentSpec)
    (hspec : reconcileDeployment.spec db = .ok spec) :
    (∀ ev ∈ (reconcileDeployment c db s).trace, ev.isWrite = true →
      ∃ d, ev.obj = some (Object.deployment d) ∧ d.Spec = spec ∧
        d.ObjectMeta.Name = db.ObjectMeta.Name ∧
        d.ObjectMeta.Namespace = db.ObjectMeta.Namespace) ∧
    ((reconcileDeployment c db s).result = .ok () →
      ∃ last d, (reconcileDeployment c db s).trace.getLast? = some last ∧ last.err = none ∧
        last.obj = some (Object.deployment d) ∧ d.Spec = spec ∧
        d.ObjectMeta.Name = db.ObjectMeta.Name ∧
        d.ObjectMeta.Namespace = db.ObjectMeta.Namespace) ∧
    (∀ e s1,
      c.Deployments.Get { Namespace := db.ObjectMeta.Namespace, Name := db.ObjectMeta.Name } s
        = (.error e, s1) →
      IsNotFound e = true →
      (reconcileDeployment c db s).trace =
        [{ step := 4, verb := Verb.Get, kind := Kind.Deployment,
           key := { Namespace := db.ObjectMeta.Namespace, Name := db.ObjectMeta.Name },
           err := some e },
         { step := 4, verb := Verb.Create, kind := Kind.Deployment,
           key := { Namespace := db.ObjectMeta.Namespace, Name := db.ObjectMeta.Name },
           obj := some (Object.deployment
             { ObjectMeta := { Name := db.ObjectMeta.Name, Namespace := db.ObjectMeta.Namespace,
                               OwnerReferences := [controllerRef db] },
               Spec := spec }),
           err := (c.Deployments.Create
             { ObjectMeta := { Name := db.ObjectMeta.Name, Namespace := db.ObjectMeta.Namespace,
                               OwnerReferences := [controllerRef db] },
               Spec := spec } s1).1 }] ∧
      (reconcileDeployment c db s).state =
        (c.Deployments.Create
          { ObjectMeta := { Name := db.ObjectMeta.Name, Namespace := db.ObjectMeta.Namespace,
                            OwnerReferences := [controllerRef db] },
            Spec := spec } s1).2 ∧
      ((c.Deployments.Create
          { ObjectMeta := { Name := db.ObjectMeta.Name, Namespace := db.ObjectMeta.Namespace,
                            OwnerReferences := [controllerRef db] },
            Spec := spec } s1).1 = none →
        (reconcileDeployment c db s).result = .ok ()) ∧
      (∀ e3,
        (c.Deployments.Create
          { ObjectMeta := { Name := db.ObjectMeta.Name, Namespace := db.ObjectMeta.Namespace,
                            OwnerReferences := [controllerRef db] },
            Spec := spec } s1).1 = some e3 →
        (reconcileDeployment c db s).result = .err e3)) := by
  have hsh := CreateOrUpdate_shape 4 (deploymentInfo : ObjectInfo Q Deployment) c.Deployments
    (reconcileDeployment.deployment db) (reconcileDeployment.mutateFn db) s
  have hd := andThen_done (CreateOrUpdate 4 (deploymentInfo : ObjectInfo Q Deployment)
    c.Deployments (reconcileDeployment.deployment db) (reconcileDeployment.mutateFn db) s)
  obtain ⟨-, -, h3, h4⟩ := hsh
  refine ⟨?_, ?_, ?_⟩
  · intro ev hev hw
    have hev2 : ev ∈ (CreateOrUpdate 4 (deploymentInfo : ObjectInfo Q Deployment) c.Deployments
        (reconcileDeployment.deployment db) (reconcileDeployment.mutateFn db) s).trace := by
      rw [← hd.1]; exact hev
    obtain ⟨o0, o, hf, ho, hk⟩ := h3 ev hev2 hw
    exact ⟨o, ho, reconcileDeployment_mutateFn_spec db o0 o spec hspec hf,
      congrArg ObjectKey.Name hk, congrArg ObjectKey.Namespace hk⟩
  · intro hok
    obtain ⟨x, hx⟩ := hd.2.2.mp hok
    obtain ⟨last, o0, o, hl, he, hf, ho, hk⟩ := h4 x hx
    refine ⟨last, o, ?_, he, ho, reconcileDeployment_mutateFn_spec db o0 o spec hspec hf,
      congrArg ObjectKey.Name hk, congrArg ObjectKey.Namespace hk⟩
    show ((CreateOrUpdate 4 (deploymentInfo : ObjectInfo Q Deployment) c.Deployments
        (reconcileDeployment.deployment db) (reconcileDeployment.mutateFn db) s).andThen
          (fun _ s1 => ⟨.ok (), s1, []⟩)).trace.getLast? = some last
    rw [hd.1]
    exact hl
  · intro e s1 hget hnf
    have hm := (reconcileDeployment_mutate (Q := Q) db (reconcileDeployment.deployment db) spec
      hspec rfl).1 _ (SetControllerReference_fresh db db.ObjectMeta.Name)
    have hnot := CreateOrUpdate_notFound 4 (deploymentInfo : ObjectInfo Q Deployment)
      c.Deployments (reconcileDeployment.deployment db) _ (reconcileDeployment.mutateFn db) s s1 e
      hget hnf hm
    obtain ⟨n1, n2, n3, n4⟩ := hnot
    refine ⟨?_, ?_, ?_, ?_⟩
    · show ((CreateOrUpdate 4 (deploymentInfo : ObjectInfo Q Deployment) c.Deployments
          (reconcileDeployment.deployment db) (reconcileDeployment.mutateFn db) s).andThen
            (fun _ s1 => ⟨.ok (), s1, []⟩)).trace = _
      rw [hd.1, n1]
      rfl
    · show ((CreateOrUpdate 4 (deploymentInfo : ObjectInfo Q Deployment) c.Deployments
          (reconcileDeployment.deployment db) (reconcileDeployment.mutateFn db) s).andThen
            (fun _ s1 => ⟨.ok (), s1, []⟩)).state = _
      rw [hd.2.1, n2]
      rfl
    · intro hnone
      exact hd.2.2.mpr ⟨_, n3 hnone⟩
    · intro e3 hsome
      show ((CreateOrUpdate 4 (deploymentInfo : ObjectInfo Q Deployment) c.Deployments
          (reconcileDeployment.deployment db) (reconcileDeployment.mutateFn db) s).andThen
            (fun _ s1 => ⟨.ok (), s1, []⟩)).result = _
      unfold Run.andThen
      rw [n4 e3 hsome]

/-- The workload step over the store: with no workload stored it succeeds and
stores the workload built from the object literal; with a workload stored it
succeeds and stores that workload with the desired spec and the controller
reference, unless `SetControllerReference` fails on it, in which case the step
fails with that error and the store is as before. -/
theorem reconcileDeployment_over_store (db : SQLiteDB) (t : Store Q) (spec : DeploymentSpec)
    (hspec : reconcileDeployment.spec db = .ok spec) :
    (lookup (fun o : Deployment => o.ObjectMeta)
        { Namespace := db.ObjectMeta.Namespace, Name := db.ObjectMeta.Name } t.deployments = none →
      (reconcileDeployment storeClient db t).result = .ok () ∧
      lookup (fun o : Deployment => o.ObjectMeta)
          { Namespace := db.ObjectMeta.Namespace, Name := db.ObjectMeta.Name }
          (reconcileDeployment storeClient db t).state.deployments =
        some { ObjectMeta := { Name := db.ObjectMeta.Name, Namespace := db.ObjectMeta.Namespace,
                               OwnerReferences := [controllerRef db] },
               Spec := spec }) ∧
    (∀ live m,
      lookup (fun o : Deployment => o.ObjectMeta)
        { Namespace := db.ObjectMeta.Namespace, Name := db.ObjectMeta.Name } t.deployments
          = some live →
      SetControllerReference db live.ObjectMeta = .ok m →
      (reconcileDeployment storeClient db t).result = .ok () ∧
      lookup (fun o : Deployment => o.ObjectMeta)
          { Namespace := db.ObjectMeta.Namespace, Name := db.ObjectMeta.Name }
          (reconcileDeployment storeClient db t).state.deployments =
        some { live with Spec := spec, ObjectMeta := m }) ∧
    (∀ live e,
      lookup (fun o : Deployment => o.ObjectMeta)
        { Namespace := db.ObjectMeta.Namespace, Name := db.ObjectMeta.Name } t.deployments
          = some live →
      SetControllerReference db live.ObjectMeta = .error e →
      (reconcileDeployment storeClient db t).result = .err e ∧
      (reconcileDeployment storeClient db t).state = t) := by
  have h := ensure_store 4 (deploymentInfo : ObjectInfo Q Deployment) (fun s => s.deployments)
    (fun l s => { s with deployments := l }) (fun _ _ => rfl)
    (reconcileDeployment.deployment db) (reconcileDeployment.mutateFn db) t
  obtain ⟨hok, herr, -⟩ := h
  refine ⟨?_, ?_, ?_⟩
  · intro hl
    have hm := (reconcileDeployment_mutate (Q := Q) db (reconcileDeployment.deployment db) spec
      hspec rfl).1 _ (SetControllerReference_fresh db db.ObjectMeta.Name)
    have hl2 : lookup (deploymentInfo : ObjectInfo Q Deployment).metaOf
        (ObjectKeyFromObject ((deploymentInfo : ObjectInfo Q Deployment).metaOf
          (reconcileDeployment.deployment db))) t.deployments = none := hl
    have := hok _ (by rw [hl2]; exact hm)
    exact this
  · intro live m hl hs
    have hk := lookup_key _ _ _ _ hl
    have hm := (reconcileDeployment_mutate (Q := Q) db live spec hspec hk).1 m hs
    have hl2 : lookup (deploymentInfo : ObjectInfo Q Deployment).metaOf
        (ObjectKeyFromObject ((deploymentInfo : ObjectInfo Q Deployment).metaOf
          (reconcileDeployment.deployment db))) t.deployments = some live := hl
    have := hok _ (by rw [hl2]; exact hm)
    exact this
  · intro live e hl hs
    have hk := lookup_key _ _ _ _ hl
    have hm := (reconcileDeployment_mutate (Q := Q) db live spec hspec hk).2 e hs
    have hl2 : lookup (deploymentInfo : ObjectInfo Q Deployment).metaOf
        (ObjectKeyFromObject ((deploymentInfo : ObjectInfo Q Deployment).metaOf
          (reconcileDeployment.deployment db))) t.deployments = some live := hl
    have := herr _ (by rw [hl2]; exact hm)
    exact this

/-- The bootstrap step with a non-empty `initSQL` is the library call
`CreateOrUpdate` on the bootstrap config. -/
theorem reconcileConfigMap_run (c : Client σ Q) (db : SQLiteDB) (s : σ)
    (hinit : db.Spec.InitSQL ≠ "") :
    reconcileConfigMap c db s =
      (CreateOrUpdate 3 (configMapInfo : ObjectInfo Q ConfigMap) c.ConfigMaps
        (reconcileConfigMap.cm db) (reconcileConfigMap.mutateFn db) s).andThen
          (fun _ s1 => ⟨.ok (), s1, []⟩) := by
  simp [reconcileConfigMap, hinit]

/-- The bootstrap step over any client, for a non-empty `initSQL`: after a
read that fails with NotFound the step creates the bootstrap config built from
the object literal, with the outcome of the create call. -/
theorem reconcileConfigMap_step (c : Client σ Q) (db : SQLiteDB) (s s1 : σ) (e : Error)
    (hinit : db.Spec.InitSQL ≠ "")
    (hget : c.ConfigMaps.Get
      { Namespace := db.ObjectMeta.Namespace, Name := db.ObjectMeta.Name ++ "-init" } s
        = (.error e, s1))
    (hnf : IsNotFound e = true) :
    (reconcileConfigMap c db s).trace =
      [{ step := 3, verb := Verb.Get, kind := Kind.ConfigMap,
         key := { Namespace := db.ObjectMeta.Namespace, Name := db.ObjectMeta.Name ++ "-init" },
         err := some e },
       { step := 3, verb := Verb.Create, kind := Kind.ConfigMap,
         key := { Namespace := db.ObjectMeta.Namespace, Name := db.ObjectMeta.Name ++ "-init" },
         obj := some (Object.configMap
           { ObjectMeta := { Name := db.ObjectMeta.Name ++ "-init",
                             Namespace := db.ObjectMeta.Namespace,
                             OwnerReferences := [controllerRef db] },
             Data := [("init.sql", db.Spec.InitSQL)] }),
         err := (c.ConfigMaps.Create
           { ObjectMeta := { Name := db.ObjectMeta.Name ++ "-init",
                             Namespace := db.ObjectMeta.Namespace,
                             OwnerReferences := [controllerRef db] },
             Data := [("init.sql", db.Spec.InitSQL)] } s1).1 }] ∧
    (reconcileConfigMap c db s).state =
      (c.ConfigMaps.Create
        { ObjectMeta := { Name := db.ObjectMeta.Name ++ "-init",
                          Namespace := db.ObjectMeta.Namespace,
                          OwnerReferences := [controllerRef db] },
          Data := [("init.sql", db.Spec.InitSQL)] } s1).2 ∧
    ((c.ConfigMaps.Create
        { ObjectMeta := { Name := db.ObjectMeta.Name ++ "-init",
                          Namespace := db.ObjectMeta.Namespace,
                          OwnerReferences := [controllerRef db] },
          Data := [("init.sql", db.Spec.InitSQL)] } s1).1 = none →
      (reconcileConfigMap c db s).result = .ok ()) ∧
    (∀ e3,
      (c.ConfigMaps.Create
        { ObjectMeta := { Name := db.ObjectMeta.Name ++ "-init",
                          Namespace := db.ObjectMeta.Namespace,
                          OwnerReferences := [controllerRef db] },
          Data := [("init.sql", db.Spec.InitSQL)] } s1).1 = some e3 →
      (reconcileConfigMap c db s).result = .err e3) := by
  have hd := andThen_done (CreateOrUpdate 3 (configMapInfo : ObjectInfo Q ConfigMap)
    c.ConfigMaps (reconcileConfigMap.cm db) (reconcileConfigMap.mutateFn db) s)
  have hm := (reconcileConfigMap_mutate (Q := Q) db (reconcileConfigMap.cm db) rfl).1 _
    (SetControllerReference_fresh db (db.ObjectMeta.Name ++ "-init"))
  obtain ⟨n1, n2, n3, n4⟩ := CreateOrUpdate_notFound 3 (configMapInfo : ObjectInfo Q ConfigMap)
    c.ConfigMaps (reconcileConfigMap.cm db) _ (reconcileConfigMap.mutateFn db) s s1 e
    hget hnf hm
  rw [reconcileConfigMap_run c db s hinit]
  refine ⟨?_, ?_, ?_, ?_⟩
  · rw [hd.1, n1]
    rfl
  · rw [hd.2.1, n2]
    rfl
  · intro hnone
    exact hd.2.2.mpr ⟨_, n3 hnone⟩
  · intro e3 hsome
    unfold Run.andThen
    rw [n4 e3 hsome]

/-- The bootstrap step over the store, for a non-empty `initSQL`: with no
config stored it succeeds and stores the config built from the object literal;
with a config stored it succeeds and stores that config with the one-entry data
map and the controller reference, unless `SetControllerReference` fails on it,
in which case the step fails with that error and the store is as before. -/
theorem reconcileConfigMap_over_store (db : SQLiteDB) (t : Store Q)
    (hinit : db.Spec.InitSQL ≠ "") :
    (lookup (fun o : ConfigMap => o.ObjectMeta)
        { Namespace := db.ObjectMeta.Namespace, Name := db.ObjectMeta.Name ++ "-init" }
        t.configMaps = none →
      (reconcileConfigMap storeClient db t).result = .ok () ∧
      lookup (fun o : ConfigMap => o.ObjectMeta)
          { Namespace := db.ObjectMeta.Namespace, Name := db.ObjectMeta.Name ++ "-init" }
          (reconcileConfigMap storeClient db t).state.configMaps =
        some { ObjectMeta := { Name := db.ObjectMeta.Name ++ "-init",
                               Namespace := db.ObjectMeta.Namespace,
                               OwnerReferences := [controllerRef db] },
               Data := [("init.sql", db.Spec.InitSQL)] }) ∧
    (∀ live m,
      lookup (fun o : ConfigMap => o.ObjectMeta)
        { Namespace := db.ObjectMeta.Namespace, Name := db.ObjectMeta.Name ++ "-init" }
        t.configMaps = some live →
      SetControllerReference db live.ObjectMeta = .ok m →
      (reconcileConfigMap storeClient db t).result = .ok () ∧
      lookup (fun o : ConfigMap => o.ObjectMeta)
          { Namespace := db.ObjectMeta.Namespace, Name := db.ObjectMeta.Name ++ "-init" }
          (reconcileConfigMap storeClient db t).state.configMaps =
        some { live with Data := [("init.sql", db.Spec.InitSQL)], ObjectMeta := m }) ∧
    (∀ live e,
      lookup (fun o : ConfigMap => o.ObjectMeta)
        { Namespace := db.ObjectMeta.Namespace, Name := db.ObjectMeta.Name ++ "-init" }
        t.configMaps = some live →
      SetControllerReference db live.ObjectMeta = .error e →
      (reconcileConfigMap storeClient db t).result = .err e ∧
      (reconcileConfigMap storeClient db t).state = t) := by
  have h := ensure_store 3 (configMapInfo : ObjectInfo Q ConfigMap) (fun s => s.configMaps)
    (fun l s => { s with configMaps := l }) (fun _ _ => rfl)
    (reconcileConfigMap.cm db) (reconcileConfigMap.mutateFn db) t
  obtain ⟨hok, herr, -⟩ := h
  rw [reconcileConfigMap_run storeClient db t hinit]
  refine ⟨?_, ?_, ?_⟩
  · intro hl
    have hm := (reconcileConfigMap_mutate (Q := Q) db (reconcileConfigMap.cm db) rfl).1 _
      (SetControllerReference_fresh db (db.ObjectMeta.Name ++ "-init"))
    have hl2 : lookup (configMapInfo : ObjectInfo Q ConfigMap).metaOf
        (ObjectKeyFromObject ((configMapInfo : ObjectInfo Q ConfigMap).metaOf
          (reconcileConfigMap.cm db))) t.configMaps = none := hl
    exact hok _ (by rw [hl2]; exact hm)
  · intro live m hl hs
    have hk := lookup_key _ _ _ _ hl
    have hm := (reconcileConfigMap_mutate (Q := Q) db live hk).1 m hs
    have hl2 : lookup (configMapInfo : ObjectInfo Q ConfigMap).metaOf
        (ObjectKeyFromObject ((configMapInfo : ObjectInfo Q ConfigMap).metaOf
          (reconcileConfigMap.cm db))) t.configMaps = some live := hl
    exact hok _ (by rw [hl2]; exact hm)
  · intro live e hl hs
    have hk := lookup_key _ _ _ _ hl
    have hm := (reconcileConfigMap_mutate (Q := Q) db live hk).2 e hs
    have hl2 : lookup (configMapInfo : ObjectInfo Q ConfigMap).metaOf
        (ObjectKeyFromObject ((configMapInfo : ObjectInfo Q ConfigMap).metaOf
          (reconcileConfigMap.cm db))) t.configMaps = some live := hl
    exact herr _ (by rw [hl2]; exact hm)

/-- An ensure step over the store that succeeds leaves under the key an object
that the mutate function returned. -/
theorem ensure_store_ok {α : Type} [DecidableEq α] (step : Nat) (info : ObjectInfo Q α)
    (view : Store Q → List α) (put : List α → Store Q → Store Q)
    (hvp : ∀ l s, view (put l s) = l)
    (obj : α) (f : α → Outcome α) (s : Store Q)
    (hok : ((CreateOrUpdate step info (storeKind info.metaOf view put) obj f s).andThen
          (fun _ s1 => (⟨.ok (), s1, []⟩ : Run (Store Q) Q Unit))).result = .ok ()) :
    ∃ o0 o, f o0 = .ok o ∧
      lookup info.metaOf (ObjectKeyFromObject (info.metaOf obj))
        (view ((CreateOrUpdate step info (storeKind info.metaOf view put) obj f s).andThen
          (fun _ s1 => (⟨.ok (), s1, []⟩ : Run (Store Q) Q Unit))).state) = some o := by
  obtain ⟨h1, h2, h3⟩ := ensure_store step info view put hvp obj f s
  cases hm : mutate info f (ObjectKeyFromObject (info.metaOf obj))
      ((lookup info.metaOf (ObjectKeyFromObject (info.metaOf obj)) (view s)).getD obj) with
  | ok o =>
    exact ⟨_, o, (mutate_ok info f _ _ o hm).1, (h1 o hm).2⟩
  | err e =>
    have := (h2 e hm).1
    rw [this] at hok
    simp at hok
  | panicked m =>
    have := (h3 m hm).1
    rw [this] at hok
    simp at hok

/-- A sequence that succeeds: the first run succeeded, the continuation
succeeded, and the state is the one the continuation left. -/
theorem andThen_ok_inv {α β : Type} (r : Run σ Q α) (k : α → σ → Run σ Q β) (b : β)
    (h : (r.andThen k).result = .ok b) :
    ∃ a, r.result = .ok a ∧ (k a r.state).result = .ok b ∧
      (r.andThen k).state = (k a r.state).state := by
  unfold Run.andThen at h ⊢
  cases hres : r.result with
  | ok a =>
    rw [hres] at h
    exact ⟨a, rfl, h, rfl⟩
  | err e => rw [hres] at h; simp at h
  | panicked m => rw [hres] at h; simp at h

/-- An event of a sequence is an event of the first run or, after its success,
of the continuation. -/
theorem mem_andThen {α β : Type} (r : Run σ Q α) (k : α → σ → Run σ Q β) (ev : Event Q)
    (h : ev ∈ (r.andThen k).trace) :
    ev ∈ r.trace ∨ ∃ a, r.result = .ok a ∧ ev ∈ (k a r.state).trace := by
  unfold Run.andThen at h
  cases hres : r.result with
  | ok a =>
    rw [hres] at h
    simp only [List.mem_append] at h
    rcases h with h | h
    · exact Or.inl h
    · exact Or.inr ⟨a, rfl, h⟩
  | err e => rw [hres] at h; exact Or.inl h
  | panicked m => rw [hres] at h; exact Or.inl h

/-- Every call of a step of `Reconcile` carries the number of that step. -/
theorem step_numbers [DecidableEq Q] (MustParse : String → Option Q) (c : Client σ Q)
    (db : SQLiteDB) (s : σ) :
    (∀ x ∈ (reconcilePVC MustParse c db s).trace, x.step = 2) ∧
    (∀ x ∈ (reconcileConfigMap c db s).trace, x.step = 3) ∧
    (∀ x ∈ (reconcileDeployment c db s).trace, x.step = 4) ∧
    (∀ x ∈ (reconcileService c db s).trace, x.step = 5) ∧
    (∀ x ∈ (updateStatus c db s).trace, x.step = 6) := by
  refine ⟨?_, ?_, ?_, ?_, ?_⟩
  · exact (ensure_step_facts 2 pvcInfo c.PersistentVolumeClaims (reconcilePVC.pvc db)
      (reconcilePVC.mutateFn MustParse db) s).1
  · by_cases hinit : db.Spec.InitSQL = ""
    · simp [reconcileConfigMap, hinit]
    · rw [reconcileConfigMap_run c db s hinit]
      exact (ensure_step_facts 3 (configMapInfo : ObjectInfo Q ConfigMap) c.ConfigMaps
        (reconcileConfigMap.cm db) (reconcileConfigMap.mutateFn db) s).1
  · exact (ensure_step_facts 4 (deploymentInfo : ObjectInfo Q Deployment) c.Deployments
      (reconcileDeployment.deployment db) (reconcileDeployment.mutateFn db) s).1
  · exact (ensure_step_facts 5 (serviceInfo : ObjectInfo Q Service) c.Services
      (reconcileService.service db) (reconcileService.mutateFn db) s).1
  · intro x hx
    simp only [updateStatus] at hx
    simp at hx
    rcases hx with hx | hx <;> subst hx <;> rfl

/-- The calls of the workload step within a pass: every write of step 4 sends
a workload with the desired spec under the name of the instance, and a call of
the endpoint step is preceded by a successful call of the workload step that
carries such a workload. -/
theorem workload_calls [DecidableEq Q] (MustParse : String → Option Q) (c : Client σ Q)
    (req : ObjectKey) (s s1 : σ) (db : SQLiteDB)
    (hfetch : c.GetSQLiteDB req s = (.ok db, s1))
    (spec : DeploymentSpec) (hspec : reconcileDeployment.spec db = .ok spec) :
    (∀ (i : Nat) (ev : Event Q),
      (Reconcile MustParse c req s).trace[i]? = some ev → ev.step = 4 → ev.isWrite = true →
        ∃ d, ev.obj = some (Object.deployment d) ∧ d.Spec = spec ∧
          d.ObjectMeta.Name = db.ObjectMeta.Name ∧
          d.ObjectMeta.Namespace = db.ObjectMeta.Namespace) ∧
    (∀ (i : Nat) (ev : Event Q),
      (Reconcile MustParse c req s).trace[i]? = some ev → ev.step = 5 →
        ∃ j ev4 d, j < i ∧ (Reconcile MustParse c req s).trace[j]? = some ev4 ∧
          ev4.step = 4 ∧ ev4.err = none ∧ ev4.obj = some (Object.deployment d) ∧
          d.Spec = spec ∧ d.ObjectMeta.Name = db.ObjectMeta.Name ∧
          d.ObjectMeta.Namespace = db.ObjectMeta.Namespace) := by
  constructor
  · intro i ev hi h4 hw
    unfold Reconcile at hi
    rw [hfetch] at hi
    simp only at hi
    obtain ⟨u1, -, hl1, hi1, -⟩ := andThen_later _ _ i ev hi
      (by intro x hx; simp at hx; subst hx; simp [h4])
    simp only [List.length_singleton] at hl1 hi1
    obtain ⟨u2, -, hl2, hi2, -⟩ := andThen_later _ _ _ ev hi1
      (by intro x hx; rw [(step_numbers MustParse c db _).1 x hx, h4]; decide)
    obtain ⟨u3, -, hl3, hi3, -⟩ := andThen_later _ _ _ ev hi2
      (by intro x hx; rw [(step_numbers MustParse c db _).2.1 x hx, h4]; decide)
    have hmem := List.getElem?_mem hi3
    rcases mem_andThen _ _ ev hmem with h | ⟨a, -, h⟩
    · exact (reconcileDeployment_step c db _ spec hspec).1 ev h hw
    · rcases mem_andThen _ _ ev h with h5 | ⟨a5, -, h⟩
      · have := (step_numbers MustParse c db _).2.2.2.1 ev h5
        rw [h4] at this
        exact absurd this (by decide)
      · rcases mem_andThen _ _ ev h with h6 | ⟨a6, -, h⟩
        · have := (step_numbers MustParse c db _).2.2.2.2 ev h6
          rw [h4] at this
          exact absurd this (by decide)
        · simp at h
  · intro i ev hi h5
    unfold Reconcile at hi ⊢
    rw [hfetch] at hi ⊢
    simp only at hi ⊢
    obtain ⟨u1, -, hl1, hi1, ht1⟩ := andThen_later _ _ i ev hi
      (by intro x hx; simp at hx; subst hx; simp [h5])
    simp only [List.length_singleton] at hl1 hi1 ht1
    obtain ⟨u2, -, hl2, hi2, ht2⟩ := andThen_later _ _ _ ev hi1
      (by intro x hx; rw [(step_numbers MustParse c db _).1 x hx, h5]; decide)
    obtain ⟨u3, -, hl3, hi3, ht3⟩ := andThen_later _ _ _ ev hi2
      (by intro x hx; rw [(step_numbers MustParse c db _).2.1 x hx, h5]; decide)
    obtain ⟨u4, hr4, hl4, -, ht4⟩ := andThen_later _ _ _ ev hi3
      (by intro x hx; rw [(step_numbers MustParse c db _).2.2.1 x hx, h5]; decide)
    rw [ht1, ht2, ht3, ht4]
    obtain ⟨last, d, hlast, herr, hobj, hsp, hn, hns⟩ :=
      (reconcileDeployment_step c db _ spec hspec).2.1 hr4
    rw [← List.append_assoc _ (reconcilePVC MustParse c db s1).trace]
    rw [← List.append_assoc _
      (reconcileConfigMap c db (reconcilePVC MustParse c db s1).state).trace]
    refine ⟨_, last, d, ?_, (getLast_in_append _ _ _ last hlast).1,
      (step_numbers MustParse c db _).2.2.1 last (List.mem_of_getLast?_eq_some hlast),
      herr, hobj, hsp, hn, hns⟩
    have := (getLast_in_append [] _ [] last hlast).2
    simp only [List.length_append, List.length_singleton]
    omega

/-- The status step over the store changes only the stored instances. -/
theorem updateStatus_frame (db : SQLiteDB) (s : Store Q) :
    ∃ l, (updateStatus storeClient db s).state = { s with sqlitedbs := l } := by
  refine ⟨(listStatusUpdate
    { db with
      Status := updateStatus.status
        (listGet (fun o : Deployment => o.ObjectMeta)
          { Namespace := db.ObjectMeta.Namespace, Name := db.ObjectMeta.Name } s.deployments)
        db.Status } s.sqlitedbs).2, ?_⟩
  rfl

/-- A pass over the store that succeeds leaves in the store the workload with
the desired spec under the name of the instance, the storage claim under
`<instance>-storage` and, for a non-empty `initSQL`, the bootstrap config with
its one-entry data map under `<instance>-init`. -/
theorem pass_leaves_dependents [DecidableEq Q] (MustParse : String → Option Q) (db : SQLiteDB)
    (t : Store Q) (spec : DeploymentSpec) (hspec : reconcileDeployment.spec db = .ok spec)
    (r : Result) (hok : (Reconcile.afterFetch MustParse storeClient db t).result = .ok r) :
    (∃ d, lookup (fun o : Deployment => o.ObjectMeta)
        { Namespace := db.ObjectMeta.Namespace, Name := db.ObjectMeta.Name }
        (Reconcile.afterFetch MustParse storeClient db t).state.deployments = some d ∧
      d.Spec = spec) ∧
    (∃ pvc, lookup (fun o : PersistentVolumeClaim Q => o.ObjectMeta)
        { Namespace := db.ObjectMeta.Namespace, Name := db.ObjectMeta.Name ++ "-storage" }
        (Reconcile.afterFetch MustParse storeClient db t).state.pvcs = some pvc) ∧
    (db.Spec.InitSQL ≠ "" →
      ∃ cm, lookup (fun o : ConfigMap => o.ObjectMeta)
          { Namespace := db.ObjectMeta.Namespace, Name := db.ObjectMeta.Name ++ "-init" }
          (Reconcile.afterFetch MustParse storeClient db t).state.configMaps = some cm ∧
        cm.Data = [("init.sql", db.Spec.InitSQL)]) := by
  unfold Reconcile.afterFetch at hok ⊢
  obtain ⟨_, h2, hok2, hst2⟩ := andThen_ok_inv _ _ r hok
  rw [hst2]
  obtain ⟨_, p, -, hp⟩ := ensure_store_ok 2 pvcInfo (fun s => s.pvcs)
    (fun l s => { s with pvcs := l }) (fun _ _ => rfl) (reconcilePVC.pvc db)
    (reconcilePVC.mutateFn MustParse db) t h2
  change lookup (fun o : PersistentVolumeClaim Q => o.ObjectMeta)
    { Namespace := db.ObjectMeta.Namespace, Name := db.ObjectMeta.Name ++ "-storage" }
    (reconcilePVC MustParse storeClient db t).state.pvcs = some p at hp
  generalize (reconcilePVC MustParse storeClient db t).state = s2 at hok2 hp ⊢
  unfold Reconcile.afterPVC at hok2 ⊢
  obtain ⟨_, h3, hok3, hst3⟩ := andThen_ok_inv _ _ r hok2
  rw [hst3]
  obtain ⟨l3, hl3, -⟩ := reconcileConfigMap_settles db s2
  have hc : db.Spec.InitSQL ≠ "" →
      ∃ cm, lookup (fun o : ConfigMap => o.ObjectMeta)
          { Namespace := db.ObjectMeta.Namespace, Name := db.ObjectMeta.Name ++ "-init" }
          (reconcileConfigMap storeClient db s2).state.configMaps = some cm ∧
        cm.Data = [("init.sql", db.Spec.InitSQL)] := by
    intro hinit
    rw [reconcileConfigMap_run storeClient db s2 hinit] at h3 ⊢
    obtain ⟨o0, cm, hf, hcm⟩ := ensure_store_ok 3 (configMapInfo : ObjectInfo Q ConfigMap)
      (fun s => s.configMaps) (fun l s => { s with configMaps := l }) (fun _ _ => rfl)
      (reconcileConfigMap.cm db) (reconcileConfigMap.mutateFn db) s2 h3
    exact ⟨cm, hcm, reconcileConfigMap_mutateFn_data db o0 cm hf⟩
  have hp3 : (reconcileConfigMap storeClient db s2).state.pvcs = s2.pvcs := by rw [hl3]
  rw [← hp3] at hp
  generalize (reconcileConfigMap storeClient db s2).state = s3 at hok3 hp hc ⊢
  unfold Reconcile.afterConfigMap at hok3 ⊢
  obtain ⟨_, h4, hok4, hst4⟩ := andThen_ok_inv _ _ r hok3
  rw [hst4]
  obtain ⟨l4, hl4, -⟩ := reconcileDeployment_settles db s3
  obtain ⟨o0, d, hf, hd⟩ := ensure_store_ok 4 (deploymentInfo : ObjectInfo Q Deployment)
    (fun s => s.deployments) (fun l s => { s with deployments := l }) (fun _ _ => rfl)
    (reconcileDeployment.deployment db) (reconcileDeployment.mutateFn db) s3 h4
  change lookup (fun o : Deployment => o.ObjectMeta)
    { Namespace := db.ObjectMeta.Namespace, Name := db.ObjectMeta.Name }
    (reconcileDeployment storeClient db s3).state.deployments = some d at hd
  have hsp := reconcileDeployment_mutateFn_spec db o0 d spec hspec hf
  have hp4 : (reconcileDeployment storeClient db s3).state.pvcs = s3.pvcs := by rw [hl4]
  have hc4 : (reconcileDeployment storeClient db s3).state.configMaps = s3.configMaps := by
    rw [hl4]
  rw [← hp4] at hp
  rw [← hc4] at hc
  generalize (reconcileDeployment storeClient db s3).state = s4 at hok4 hp hc hd ⊢
  unfold Reconcile.afterDeployment at hok4 ⊢
  obtain ⟨_, h5, hok5, hst5⟩ := andThen_ok_inv _ _ r hok4
  rw [hst5]
  obtain ⟨l5, hl5, -⟩ := reconcileService_settles db s4
  have hp5 : (reconcileService storeClient db s4).state.pvcs = s4.pvcs := by rw [hl5]
  have hc5 : (reconcileService storeClient db s4).state.configMaps = s4.configMaps := by
    rw [hl5]
  have hd5 : (reconcileService storeClient db s4).state.deployments = s4.deployments := by
    rw [hl5]
  rw [← hp5] at hp
  rw [← hc5] at hc
  rw [← hd5] at hd
  generalize (reconcileService storeClient db s4).state = s5 at hok5 hp hc hd ⊢
  unfold Reconcile.afterService at hok5 ⊢
  obtain ⟨_, h6, -, hst6⟩ := andThen_ok_inv _ _ r hok5
  rw [hst6]
  obtain ⟨l6, hl6⟩ := updateStatus_frame db s5
  simp only [hl6]
  exact ⟨⟨d, hd, hsp⟩, ⟨p, hp⟩, hc⟩

end Outcomes

section Steps

variable {σ Q : Type}

/-- C2: `updateStatus` reads the workload and then sends one status update that
carries the instance with its status recomputed; the client state it leaves is
the one the status update returned and its result is the result of the status
update. The recomputed status has phase `Creating` and is not ready when the
read fails, phase `Pending` and not ready when the workload reports zero ready
replicas, phase `Ready` and ready when it reports at least one; so ready holds
exactly when the phase is `Ready`, for every previous status. Over the store
as a map, for an instance stored under the key, the step succeeds and the
status then stored for the instance is the recomputed one, while nothing else
in the store changes. -/
theorem updateStatus_derives_phase (c : Client σ Q) (sqliteDB : SQLiteDB) (s : σ) :
    (∃ get,
      (updateStatus c sqliteDB s).trace =
        [get,
         { step := 6, verb := Verb.StatusUpdate, kind := Kind.SQLiteDB,
           key := { Namespace := sqliteDB.ObjectMeta.Namespace, Name := sqliteDB.ObjectMeta.Name },
           obj := some (Object.sqliteDB
             { sqliteDB with
               Status := updateStatus.status
                 (c.Deployments.Get { Namespace := sqliteDB.ObjectMeta.Namespace,
                                      Name := sqliteDB.ObjectMeta.Name } s).1 sqliteDB.Status }),
           err := (c.StatusUpdate
             { sqliteDB with
               Status := updateStatus.status
                 (c.Deployments.Get { Namespace := sqliteDB.ObjectMeta.Namespace,
                                      Name := sqliteDB.ObjectMeta.Name } s).1 sqliteDB.Status }
             (c.Deployments.Get { Namespace := sqliteDB.ObjectMeta.Namespace,
                                  Name := sqliteDB.ObjectMeta.Name } s).2).1 }] ∧
      get.step = 6 ∧ get.verb = Verb.Get ∧ get.kind = Kind.Deployment ∧
      get.key = { Namespace := sqliteDB.ObjectMeta.Namespace, Name := sqliteDB.ObjectMeta.Name }) ∧
    (updateStatus c sqliteDB s).state =
      (c.StatusUpdate
        { sqliteDB with
          Status := updateStatus.status
            (c.Deployments.Get { Namespace := sqliteDB.ObjectMeta.Namespace,
                                 Name := sqliteDB.ObjectMeta.Name } s).1 sqliteDB.Status }
        (c.Deployments.Get { Namespace := sqliteDB.ObjectMeta.Namespace,
                             Name := sqliteDB.ObjectMeta.Name } s).2).2 ∧
    ((c.StatusUpdate
        { sqliteDB with
          Status := updateStatus.status
            (c.Deployments.Get { Namespace := sqliteDB.ObjectMeta.Namespace,
                                 Name := sqliteDB.ObjectMeta.Name } s).1 sqliteDB.Status }
        (c.Deployments.Get { Namespace := sqliteDB.ObjectMeta.Namespace,
                             Name := sqliteDB.ObjectMeta.Name } s).2).1 = none →
      (updateStatus c sqliteDB s).result = .ok ()) ∧
    (∀ e,
      (c.StatusUpdate
        { sqliteDB with
          Status := updateStatus.status
            (c.Deployments.Get { Namespace := sqliteDB.ObjectMeta.Namespace,
                                 Name := sqliteDB.ObjectMeta.Name } s).1 sqliteDB.Status }
        (c.Deployments.Get { Namespace := sqliteDB.ObjectMeta.Namespace,
                             Name := sqliteDB.ObjectMeta.Name } s).2).1 = some e →
      (updateStatus c sqliteDB s).result = .err e) ∧
    (∀ (e : Error) (before : SQLiteDBStatus),
      (updateStatus.status (.error e) before).Phase = "Creating" ∧
      (updateStatus.status (.error e) before).Ready = false) ∧
    (∀ (d : Deployment) (before : SQLiteDBStatus), d.Status.ReadyReplicas = 0 →
      (updateStatus.status (.ok d) before).Phase = "Pending" ∧
      (updateStatus.status (.ok d) before).Ready = false) ∧
    (∀ (d : Deployment) (before : SQLiteDBStatus), 1 ≤ d.Status.ReadyReplicas →
      (updateStatus.status (.ok d) before).Phase = "Ready" ∧
      (updateStatus.status (.ok d) before).Ready = true) ∧
    (∀ (got : Except Error Deployment) (before : SQLiteDBStatus),
      (updateStatus.status got before).Ready = true ↔
        (updateStatus.status got before).Phase = "Ready") ∧
    (∀ (got : Except Error Deployment) (before : SQLiteDBStatus),
      (updateStatus.status got before).DatabaseSize = before.DatabaseSize ∧
      (updateStatus.status got before).LastBackup = before.LastBackup ∧
      (updateStatus.status got before).PodName = before.PodName ∧
      (updateStatus.status got before).Conditions = before.Conditions) ∧
    (∀ (t : Store Q) (stored : SQLiteDB),
      lookup (fun x : SQLiteDB => x.ObjectMeta)
        { Namespace := sqliteDB.ObjectMeta.Namespace, Name := sqliteDB.ObjectMeta.Name }
        t.sqlitedbs = some stored →
      (updateStatus storeClient sqliteDB t).result = .ok () ∧
      lookup (fun x : SQLiteDB => x.ObjectMeta)
          { Namespace := sqliteDB.ObjectMeta.Namespace, Name := sqliteDB.ObjectMeta.Name }
          (updateStatus storeClient sqliteDB t).state.sqlitedbs =
        some { stored with
               Status := updateStatus.status
                 (listGet (fun o : Deployment => o.ObjectMeta)
                   { Namespace := sqliteDB.ObjectMeta.Namespace,
                     Name := sqliteDB.ObjectMeta.Name } t.deployments) sqliteDB.Status } ∧
      (updateStatus storeClient sqliteDB t).state.pvcs = t.pvcs ∧
      (updateStatus storeClient sqliteDB t).state.configMaps = t.configMaps ∧
      (updateStatus storeClient sqliteDB t).state.deployments = t.deployments ∧
      (updateStatus storeClient sqliteDB t).state.services = t.services) := by
  refine ⟨?_, ?_, ?_, ?_, ?_, ?_, ?_, ?_, ?_, ?_⟩
  · simp only [updateStatus]
    exact ⟨_, rfl, rfl, rfl, rfl, rfl⟩
  · simp only [updateStatus]
  · intro h
    simp only [updateStatus, h]
  · intro e h
    simp only [updateStatus, h]
  · intro e before
    exact ⟨rfl, rfl⟩
  · intro d before h
    simp [updateStatus.status, h]
  · intro d before h
    have h2 : d.Status.ReadyReplicas > 0 := by omega
    simp [updateStatus.status, h2]
  · intro got before
    cases got with
    | error e => simp [updateStatus.status]
    | ok d =>
      by_cases h : d.Status.ReadyReplicas > 0
      · simp [updateStatus.status, h]
      · simp [updateStatus.status, h]
  · intro got before
    cases got with
    | error e => simp [updateStatus.status]
    | ok d =>
      by_cases h : d.Status.ReadyReplicas > 0
      · simp [updateStatus.status, h]
      · simp [updateStatus.status, h]
  · intro t stored hl
    obtain ⟨h1, h2, -, -⟩ := updateStatus_store sqliteDB stored t hl
    refine ⟨h1, ?_, ?_, ?_, ?_, ?_⟩
    · rw [h2]
      exact lookup_status _ _ _ _ hl
    · rw [h2]
    · rw [h2]
    · rw [h2]
    · rw [h2]

/-- C7: `reconcileConfigMap` ensures a bootstrap config exactly when `initSQL`
is non-empty. With an empty `initSQL` it returns success, makes no client call
and leaves the client state as it is. With a non-empty `initSQL` it starts by
reading the config, every call it makes is on the config named
`<instance>-init` in the namespace of the instance, every write sends a config
under that name whose data is the one-entry map from `init.sql` to the
`initSQL` text, and after success the last call carries that config; when the
read fails with NotFound it creates that config, owned by the instance, and
succeeds exactly when the create call does. Over the store as a map it
succeeds and leaves that config stored, whether none was stored before or one
was (whose other fields are kept), unless the stored one is controlled by
another owner, in which case it fails with that error and changes nothing. -/
theorem reconcileConfigMap_ensures (c : Client σ Q) (sqliteDB : SQLiteDB) (s : σ) :
    (sqliteDB.Spec.InitSQL = "" → reconcileConfigMap c sqliteDB s = ⟨.ok (), s, []⟩) ∧
    (sqliteDB.Spec.InitSQL ≠ "" →
      (∃ get rest, (reconcileConfigMap c sqliteDB s).trace = get :: rest ∧
        get.verb = Verb.Get) ∧
      (∀ ev ∈ (reconcileConfigMap c sqliteDB s).trace,
        ev.step = 3 ∧ ev.kind = Kind.ConfigMap ∧
        ev.key = { Namespace := sqliteDB.ObjectMeta.Namespace,
                   Name := sqliteDB.ObjectMeta.Name ++ "-init" }) ∧
      (∀ ev ∈ (reconcileConfigMap c sqliteDB s).trace, ev.isWrite = true →
        ∃ cm, ev.obj = some (Object.configMap cm) ∧
          cm.ObjectMeta.Name = sqliteDB.ObjectMeta.Name ++ "-init" ∧
          cm.ObjectMeta.Namespace = sqliteDB.ObjectMeta.Namespace ∧
          cm.Data = [("init.sql", sqliteDB.Spec.InitSQL)]) ∧
      ((reconcileConfigMap c sqliteDB s).result = .ok () →
        ∃ last cm, (reconcileConfigMap c sqliteDB s).trace.getLast? = some last ∧
          last.err = none ∧ last.obj = some (Object.configMap cm) ∧
          cm.ObjectMeta.Name = sqliteDB.ObjectMeta.Name ++ "-init" ∧
          cm.ObjectMeta.Namespace = sqliteDB.ObjectMeta.Namespace ∧
          cm.Data = [("init.sql", sqliteDB.Spec.InitSQL)])) ∧
    (sqliteDB.Spec.InitSQL ≠ "" →
      ∀ e s1,
        c.ConfigMaps.Get
          { Namespace := sqliteDB.ObjectMeta.Namespace,
            Name := sqliteDB.ObjectMeta.Name ++ "-init" } s = (.error e, s1) →
        IsNotFound e = true →
        (reconcileConfigMap c sqliteDB s).trace =
          [{ step := 3, verb := Verb.Get, kind := Kind.ConfigMap,
             key := { Namespace := sqliteDB.ObjectMeta.Namespace,
                      Name := sqliteDB.ObjectMeta.Name ++ "-init" },
             err := some e },
           { step := 3, verb := Verb.Create, kind := Kind.ConfigMap,
             key := { Namespace := sqliteDB.ObjectMeta.Namespace,
                      Name := sqliteDB.ObjectMeta.Name ++ "-init" },
             obj := some (Object.configMap
               { ObjectMeta := { Name := sqliteDB.ObjectMeta.Name ++ "-init",
                                 Namespace := sqliteDB.ObjectMeta.Namespace,
                                 OwnerReferences := [controllerRef sqliteDB] },
                 Data := [("init.sql", sqliteDB.Spec.InitSQL)] }),
             err := (c.ConfigMaps.Create
               { ObjectMeta := { Name := sqliteDB.ObjectMeta.Name ++ "-init",
                                 Namespace := sqliteDB.ObjectMeta.Namespace,
                                 OwnerReferences := [controllerRef sqliteDB] },
                 Data := [("init.sql", sqliteDB.Spec.InitSQL)] } s1).1 }] ∧
        (reconcileConfigMap c sqliteDB s).state =
          (c.ConfigMaps.Create
            { ObjectMeta := { Name := sqliteDB.ObjectMeta.Name ++ "-init",
                              Namespace := sqliteDB.ObjectMeta.Namespace,
                              OwnerReferences := [controllerRef sqliteDB] },
              Data := [("init.sql", sqliteDB.Spec.InitSQL)] } s1).2 ∧
        ((c.ConfigMaps.Create
            { ObjectMeta := { Name := sqliteDB.ObjectMeta.Name ++ "-init",
                              Namespace := sqliteDB.ObjectMeta.Namespace,
                              OwnerReferences := [controllerRef sqliteDB] },
              Data := [("init.sql", sqliteDB.Spec.InitSQL)] } s1).1 = none →
          (reconcileConfigMap c sqliteDB s).result = .ok ()) ∧
        (∀ e3,
          (c.ConfigMaps.Create
            { ObjectMeta := { Name := sqliteDB.ObjectMeta.Name ++ "-init",
                              Namespace := sqliteDB.ObjectMeta.Namespace,
                              OwnerReferences := [controllerRef sqliteDB] },
              Data := [("init.sql", sqliteDB.Spec.InitSQL)] } s1).1 = some e3 →
          (reconcileConfigMap c sqliteDB s).result = .err e3)) ∧
    (sqliteDB.Spec.InitSQL ≠ "" →
      ∀ t : Store Q,
        (lookup (fun o : ConfigMap => o.ObjectMeta)
            { Namespace := sqliteDB.ObjectMeta.Namespace,
              Name := sqliteDB.ObjectMeta.Name ++ "-init" } t.configMaps = none →
          (reconcileConfigMap storeClient sqliteDB t).result = .ok () ∧
          lookup (fun o : ConfigMap => o.ObjectMeta)
              { Namespace := sqliteDB.ObjectMeta.Namespace,
                Name := sqliteDB.ObjectMeta.Name ++ "-init" }
              (reconcileConfigMap storeClient sqliteDB t).state.configMaps =
            some { ObjectMeta := { Name := sqliteDB.ObjectMeta.Name ++ "-init",
                                   Namespace := sqliteDB.ObjectMeta.Namespace,
                                   OwnerReferences := [controllerRef sqliteDB] },
                   Data := [("init.sql", sqliteDB.Spec.InitSQL)] }) ∧
        (∀ live m,
          lookup (fun o : ConfigMap => o.ObjectMeta)
            { Namespace := sqliteDB.ObjectMeta.Namespace,
              Name := sqliteDB.ObjectMeta.Name ++ "-init" } t.configMaps = some live →
          SetControllerReference sqliteDB live.ObjectMeta = .ok m →
          (reconcileConfigMap storeClient sqliteDB t).result = .ok () ∧
          lookup (fun o : ConfigMap => o.ObjectMeta)
              { Namespace := sqliteDB.ObjectMeta.Namespace,
                Name := sqliteDB.ObjectMeta.Name ++ "-init" }
              (reconcileConfigMap storeClient sqliteDB t).state.configMaps =
            some { live with Data := [("init.sql", sqliteDB.Spec.InitSQL)], ObjectMeta := m }) ∧
        (∀ live e,
          lookup (fun o : ConfigMap => o.ObjectMeta)
            { Namespace := sqliteDB.ObjectMeta.Namespace,
              Name := sqliteDB.ObjectMeta.Name ++ "-init" } t.configMaps = some live →
          SetControllerReference sqliteDB live.ObjectMeta = .error e →
          (reconcileConfigMap storeClient sqliteDB t).result = .err e ∧
          (reconcileConfigMap storeClient sqliteDB t).state = t)) := by
  refine ⟨?_, ?_, ?_, ?_⟩
  · intro h
    simp [reconcileConfigMap, h]
  · intro h
    have hsh := CreateOrUpdate_shape 3 (configMapInfo : ObjectInfo Q ConfigMap) c.ConfigMaps
      (reconcileConfigMap.cm sqliteDB) (reconcileConfigMap.mutateFn sqliteDB) s
    have hd := andThen_done (CreateOrUpdate 3 (configMapInfo : ObjectInfo Q ConfigMap) c.ConfigMaps
      (reconcileConfigMap.cm sqliteDB) (reconcileConfigMap.mutateFn sqliteDB) s)
    rw [reconcileConfigMap_run c sqliteDB s h, hd.1]
    obtain ⟨h1, h2, h3, h4⟩ := hsh
    refine ⟨h1, ?_, ?_, ?_⟩
    · intro ev hev
      exact h2 ev hev
    · intro ev hev hw
      obtain ⟨o0, o, hf, ho, hk⟩ := h3 ev hev hw
      refine ⟨o, ho, ?_, ?_, reconcileConfigMap_mutateFn_data _ _ _ hf⟩
      · exact congrArg ObjectKey.Name hk
      · exact congrArg ObjectKey.Namespace hk
    · intro hok
      obtain ⟨x, hx⟩ := hd.2.2.mp hok
      obtain ⟨last, o0, o, hl, he, hf, ho, hk⟩ := h4 x hx
      refine ⟨last, o, hl, he, ho, ?_, ?_, reconcileConfigMap_mutateFn_data _ _ _ hf⟩
      · exact congrArg ObjectKey.Name hk
      · exact congrArg ObjectKey.Namespace hk
  · intro h e s1 hget hnf
    exact reconcileConfigMap_step c sqliteDB s s1 e h hget hnf
  · intro h t
    exact reconcileConfigMap_over_store sqliteDB t h

/-- C8 (amended): the desired workload has exactly one container; its volumes
and mounts are the storage volume (claim `<instance>-storage`) mounted at
`/data`, followed, if and only if `initSQL` is non-empty, by the bootstrap
volume (config `<instance>-init`) mounted at `/init`; neither mount has the
read-only flag set. The mutate function of `reconcileDeployment` puts this spec
on the workload whatever the live one was, failing only with the error of
`SetControllerReference`. Every write of the step sends a workload with this
spec, after success the last call carries it, after a read that fails with
NotFound the step creates it and succeeds exactly when the create call does,
and over the store as a map the step leaves it stored unless the stored
workload is controlled by another owner. -/
theorem reconcileDeployment_bootstrap_pair (c : Client σ Q) (sqliteDB : SQLiteDB) (s : σ) :
    ∃ spec,
      reconcileDeployment.spec sqliteDB = .ok spec ∧
      (sqliteDB.Spec.InitSQL = "" →
        spec.Template.Spec.Volumes =
          [{ Name := "storage",
             VolumeSource :=
               { PersistentVolumeClaim :=
                   some { ClaimName := sqliteDB.ObjectMeta.Name ++ "-storage" } } }] ∧
        spec.Template.Spec.Containers.map (fun c => c.VolumeMounts) =
          [[{ Name := "storage", MountPath := "/data", ReadOnly := false }]]) ∧
      (sqliteDB.Spec.InitSQL ≠ "" →
        spec.Template.Spec.Volumes =
          [{ Name := "storage",
             VolumeSource :=
               { PersistentVolumeClaim :=
                   some { ClaimName := sqliteDB.ObjectMeta.Name ++ "-storage" } } },
           { Name := "init-sql",
             VolumeSource :=
               { ConfigMap := some { Name := sqliteDB.ObjectMeta.Name ++ "-init" } } }] ∧
        spec.Template.Spec.Containers.map (fun c => c.VolumeMounts) =
          [[{ Name := "storage", MountPath := "/data", ReadOnly := false },
            { Name := "init-sql", MountPath := "/init", ReadOnly := false }]]) ∧
      (∀ live out, reconcileDeployment.mutateFn sqliteDB live = .ok out → out.Spec = spec) ∧
      (∀ live,
        reconcileDeployment.mutateFn sqliteDB live =
          match SetControllerReference sqliteDB live.ObjectMeta with
          | .ok m => .ok { live with Spec := spec, ObjectMeta := m }
          | .error e => .err e) ∧
      (∀ ev ∈ (reconcileDeployment c sqliteDB s).trace, ev.isWrite = true →
        ∃ d, ev.obj = some (Object.deployment d) ∧ d.Spec = spec ∧
          d.ObjectMeta.Name = sqliteDB.ObjectMeta.Name ∧
          d.ObjectMeta.Namespace = sqliteDB.ObjectMeta.Namespace) ∧
      ((reconcileDeployment c sqliteDB s).result = .ok () →
        ∃ last d, (reconcileDeployment c sqliteDB s).trace.getLast? = some last ∧
          last.err = none ∧ last.obj = some (Object.deployment d) ∧ d.Spec = spec ∧
          d.ObjectMeta.Name = sqliteDB.ObjectMeta.Name ∧
          d.ObjectMeta.Namespace = sqliteDB.ObjectMeta.Namespace) ∧
      (∀ e s1,
        c.Deployments.Get
          { Namespace := sqliteDB.ObjectMeta.Namespace, Name := sqliteDB.ObjectMeta.Name } s
            = (.error e, s1) →
        IsNotFound e = true →
        (reconcileDeployment c sqliteDB s).trace =
          [{ step := 4, verb := Verb.Get, kind := Kind.Deployment,
             key := { Namespace := sqliteDB.ObjectMeta.Namespace,
                      Name := sqliteDB.ObjectMeta.Name },
             err := some e },
           { step := 4, verb := Verb.Create, kind := Kind.Deployment,
             key := { Namespace := sqliteDB.ObjectMeta.Namespace,
                      Name := sqliteDB.ObjectMeta.Name },
             obj := some (Object.deployment
               { ObjectMeta := { Name := sqliteDB.ObjectMeta.Name,
                                 Namespace := sqliteDB.ObjectMeta.Namespace,
                                 OwnerReferences := [controllerRef sqliteDB] },
                 Spec := spec }),
             err := (c.Deployments.Create
               { ObjectMeta := { Name := sqliteDB.ObjectMeta.Name,
                                 Namespace := sqliteDB.ObjectMeta.Namespace,
                                 OwnerReferences := [controllerRef sqliteDB] },
                 Spec := spec } s1).1 }] ∧
        (reconcileDeployment c sqliteDB s).state =
          (c.Deployments.Create
            { ObjectMeta := { Name := sqliteDB.ObjectMeta.Name,
                              Namespace := sqliteDB.ObjectMeta.Namespace,
                              OwnerReferences := [controllerRef sqliteDB] },
              Spec := spec } s1).2 ∧
        ((c.Deployments.Create
            { ObjectMeta := { Name := sqliteDB.ObjectMeta.Name,
                              Namespace := sqliteDB.ObjectMeta.Namespace,
                              OwnerReferences := [controllerRef sqliteDB] },
              Spec := spec } s1).1 = none →
          (reconcileDeployment c sqliteDB s).result = .ok ()) ∧
        (∀ e3,
          (c.Deployments.Create
            { ObjectMeta := { Name := sqliteDB.ObjectMeta.Name,
                              Namespace := sqliteDB.ObjectMeta.Namespace,
                              OwnerReferences := [controllerRef sqliteDB] },
              Spec := spec } s1).1 = some e3 →
          (reconcileDeployment c sqliteDB s).result = .err e3)) ∧
      (∀ t : Store Q,
        (lookup (fun o : Deployment => o.ObjectMeta)
            { Namespace := sqliteDB.ObjectMeta.Namespace, Name := sqliteDB.ObjectMeta.Name }
            t.deployments = none →
          (reconcileDeployment storeClient sqliteDB t).result = .ok () ∧
          lookup (fun o : Deployment => o.ObjectMeta)
              { Namespace := sqliteDB.ObjectMeta.Namespace, Name := sqliteDB.ObjectMeta.Name }
              (reconcileDeployment storeClient sqliteDB t).state.deployments =
            some { ObjectMeta := { Name := sqliteDB.ObjectMeta.Name,
                                   Namespace := sqliteDB.ObjectMeta.Namespace,
                                   OwnerReferences := [controllerRef sqliteDB] },
                   Spec := spec }) ∧
        (∀ live m,
          lookup (fun o : Deployment => o.ObjectMeta)
            { Namespace := sqliteDB.ObjectMeta.Namespace, Name := sqliteDB.ObjectMeta.Name }
            t.deployments = some live →
          SetControllerReference sqliteDB live.ObjectMeta = .ok m →
          (reconcileDeployment storeClient sqliteDB t).result = .ok () ∧
          lookup (fun o : Deployment => o.ObjectMeta)
              { Namespace := sqliteDB.ObjectMeta.Namespace, Name := sqliteDB.ObjectMeta.Name }
              (reconcileDeployment storeClient sqliteDB t).state.deployments =
            some { live with Spec := spec, ObjectMeta := m }) ∧
        (∀ live e,
          lookup (fun o : Deployment => o.ObjectMeta)
            { Namespace := sqliteDB.ObjectMeta.Namespace, Name := sqliteDB.ObjectMeta.Name }
            t.deployments = some live →
          SetControllerReference sqliteDB live.ObjectMeta = .error e →
          (reconcileDeployment storeClient sqliteDB t).result = .err e ∧
          (reconcileDeployment storeClient sqliteDB t).state = t)) := by
  refine ⟨_, reconcileDeployment_spec_eq _, ?_, ?_, ?_, ?_, ?_, ?_, ?_, ?_⟩
  · intro hi
    simp [hi, reconcileDeployment.baseSpec]
  · intro hi
    simp [hi]
  · intro live out h
    exact reconcileDeployment_mutateFn_spec sqliteDB live out _ (reconcileDeployment_spec_eq _) h
  · intro live
    rw [reconcileDeployment_mutateFn_eq, reconcileDeployment_spec_eq]
    cases SetControllerReference sqliteDB live.ObjectMeta <;> rfl
  · exact (reconcileDeployment_step c sqliteDB s _ (reconcileDeployment_spec_eq _)).1
  · exact (reconcileDeployment_step c sqliteDB s _ (reconcileDeployment_spec_eq _)).2.1
  · exact (reconcileDeployment_step c sqliteDB s _ (reconcileDeployment_spec_eq _)).2.2
  · intro t
    exact reconcileDeployment_over_store sqliteDB t _ (reconcileDeployment_spec_eq _)

/-- C9: the desired workload spec requests one replica when `spec.replicas` is
unset and exactly `n` replicas when it is set to `n` (zero included); with
`replicas` set to 3 it requests 3. The mutate function of
`reconcileDeployment` puts this spec on the workload whatever the live one
was, failing only with the error of `SetControllerReference`. Every write of
the step sends a workload with this spec, after success the last call carries
it, after a read that fails with NotFound the step creates it and succeeds
exactly when the create call does, and over the store as a map the step leaves
it stored unless the stored workload is controlled by another owner. -/
theorem reconcileDeployment_replicas (c : Client σ Q) (sqliteDB : SQLiteDB) (s : σ) :
    ∃ spec,
      reconcileDeployment.spec sqliteDB = .ok spec ∧
      (sqliteDB.Spec.Replicas = none → spec.Replicas = some 1) ∧
      (∀ n : Int, sqliteDB.Spec.Replicas = some n → spec.Replicas = some n) ∧
      (∃ spec3, reconcileDeployment.spec (exampleDB { Replicas := some 3 }) = .ok spec3 ∧
        spec3.Replicas = some 3) ∧
      (∀ live out, reconcileDeployment.mutateFn sqliteDB live = .ok out → out.Spec = spec) ∧
      (∀ live,
        reconcileDeployment.mutateFn sqliteDB live =
          match SetControllerReference sqliteDB live.ObjectMeta with
          | .ok m => .ok { live with Spec := spec, ObjectMeta := m }
          | .error e => .err e) ∧
      (∀ ev ∈ (reconcileDeployment c sqliteDB s).trace, ev.isWrite = true →
        ∃ d, ev.obj = some (Object.deployment d) ∧ d.Spec = spec ∧
          d.ObjectMeta.Name = sqliteDB.ObjectMeta.Name ∧
          d.ObjectMeta.Namespace = sqliteDB.ObjectMeta.Namespace) ∧
      ((reconcileDeployment c sqliteDB s).result = .ok () →
        ∃ last d, (reconcileDeployment c sqliteDB s).trace.getLast? = some last ∧
          last.err = none ∧ last.obj = some (Object.deployment d) ∧ d.Spec = spec ∧
          d.ObjectMeta.Name = sqliteDB.ObjectMeta.Name ∧
          d.ObjectMeta.Namespace = sqliteDB.ObjectMeta.Namespace) ∧
      (∀ e s1,
        c.Deployments.Get
          { Namespace := sqliteDB.ObjectMeta.Namespace, Name := sqliteDB.ObjectMeta.Name } s
            = (.error e, s1) →
        IsNotFound e = true →
        (reconcileDeployment c sqliteDB s).trace =
          [{ step := 4, verb := Verb.Get, kind := Kind.Deployment,
             key := { Namespace := sqliteDB.ObjectMeta.Namespace,
                      Name := sqliteDB.ObjectMeta.Name },
             err := some e },
           { step := 4, verb := Verb.Create, kind := Kind.Deployment,
             key := { Namespace := sqliteDB.ObjectMeta.Namespace,
                      Name := sqliteDB.ObjectMeta.Name },
             obj := some (Object.deployment
               { ObjectMeta := { Name := sqliteDB.ObjectMeta.Name,
                                 Namespace := sqliteDB.ObjectMeta.Namespace,
                                 OwnerReferences := [controllerRef sqliteDB] },
                 Spec := spec }),
             err := (c.Deployments.Create
               { ObjectMeta := { Name := sqliteDB.ObjectMeta.Name,
                                 Namespace := sqliteDB.ObjectMeta.Namespace,
                                 OwnerReferences := [controllerRef sqliteDB] },
                 Spec := spec } s1).1 }] ∧
        (reconcileDeployment c sqliteDB s).state =
          (c.Deployments.Create
            { ObjectMeta := { Name := sqliteDB.ObjectMeta.Name,
                              Namespace := sqliteDB.ObjectMeta.Namespace,
                              OwnerReferences := [controllerRef sqliteDB] },
              Spec := spec } s1).2 ∧
        ((c.Deployments.Create
            { ObjectMeta := { Name := sqliteDB.ObjectMeta.Name,
                              Namespace := sqliteDB.ObjectMeta.Namespace,
                              OwnerReferences := [controllerRef sqliteDB] },
              Spec := spec } s1).1 = none →
          (reconcileDeployment c sqliteDB s).result = .ok ()) ∧
        (∀ e3,
          (c.Deployments.Create
            { ObjectMeta := { Name := sqliteDB.ObjectMeta.Name,
                              Namespace := sqliteDB.ObjectMeta.Namespace,
                              OwnerReferences := [controllerRef sqliteDB] },
              Spec := spec } s1).1 = some e3 →
          (reconcileDeployment c sqliteDB s).result = .err e3)) ∧
      (∀ t : Store Q,
        (lookup (fun o : Deployment => o.ObjectMeta)
            { Namespace := sqliteDB.ObjectMeta.Namespace, Name := sqliteDB.ObjectMeta.Name }
            t.deployments = none →
          (reconcileDeployment storeClient sqliteDB t).result = .ok () ∧
          lookup (fun o : Deployment => o.ObjectMeta)
              { Namespace := sqliteDB.ObjectMeta.Namespace, Name := sqliteDB.ObjectMeta.Name }
              (reconcileDeployment storeClient sqliteDB t).state.deployments =
            some { ObjectMeta := { Name := sqliteDB.ObjectMeta.Name,
                                   Namespace := sqliteDB.ObjectMeta.Namespace,
                                   OwnerReferences := [controllerRef sqliteDB] },
                   Spec := spec }) ∧
        (∀ live m,
          lookup (fun o : Deployment => o.ObjectMeta)
            { Namespace := sqliteDB.ObjectMeta.Namespace, Name := sqliteDB.ObjectMeta.Name }
            t.deployments = some live →
          SetControllerReference sqliteDB live.ObjectMeta = .ok m →
          (reconcileDeployment storeClient sqliteDB t).result = .ok () ∧
          lookup (fun o : Deployment => o.ObjectMeta)
              { Namespace := sqliteDB.ObjectMeta.Namespace, Name := sqliteDB.ObjectMeta.Name }
              (reconcileDeployment storeClient sqliteDB t).state.deployments =
            some { live with Spec := spec, ObjectMeta := m }) ∧
        (∀ live e,
          lookup (fun o : Deployment => o.ObjectMeta)
            { Namespace := sqliteDB.ObjectMeta.Namespace, Name := sqliteDB.ObjectMeta.Name }
            t.deployments = some live →
          SetControllerReference sqliteDB live.ObjectMeta = .error e →
          (reconcileDeployment storeClient sqliteDB t).result = .err e ∧
          (reconcileDeployment storeClient sqliteDB t).state = t)) := by
  refine ⟨_, reconcileDeployment_spec_eq _, ?_, ?_, ?_, ?_, ?_, ?_, ?_, ?_, ?_⟩
  · intro h
    by_cases hi : sqliteDB.Spec.InitSQL = "" <;> simp [hi, reconcileDeployment.baseSpec, h]
  · intro n h
    by_cases hi : sqliteDB.Spec.InitSQL = "" <;> simp [hi, reconcileDeployment.baseSpec, h]
  · exact ⟨_, reconcileDeployment_spec_eq _, by decide⟩
  · intro live out h
    exact reconcileDeployment_mutateFn_spec sqliteDB live out _ (reconcileDeployment_spec_eq _) h
  · intro live
    rw [reconcileDeployment_mutateFn_eq, reconcileDeployment_spec_eq]
    cases SetControllerReference sqliteDB live.ObjectMeta <;> rfl
  · exact (reconcileDeployment_step c sqliteDB s _ (reconcileDeployment_spec_eq _)).1
  · exact (reconcileDeployment_step c sqliteDB s _ (reconcileDeployment_spec_eq _)).2.1
  · exact (reconcileDeployment_step c sqliteDB s _ (reconcileDeployment_spec_eq _)).2.2
  · intro t
    exact reconcileDeployment_over_store sqliteDB t _ (reconcileDeployment_spec_eq _)

/-- C10: referential integrity of one pass. For every instance that the pass
fetches, the storage volume of the desired workload names the claim that
`reconcilePVC` ensures (`<instance>-storage`), the bootstrap volume names the
config that `reconcileConfigMap` ensures (`<instance>-init`) and is present
only for a non-empty `initSQL`, all in the namespace of the instance, and every
container mount names a declared volume. Every call of the workload step is
preceded in the pass by successful calls of the storage step and, for a
non-empty `initSQL`, of the bootstrap step. Every write of the workload step
carries a workload with the desired spec, under the name and namespace of the
instance, and every claim and config that this workload refers to by name is
carried under exactly that name, in that namespace, by an earlier successful
call of the storage step or of the bootstrap step; every mount of the workload
sent names one of its volumes. A call of the endpoint step is preceded by a
successful call of the workload step carrying such a workload. Over the store
as a map, after a pass that succeeds, the stored workload has the desired spec
and every claim and config it refers to is stored under that name in the
namespace of the instance. -/
theorem Reconcile_referential_integrity [DecidableEq Q] (MustParse : String → Option Q)
    (c : Client σ Q) (req : ObjectKey) (s s1 : σ) (sqliteDB : SQLiteDB)
    (hfetch : c.GetSQLiteDB req s = (.ok sqliteDB, s1)) :
    ∃ spec, reconcileDeployment.spec sqliteDB = .ok spec ∧
      (∀ v ∈ spec.Template.Spec.Volumes, ∀ src, v.VolumeSource.PersistentVolumeClaim = some src →
        src.ClaimName = (reconcilePVC.pvc sqliteDB : PersistentVolumeClaim Q).ObjectMeta.Name) ∧
      (∀ v ∈ spec.Template.Spec.Volumes, ∀ src, v.VolumeSource.ConfigMap = some src →
        src.Name = (reconcileConfigMap.cm sqliteDB).ObjectMeta.Name ∧
        sqliteDB.Spec.InitSQL ≠ "") ∧
      ((reconcilePVC.pvc sqliteDB : PersistentVolumeClaim Q).ObjectMeta.Namespace =
          (reconcileDeployment.deployment sqliteDB).ObjectMeta.Namespace ∧
        (reconcileConfigMap.cm sqliteDB).ObjectMeta.Namespace =
          (reconcileDeployment.deployment sqliteDB).ObjectMeta.Namespace) ∧
      (∀ container ∈ spec.Template.Spec.Containers, ∀ m ∈ container.VolumeMounts,
        ∃ v ∈ spec.Template.Spec.Volumes, v.Name = m.Name) ∧
      (∀ (i : Nat) (ev : Event Q),
        (Reconcile MustParse c req s).trace[i]? = some ev → ev.step = 4 →
          (∃ j ev2 pvc, j < i ∧ (Reconcile MustParse c req s).trace[j]? = some ev2 ∧
            ev2.step = 2 ∧ ev2.err = none ∧ ev2.obj = some (Object.pvc pvc) ∧
            pvc.ObjectMeta.Name = (reconcilePVC.pvc sqliteDB : PersistentVolumeClaim Q).ObjectMeta.Name ∧
            pvc.ObjectMeta.Namespace = sqliteDB.ObjectMeta.Namespace) ∧
          (sqliteDB.Spec.InitSQL ≠ "" →
            ∃ j ev3 cm, j < i ∧ (Reconcile MustParse c req s).trace[j]? = some ev3 ∧
              ev3.step = 3 ∧ ev3.err = none ∧ ev3.obj = some (Object.configMap cm) ∧
              cm.ObjectMeta.Name = (reconcileConfigMap.cm sqliteDB).ObjectMeta.Name ∧
              cm.ObjectMeta.Namespace = sqliteDB.ObjectMeta.Namespace)) ∧
      (∀ (i : Nat) (ev : Event Q),
        (Reconcile MustParse c req s).trace[i]? = some ev → ev.step = 4 → ev.isWrite = true →
          ∃ d, ev.obj = some (Object.deployment d) ∧ d.Spec = spec ∧
            d.ObjectMeta.Name = sqliteDB.ObjectMeta.Name ∧
            d.ObjectMeta.Namespace = sqliteDB.ObjectMeta.Namespace ∧
            (∀ v ∈ d.Spec.Template.Spec.Volumes, ∀ src,
              v.VolumeSource.PersistentVolumeClaim = some src →
                src.ClaimName = sqliteDB.ObjectMeta.Name ++ "-storage" ∧
                ∃ j ev2 pvc, j < i ∧ (Reconcile MustParse c req s).trace[j]? = some ev2 ∧
                  ev2.step = 2 ∧ ev2.err = none ∧ ev2.obj = some (Object.pvc pvc) ∧
                  pvc.ObjectMeta.Name = src.ClaimName ∧
                  pvc.ObjectMeta.Namespace = d.ObjectMeta.Namespace) ∧
            (∀ v ∈ d.Spec.Template.Spec.Volumes, ∀ src,
              v.VolumeSource.ConfigMap = some src →
                src.Name = sqliteDB.ObjectMeta.Name ++ "-init" ∧
                ∃ j ev3 cm, j < i ∧ (Reconcile MustParse c req s).trace[j]? = some ev3 ∧
                  ev3.step = 3 ∧ ev3.err = none ∧ ev3.obj = some (Object.configMap cm) ∧
                  cm.ObjectMeta.Name = src.Name ∧
                  cm.ObjectMeta.Namespace = d.ObjectMeta.Namespace) ∧
            (∀ container ∈ d.Spec.Template.Spec.Containers, ∀ m ∈ container.VolumeMounts,
              ∃ v ∈ d.Spec.Template.Spec.Volumes, v.Name = m.Name)) ∧
      (∀ (i : Nat) (ev : Event Q),
        (Reconcile MustParse c req s).trace[i]? = some ev → ev.step = 5 →
          ∃ j ev4 d, j < i ∧ (Reconcile MustParse c req s).trace[j]? = some ev4 ∧
            ev4.step = 4 ∧ ev4.err = none ∧ ev4.obj = some (Object.deployment d) ∧
            d.Spec = spec ∧ d.ObjectMeta.Name = sqliteDB.ObjectMeta.Name ∧
            d.ObjectMeta.Namespace = sqliteDB.ObjectMeta.Namespace) ∧
      (∀ (t : Store Q) (r : Result),
        lookup (fun x : SQLiteDB => x.ObjectMeta) req t.sqlitedbs = some sqliteDB →
        (Reconcile MustParse storeClient req t).result = .ok r →
          ∃ d, lookup (fun o : Deployment => o.ObjectMeta)
              { Namespace := sqliteDB.ObjectMeta.Namespace, Name := sqliteDB.ObjectMeta.Name }
              (Reconcile MustParse storeClient req t).state.deployments = some d ∧
            d.Spec = spec ∧
            (∀ v ∈ d.Spec.Template.Spec.Volumes, ∀ src,
              v.VolumeSource.PersistentVolumeClaim = some src →
                ∃ pvc, lookup (fun o : PersistentVolumeClaim Q => o.ObjectMeta)
                  { Namespace := sqliteDB.ObjectMeta.Namespace, Name := src.ClaimName }
                  (Reconcile MustParse storeClient req t).state.pvcs = some pvc) ∧
            (∀ v ∈ d.Spec.Template.Spec.Volumes, ∀ src,
              v.VolumeSource.ConfigMap = some src →
                ∃ cm, lookup (fun o : ConfigMap => o.ObjectMeta)
                    { Namespace := sqliteDB.ObjectMeta.Namespace, Name := src.Name }
                    (Reconcile MustParse storeClient req t).state.configMaps = some cm ∧
                  cm.Data = [("init.sql", sqliteDB.Spec.InitSQL)])) := by
  obtain ⟨spec, hspec, n1, n2, n3, n4, n5⟩ := names_and_order MustParse c req s s1 sqliteDB hfetch
  obtain ⟨w1, w2⟩ := workload_calls MustParse c req s s1 sqliteDB hfetch spec hspec
  refine ⟨spec, hspec, n1, n2, n3, n4, n5, ?_, w2, ?_⟩
  · intro i ev hi h4 hw
    obtain ⟨d, ho, hsp, hn, hns⟩ := w1 i ev hi h4 hw
    obtain ⟨⟨j, ev2, pvc, hj, hj2, hs2, he2, ho2, hn2, hns2⟩, hcm⟩ := n5 i ev hi h4
    refine ⟨d, ho, hsp, hn, hns, ?_, ?_, ?_⟩
    · intro v hv src hsrc
      rw [hsp] at hv
      have hname := n1 v hv src hsrc
      exact ⟨hname, j, ev2, pvc, hj, hj2, hs2, he2, ho2, by rw [hn2, hname], by rw [hns2, hns]⟩
    · intro v hv src hsrc
      rw [hsp] at hv
      obtain ⟨hname, hinit⟩ := n2 v hv src hsrc
      obtain ⟨j3, ev3, cm, hj3, ht3, hs3, he3, ho3, hn3, hns3⟩ := hcm hinit
      exact ⟨hname, j3, ev3, cm, hj3, ht3, hs3, he3, ho3, by rw [hn3, hname],
        by rw [hns3, hns]⟩
    · rw [hsp]
      exact n4
  · intro t r hfound hok
    have hget : (storeClient : Client (Store Q) Q).GetSQLiteDB req t = (.ok sqliteDB, t) := by
      simp [storeClient, listGet, hfound]
    rw [Reconcile_eq] at hok ⊢
    simp only [hget] at hok ⊢
    obtain ⟨_, -, hok2, hst⟩ := andThen_ok_inv _ _ r hok
    rw [hst]
    simp only at hok2 ⊢
    obtain ⟨⟨d, hd, hsp⟩, ⟨pvc, hp⟩, hc⟩ :=
      pass_leaves_dependents MustParse sqliteDB t spec hspec r hok2
    refine ⟨d, hd, hsp, ?_, ?_⟩
    · intro v hv src hsrc
      rw [hsp] at hv
      have hname := n1 v hv src hsrc
      exact ⟨pvc, by rw [hname]; exact hp⟩
    · intro v hv src hsrc
      rw [hsp] at hv
      obtain ⟨hname, hinit⟩ := n2 v hv src hsrc
      obtain ⟨cm, hcm, hdata⟩ := hc hinit
      exact ⟨cm, by rw [hname]; exact hcm, hdata⟩

/-- C10 (witness): for the instance `prod/db` with a non-empty `initSQL` in an
otherwise empty store, the seventh call of the pass creates the workload, and
the claim `db-storage` and the config `db-init` that this workload refers to
are carried, in the namespace `prod`, by earlier successful calls of the
storage step and of the bootstrap step. -/
theorem Reconcile_referential_integrity_witness :
    ∃ ev d, (Reconcile exampleParse (storeClient : Client (Store String) String) exampleKey
        (exampleStore { InitSQL := "CREATE TABLE t(x);" })).trace[6]? = some ev ∧
      ev.verb = Verb.Create ∧ ev.obj = some (Object.deployment d) ∧
      (∃ j ev2 pvc, j < 6 ∧
        (Reconcile exampleParse (storeClient : Client (Store String) String) exampleKey
          (exampleStore { InitSQL := "CREATE TABLE t(x);" })).trace[j]? = some ev2 ∧
        ev2.step = 2 ∧ ev2.err = none ∧ ev2.obj = some (Object.pvc pvc) ∧
        pvc.ObjectMeta.Name = "db-storage" ∧ pvc.ObjectMeta.Namespace = "prod") ∧
      (∃ j ev3 cm, j < 6 ∧
        (Reconcile exampleParse (storeClient : Client (Store String) String) exampleKey
          (exampleStore { InitSQL := "CREATE TABLE t(x);" })).trace[j]? = some ev3 ∧
        ev3.step = 3 ∧ ev3.err = none ∧ ev3.obj = some (Object.configMap cm) ∧
        cm.ObjectMeta.Name = "db-init" ∧ cm.ObjectMeta.Namespace = "prod") := by
  obtain ⟨spec, hspec, -, -, -, -, -, h, -, -⟩ := Reconcile_referential_integrity exampleParse
    (storeClient : Client (Store String) String) exampleKey
    (exampleStore { InitSQL := "CREATE TABLE t(x);" })
    (exampleStore { InitSQL := "CREATE TABLE t(x);" })
    (exampleDB { InitSQL := "CREATE TABLE t(x);" }) rfl
  obtain ⟨d, ho, hsp, -, hns, hv, hc, -⟩ := h 6 _ rfl rfl rfl
  rw [reconcileDeployment_spec_eq] at hspec
  have hs := Outcome.ok.inj hspec
  rw [← hs] at hsp
  obtain ⟨hn2, j, ev2, pvc, hj, ht, hs2, he2, ho2, hpn, hpns⟩ :=
    hv { Name := "storage",
         VolumeSource := { PersistentVolumeClaim := some { ClaimName := "db-storage" } } }
      (by rw [hsp]; decide) { ClaimName := "db-storage" } rfl
  obtain ⟨hn3, j3, ev3, cm, hj3, ht3, hs3, he3, ho3, hcn, hcns⟩ :=
    hc { Name := "init-sql", VolumeSource := { ConfigMap := some { Name := "db-init" } } }
      (by rw [hsp]; decide) { Name := "db-init" } rfl
  exact ⟨_, d, rfl, rfl, ho, ⟨j, ev2, pvc, hj, ht, hs2, he2, ho2, hpn, by rw [hpns, hns]; rfl⟩,
    ⟨j3, ev3, cm, hj3, ht3, hs3, he3, ho3, hcn, by rw [hcns, hns]; rfl⟩⟩

end Steps

end SQLiteOperator
